import Mathlib

/-! # t8code geometry layer: a shallow embedding

The embedding follows
`src/t8_geometry/t8_geometry_implementations/t8_geometry_linear_axis_aligned.cxx` and
`src/t8_geometry/t8_geometry_implementations/t8_geometry_examples.cxx`, and the coarsening
callbacks of `example/remove/t8_balls.cxx`.

Conventions.

* A C array (`const double *`, `double *`, `int *`) is a total function from the index to
  the cell, `Nat → _`; pointer arithmetic `a + k` is the shifted function `shiftBuf a k`.
* A `for (i = 0; i < n; i++)` loop is `forLoop n body`, which runs `body 0`, `body 1`, ...
  in this order on the loop state.
* `double` is idealised: values are real numbers (in the box test: elements of an arbitrary
  linearly ordered field) and rounding is ignored.  A division whose divisor is zero has no
  real value (in the program it yields an infinity or a NaN), so every operation that divides
  returns an `Option`, and an output cell that the program fills with such a value holds
  `none`.
* Array indices are natural numbers; `3 * i` is assumed to stay in the range of the C index
  type.
-/

namespace T8

/-! ## Arrays and loops -/

/-- Loop `for (i = 0; i < n; i++) state = body i state`. -/
def forLoop {σ : Type} (n : Nat) (body : Nat → σ → σ) (s : σ) : σ :=
  match n with
  | 0 => s
  | k + 1 => body k (forLoop k body s)

/-- Assignment `a[i] = v`. -/
def writeCell {β : Type} (a : Nat → β) (i : Nat) (v : β) : Nat → β :=
  fun j => if j = i then v else a j

/-- Pointer arithmetic `a + k`. -/
def shiftBuf {β : Type} (a : Nat → β) (k : Nat) : Nat → β :=
  fun j => a (k + j)

/-! ## Axis-aligned linear geometry: `t8_geometry_linear_axis_aligned.cxx` -/

namespace t8_geometry_linear_axis_aligned

section BoxTest

variable {α : Type} [LinearOrderedField α]

/-- The right-hand side of the assignment to `is_inside[ipoint]` (lines 77-80): the
conjunction of the six comparisons, converted to `int`. -/
def inside_value (v_min v_max points : Nat → α) (tolerance : α) (ipoint : Nat) : Int :=
  if v_min 0 - tolerance ≤ points (ipoint * 3) ∧ points (ipoint * 3) ≤ v_max 0 + tolerance
      ∧ v_min 1 - tolerance ≤ points (ipoint * 3 + 1)
      ∧ points (ipoint * 3 + 1) ≤ v_max 1 + tolerance
      ∧ v_min 2 - tolerance ≤ points (ipoint * 3 + 2)
      ∧ points (ipoint * 3 + 2) ≤ v_max 2 + tolerance
  then 1 else 0

/-- Method `t8_geom_point_batch_inside_element` (lines 59-83).  The forest, tree and element
arguments are only passed on to `t8_forest_element_coordinate`, which belongs to the forest
layer; `element_coordinate c` stands for the three coordinates that call stores for corner
number `c`, so `v_min = element_coordinate 0` and `v_max = element_coordinate 1`.
`num_points` is a C `int`; the loop body runs for `ipoint = 0, ..., num_points - 1`. -/
def t8_geom_point_batch_inside_element (element_coordinate : Nat → Nat → α)
    (points : Nat → α) (num_points : Int) (is_inside : Nat → Int) (tolerance : α) :
    Nat → Int :=
  let v_min := element_coordinate 0
  let v_max := element_coordinate 1
  forLoop num_points.toNat
    (fun ipoint is_inside =>
      writeCell is_inside ipoint (inside_value v_min v_max points tolerance ipoint))
    is_inside

end BoxTest

/-- Method `t8_geom_evaluate_jacobian` (lines 51-57): the body is `SC_ABORT ("Not implemented.")`
and nothing else.  The abort is the error result; a normal return would hand back the
`jacobian` array. -/
def t8_geom_evaluate_jacobian {α κ : Type} (_cmesh : κ) (_gtreeid : Int)
    (_ref_coords : Nat → α) (_num_coords : Nat) (_jacobian : Nat → α) :
    Except String (Nat → α) :=
  Except.error "Not implemented."

end t8_geometry_linear_axis_aligned

/-! ## Vector kernel and interpolation helpers

The geometries call the vector kernel of `t8_vec.h` and the interpolation helpers of
`t8_geometry_helpers.c`.  Neither file is one of the two embedded here; their operations are
modelled from the specification (section 4.1: dot, cross, norm, normalize, affine
combination `axpy`/`axy`, difference, rescale-to-length; section 4.2: bilinear, trilinear
and barycentric interpolation). -/

noncomputable section

/-- Value of a `double[3]`. -/
structure Vec3 where
  x : ℝ
  y : ℝ
  z : ℝ

/-- Component `v[i]`. -/
def Vec3.get (v : Vec3) (i : Nat) : ℝ :=
  if i = 0 then v.x else if i = 1 then v.y else v.z

/-- The three consecutive cells `a[off], a[off+1], a[off+2]` read as a vector. -/
def vecAt (a : Nat → ℝ) (off : Nat) : Vec3 :=
  ⟨a off, a (off + 1), a (off + 2)⟩

/-- Division of two doubles; a zero divisor leaves no real value. -/
def fdiv (a b : ℝ) : Option ℝ :=
  if b = 0 then none else some (a / b)

/-- Sum of two cells; it has a real value only if both have. -/
def cellAdd (a b : Option ℝ) : Option ℝ :=
  match a, b with
  | some s, some t => some (s + t)
  | _, _ => none

/-- Three output cells read as a vector; defined only if all three are. -/
def readVec (out : Nat → Option ℝ) (off : Nat) : Option Vec3 :=
  match out off, out (off + 1), out (off + 2) with
  | some a, some b, some c => some ⟨a, b, c⟩
  | _, _, _ => none

/-- Store of a vector into three consecutive output cells; a vector without real value
(all components NaN or infinite in the program) leaves `none` in the three cells. -/
def writeVec (out : Nat → Option ℝ) (off : Nat) (v : Option Vec3) : Nat → Option ℝ :=
  fun j =>
    if j = off then v.map Vec3.x
    else if j = off + 1 then v.map Vec3.y
    else if j = off + 2 then v.map Vec3.z
    else out j

/-- Modelled from the spec: the macro `M_PI` of the C header `math.h`, the number pi of the
tangent corrections `tan(pi/4 * a_ref)` of section 4.4. -/
def M_PI : ℝ := Real.pi

/-- The `tan` of the C library, on idealised doubles. -/
def tan (t : ℝ) : ℝ := Real.tan t

/-- Modelled from the spec: `t8_vec_dot` of `t8_vec.h`, the dot product. -/
def t8_vec_dot (a b : Vec3) : ℝ :=
  a.x * b.x + a.y * b.y + a.z * b.z

/-- Modelled from the spec: `t8_vec_cross` of `t8_vec.h`, the cross product. -/
def t8_vec_cross (a b : Vec3) : Vec3 :=
  ⟨a.y * b.z - a.z * b.y, a.z * b.x - a.x * b.z, a.x * b.y - a.y * b.x⟩

/-- Modelled from the spec: `t8_vec_norm` of `t8_vec.h`, the Euclidean norm. -/
def t8_vec_norm (v : Vec3) : ℝ :=
  Real.sqrt (t8_vec_dot v v)

/-- Modelled from the spec: `t8_vec_copy` of `t8_vec.h`. -/
def t8_vec_copy (v : Vec3) : Vec3 := v

/-- Modelled from the spec: `t8_vec_ax` of `t8_vec.h`, `v := alpha * v`. -/
def t8_vec_ax (v : Vec3) (alpha : ℝ) : Vec3 :=
  ⟨alpha * v.x, alpha * v.y, alpha * v.z⟩

/-- Modelled from the spec: `t8_vec_axy` of `t8_vec.h`, `y := alpha * x`. -/
def t8_vec_axy (x : Vec3) (alpha : ℝ) : Vec3 :=
  ⟨alpha * x.x, alpha * x.y, alpha * x.z⟩

/-- Modelled from the spec: `t8_vec_axpy` of `t8_vec.h`, `y := y + alpha * x`. -/
def t8_vec_axpy (x y : Vec3) (alpha : ℝ) : Vec3 :=
  ⟨y.x + alpha * x.x, y.y + alpha * x.y, y.z + alpha * x.z⟩

/-- Modelled from the spec: `t8_vec_diff` of `t8_vec.h`, `a - b`. -/
def t8_vec_diff (a b : Vec3) : Vec3 :=
  ⟨a.x - b.x, a.y - b.y, a.z - b.z⟩

/-- Modelled from the spec: `t8_vec_normalize` of `t8_vec.h`, division of the vector by its
norm.  For the zero vector the division is by zero (specification 4.1: undefined). -/
def t8_vec_normalize (v : Vec3) : Option Vec3 :=
  (fdiv 1 (t8_vec_norm v)).map (fun inv_norm => t8_vec_ax v inv_norm)

/-- Modelled from the spec: `t8_vec_rescale` of `t8_vec.h`, rescale-to-length: normalize,
then multiply by the new length. -/
def t8_vec_rescale (v : Vec3) (new_length : ℝ) : Option Vec3 :=
  (t8_vec_normalize v).map (fun u => t8_vec_ax u new_length)

/-- Modelled from the spec: `t8_vec_tri_normal` of `t8_vec.h`, the normal of the triangle
`p1 p2 p3`: the cross product of the two edge vectors that start in `p1`. -/
def t8_vec_tri_normal (p1 p2 p3 : Vec3) : Vec3 :=
  t8_vec_cross (t8_vec_diff p2 p1) (t8_vec_diff p3 p1)

/-- Modelled from the spec: `t8_geom_linear_interpolation` of `t8_geometry_helpers.c` for
three-dimensional corner values: linear (`interpolation_dim = 1`), bilinear (`2`) or
trilinear (`3`) blend of the corner values, corners numbered with the x index running
fastest.  This is component `i_dim` of the result. -/
def linear_interpolation_component (coefficients corner_values : Nat → ℝ)
    (interpolation_dim i_dim : Nat) : ℝ :=
  let c := coefficients
  let t1 := corner_values (0 * 3 + i_dim) * (1 - c 0) + corner_values (1 * 3 + i_dim) * c 0
  if interpolation_dim > 1 then
    let t2 := t1 * (1 - c 1)
      + (corner_values (2 * 3 + i_dim) * (1 - c 0) + corner_values (3 * 3 + i_dim) * c 0) * c 1
    if interpolation_dim = 3 then
      t2 * (1 - c 2)
        + (corner_values (4 * 3 + i_dim) * (1 - c 0) * (1 - c 1)
            + corner_values (5 * 3 + i_dim) * c 0 * (1 - c 1)
            + corner_values (6 * 3 + i_dim) * (1 - c 0) * c 1
            + corner_values (7 * 3 + i_dim) * c 0 * c 1) * c 2
    else t2
  else t1

/-- Modelled from the spec: `t8_geom_linear_interpolation` of `t8_geometry_helpers.c`, called
with `corner_value_dim = 3` throughout. -/
def t8_geom_linear_interpolation (coefficients corner_values : Nat → ℝ)
    (_corner_value_dim interpolation_dim : Nat) : Vec3 :=
  ⟨linear_interpolation_component coefficients corner_values interpolation_dim 0,
   linear_interpolation_component coefficients corner_values interpolation_dim 1,
   linear_interpolation_component coefficients corner_values interpolation_dim 2⟩

/-- Modelled from the spec: `t8_geom_compute_linear_geometry` of `t8_geometry_helpers.c` in
its one use, with `T8_ECLASS_PRISM` and one point: barycentric interpolation in the bottom
triangle (corners 0, 1, 2) and in the top triangle (corners 3, 4, 5), the reference triangle
having the corners (0,0), (1,0), (1,1), blended linearly along the third reference
coordinate. -/
def t8_geom_compute_linear_geometry_prism (tree_vertices ref_coords : Nat → ℝ) : Vec3 :=
  let tri (off : Nat) : Vec3 :=
    t8_vec_axpy (t8_vec_diff (vecAt tree_vertices (off + 6)) (vecAt tree_vertices (off + 3)))
      (t8_vec_axpy (t8_vec_diff (vecAt tree_vertices (off + 3)) (vecAt tree_vertices off))
        (vecAt tree_vertices off) (ref_coords 0))
      (ref_coords 1)
  t8_vec_axpy (tri 9) (t8_vec_axy (tri 0) (1 - ref_coords 2)) (ref_coords 2)

/-- Element classes, `t8_eclass_t`. -/
inductive t8_eclass_t where
  | T8_ECLASS_VERTEX
  | T8_ECLASS_LINE
  | T8_ECLASS_QUAD
  | T8_ECLASS_TRIANGLE
  | T8_ECLASS_HEX
  | T8_ECLASS_TET
  | T8_ECLASS_PRISM
  | T8_ECLASS_PYRAMID
deriving DecidableEq

/-! ## Example geometries: `t8_geometry_examples.cxx`

In every method the argument `cmesh` is unused; `active_tree_vertices` is the member that
holds the corner coordinates of the active tree.  `gtreeid` is a global tree index, a
natural number; C's `%` on it is the remainder of natural numbers, and on the possibly
negative `gtreeid - 2` it is the truncating `Int.tmod`. -/

namespace t8_geometry_quadrangulated_disk

/-- Locals of `t8_geom_evaluate` that are set before the loop (lines 46-54). -/
structure Locals where
  n : Vec3
  r : Vec3
  inv_denominator : ℝ

/-- Lines 46-54: `n`, `r` and `inv_denominator`. -/
def locals (active_tree_vertices : Nat → ℝ) : Option Locals := do
  let n ← t8_vec_normalize (t8_vec_copy (vecAt active_tree_vertices 0))
  let r ← t8_vec_normalize (t8_vec_copy (vecAt active_tree_vertices 9))
  let inv_denominator ← fdiv 1.0 (t8_vec_dot r n)
  pure ⟨n, r, inv_denominator⟩

/-- Line 57: the radial reference coordinate index. -/
def r_coord (gtreeid : Nat) : Nat :=
  if Int.tmod ((gtreeid : Int) - 2) 3 = 0 then 0 else 1

/-- Line 59: the angular reference coordinate index. -/
def a_coord (gtreeid : Nat) : Nat :=
  if Int.tmod ((gtreeid : Int) - 2) 3 = 0 then 1 else 0

/-- Lines 62-89, one round of the side-quad loop: the three values stored at
`out_coords + offset_3d`.  `ref` is `ref_coords + offset_2d`.  The array `corr_ref_coords`
is written in the cells `r_coord`, `a_coord` and 2 before it is read. -/
def side_point (active_tree_vertices : Nat → ℝ) (gtreeid : Nat) (l : Locals)
    (ref : Nat → ℝ) : Option Vec3 := do
  let r_ref := ref (r_coord gtreeid)
  let a_ref := ref (a_coord gtreeid)
  let corr_ref_coords : Nat → ℝ :=
    writeCell (writeCell (writeCell (fun _ => 0) (r_coord gtreeid) r_ref)
      (a_coord gtreeid) (tan (0.25 * M_PI * a_ref))) 2 0.0
  let s ← t8_vec_normalize (t8_geom_linear_interpolation corr_ref_coords active_tree_vertices 3 2)
  let p := t8_geom_linear_interpolation ref active_tree_vertices 3 2
  let out_radius := t8_vec_dot p l.n * l.inv_denominator
  let out := t8_vec_axy p (1.0 - r_ref)
  pure (t8_vec_axpy s out (r_ref * out_radius))

/-- Method `t8_geometry_quadrangulated_disk::t8_geom_evaluate` (lines 27-91). -/
def t8_geom_evaluate (active_tree_vertices : Nat → ℝ) (gtreeid : Nat) (ref_coords : Nat → ℝ)
    (num_coords : Nat) (out_coords : Nat → Option ℝ) : Nat → Option ℝ :=
  if gtreeid % 3 = 0 then
    forLoop num_coords
      (fun i_coord out =>
        let offset_2d := 2 * i_coord
        let offset_3d := 3 * i_coord
        writeVec out offset_3d
          (some (t8_geom_linear_interpolation (shiftBuf ref_coords offset_2d)
            active_tree_vertices 3 2)))
      out_coords
  else
    let l := locals active_tree_vertices
    forLoop num_coords
      (fun i_coord out =>
        let offset_2d := 2 * i_coord
        let offset_3d := 3 * i_coord
        writeVec out offset_3d
          (l.bind (fun l =>
            side_point active_tree_vertices gtreeid l (shiftBuf ref_coords offset_2d))))
      out_coords

end t8_geometry_quadrangulated_disk

/-- Lines 113-136 of `t8_map_triangle_to_sphere`, one round of the loop: the position
vector `pos` before it is rescaled.  `ref` is `ref_coords + offset`. -/
def t8_map_triangle_to_sphere_raw (u v w : Vec3) (u_ref v_ref w_ref : Vec3)
    (ref : Nat → ℝ) : Vec3 :=
  let x_ref := ref 0
  let y_ref := ref 1
  let vv_ref := u_ref.x + x_ref * v_ref.x + y_ref * w_ref.x
  let ww_ref := u_ref.y + x_ref * v_ref.y + y_ref * w_ref.y
  let vv_corr := tan (0.5 * M_PI * (vv_ref - 0.5)) * 0.5 + 0.5
  let ww_corr := tan (0.5 * M_PI * (ww_ref - 0.5)) * 0.5 + 0.5
  ⟨u.x + vv_corr * v.x + ww_corr * w.x,
   u.y + vv_corr * v.y + ww_corr * w.y,
   u.z + vv_corr * v.z + ww_corr * w.z⟩

/-- Lines 104-108 of `t8_map_triangle_to_sphere`: the corner `u`. -/
def tri_u (active_tree_vertices : Nat → ℝ) (shift : Nat) : Vec3 :=
  vecAt active_tree_vertices (((3 - shift + 0) % 3) * 3)

/-- Lines 104-108 of `t8_map_triangle_to_sphere`: the first side `v`. -/
def tri_v (active_tree_vertices : Nat → ℝ) (shift : Nat) : Vec3 :=
  t8_vec_diff (vecAt active_tree_vertices (((3 - shift + 1) % 3) * 3))
    (tri_u active_tree_vertices shift)

/-- Lines 104-108 of `t8_map_triangle_to_sphere`: the second side `w`. -/
def tri_w (active_tree_vertices : Nat → ℝ) (shift : Nat) : Vec3 :=
  t8_vec_diff (vecAt active_tree_vertices (((3 - shift + 2) % 3) * 3))
    (tri_u active_tree_vertices shift)

/-- Function `t8_map_triangle_to_sphere` (lines 94-144).  `shift` is 0, 1 or 2. -/
def t8_map_triangle_to_sphere (active_tree_vertices : Nat → ℝ) (sphere_radius : ℝ)
    (shift : Nat) (u_ref v_ref w_ref : Vec3) (ref_coords : Nat → ℝ) (num_coords : Nat)
    (out_coords : Nat → Option ℝ) : Nat → Option ℝ :=
  let u : Vec3 := tri_u active_tree_vertices shift
  let v : Vec3 := tri_v active_tree_vertices shift
  let w : Vec3 := tri_w active_tree_vertices shift
  forLoop num_coords
    (fun i_coord out =>
      let offset := 3 * i_coord
      let pos := t8_map_triangle_to_sphere_raw u v w u_ref v_ref w_ref (shiftBuf ref_coords offset)
      let pos := t8_vec_rescale pos sphere_radius
      forLoop 3
        (fun i out =>
          writeCell out (offset + i)
            (cellAdd (out (offset + i)) (pos.map (fun pos => pos.get i * (1.0 / 3.0)))))
        out)
    out_coords

/-- Function `t8_geom_evaluate_sphere_tri_prism` (lines 146-221). -/
def t8_geom_evaluate_sphere_tri_prism (active_tree_vertices : Nat → ℝ) (eclass : t8_eclass_t)
    (ref_coords : Nat → ℝ) (num_coords : Nat) (out_coords : Nat → Option ℝ) :
    Nat → Option ℝ :=
  let out_coords := forLoop (3 * num_coords) (fun i out => writeCell out i (some 0.0)) out_coords
  let sphere_radius := t8_vec_norm (vecAt active_tree_vertices 0)
  let out_coords :=
    t8_map_triangle_to_sphere active_tree_vertices sphere_radius 0
      ⟨0.0, 0.0, 0.0⟩ ⟨1.0, 0.0, 0.0⟩ ⟨-1.0, 1.0, 0.0⟩ ref_coords num_coords out_coords
  let out_coords :=
    t8_map_triangle_to_sphere active_tree_vertices sphere_radius 1
      ⟨1.0, 0.0, 0.0⟩ ⟨-1.0, 1.0, 0.0⟩ ⟨0.0, -1.0, 0.0⟩ ref_coords num_coords out_coords
  let out_coords :=
    t8_map_triangle_to_sphere active_tree_vertices sphere_radius 2
      ⟨0.0, 1.0, 0.0⟩ ⟨0.0, -1.0, 0.0⟩ ⟨1.0, 0.0, 0.0⟩ ref_coords num_coords out_coords
  if eclass = t8_eclass_t.T8_ECLASS_TRIANGLE then out_coords
  else
    let n :=
      t8_vec_normalize
        (t8_vec_tri_normal (vecAt active_tree_vertices 0) (vecAt active_tree_vertices 3)
          (vecAt active_tree_vertices 6))
    let r := t8_vec_normalize (vecAt active_tree_vertices 0)
    let denominator := n.bind (fun n => r.bind (fun r => fdiv 1.0 (t8_vec_dot r n)))
    forLoop num_coords
      (fun i_coord out =>
        let offset := 3 * i_coord
        let p := t8_geom_compute_linear_geometry_prism active_tree_vertices
          (shiftBuf ref_coords offset)
        writeVec out offset
          ((readVec out offset).bind (fun o => n.bind (fun n => denominator.bind (fun d =>
            t8_vec_rescale o (t8_vec_dot p n * d))))))
      out_coords

namespace t8_geometry_triangulated_spherical_surface

/-- Method `t8_geometry_triangulated_spherical_surface::t8_geom_evaluate` (lines 230-236). -/
def t8_geom_evaluate (active_tree_vertices : Nat → ℝ) (_gtreeid : Nat) (ref_coords : Nat → ℝ)
    (num_coords : Nat) (out_coords : Nat → Option ℝ) : Nat → Option ℝ :=
  t8_geom_evaluate_sphere_tri_prism active_tree_vertices t8_eclass_t.T8_ECLASS_TRIANGLE
    ref_coords num_coords out_coords

end t8_geometry_triangulated_spherical_surface

namespace t8_geometry_prismed_spherical_shell

/-- Method `t8_geometry_prismed_spherical_shell::t8_geom_evaluate` (lines 245-251). -/
def t8_geom_evaluate (active_tree_vertices : Nat → ℝ) (_gtreeid : Nat) (ref_coords : Nat → ℝ)
    (num_coords : Nat) (out_coords : Nat → Option ℝ) : Nat → Option ℝ :=
  t8_geom_evaluate_sphere_tri_prism active_tree_vertices t8_eclass_t.T8_ECLASS_PRISM
    ref_coords num_coords out_coords

end t8_geometry_prismed_spherical_shell

/-- The local constant `_SQRT3 = 1.7320508075688772` of both cube-face geometries
(lines 274 and 340), the double next to the square root of 3. -/
def _SQRT3 : ℝ := 1.7320508075688772

/-- Locals that the quadrangulated spherical surface and the cubed spherical shell set
before their loop (lines 276-293 and 342-359, the same statements). -/
structure FaceFrame where
  normal : Vec3
  R : ℝ
  tangent1 : Vec3
  tangent2 : Vec3
  origin : Vec3

/-- Lines 276-293, and again 342-359 without the radii: the unit normal, `R`, the two
tangents and `origin`. -/
def face_frame (active_tree_vertices : Nat → ℝ) : Option FaceFrame := do
  let normal ← t8_vec_normalize
    (t8_vec_tri_normal (vecAt active_tree_vertices 0) (vecAt active_tree_vertices 3)
      (vecAt active_tree_vertices 6))
  let R := |t8_vec_dot (vecAt active_tree_vertices 0) normal|
  let tangent1 : Vec3 := ⟨normal.y, normal.z, -normal.x⟩
  let tangent1 := t8_vec_axpy normal tangent1 (-(t8_vec_dot normal tangent1))
  let tangent2 := t8_vec_cross normal tangent1
  let tangent1 ← t8_vec_normalize tangent1
  let tangent2 ← t8_vec_normalize tangent2
  let origin := t8_vec_axy normal R
  pure ⟨normal, R, tangent1, tangent2, origin⟩

/-- Lines 304-312, and again 369-377: the vector `out_pos` before it is rescaled.  `ref` is
`ref_coords` plus the offset of the point. -/
def face_out_pos (active_tree_vertices : Nat → ℝ) (f : FaceFrame) (ref : Nat → ℝ) :
    Option Vec3 := do
  let position := t8_geom_linear_interpolation ref active_tree_vertices 3 2
  let local_pos := t8_vec_diff position f.origin
  let q1 ← fdiv (0.25 * M_PI * t8_vec_dot f.tangent1 local_pos) f.R
  let alpha1 := f.R * tan q1
  let q2 ← fdiv (0.25 * M_PI * t8_vec_dot f.tangent2 local_pos) f.R
  let alpha2 := f.R * tan q2
  let out_pos := t8_vec_copy f.origin
  let out_pos := t8_vec_axpy f.tangent1 out_pos alpha1
  let out_pos := t8_vec_axpy f.tangent2 out_pos alpha2
  pure out_pos

namespace t8_geometry_quadrangulated_spherical_surface

/-- Lines 297-317, one round of the loop: the three values stored at
`out_coords + offset_3d`. -/
def point (active_tree_vertices : Nat → ℝ) (f : FaceFrame) (ref : Nat → ℝ) : Option Vec3 := do
  let radius := f.R * _SQRT3
  let out_pos ← face_out_pos active_tree_vertices f ref
  t8_vec_rescale out_pos radius

/-- Method `t8_geometry_quadrangulated_spherical_surface::t8_geom_evaluate`
(lines 260-318). -/
def t8_geom_evaluate (active_tree_vertices : Nat → ℝ) (_gtreeid : Nat) (ref_coords : Nat → ℝ)
    (num_coords : Nat) (out_coords : Nat → Option ℝ) : Nat → Option ℝ :=
  let f := face_frame active_tree_vertices
  forLoop num_coords
    (fun i_coord out =>
      let offset_2d := 2 * i_coord
      let offset_3d := 3 * i_coord
      writeVec out offset_3d
        (f.bind (fun f => point active_tree_vertices f (shiftBuf ref_coords offset_2d))))
    out_coords

end t8_geometry_quadrangulated_spherical_surface

namespace t8_geometry_cubed_spherical_shell

/-- Lines 363-382, one round of the loop: the three values stored at
`out_coords + offset_3d`. -/
def point (active_tree_vertices : Nat → ℝ) (f : FaceFrame) (ref : Nat → ℝ) : Option Vec3 := do
  let inner_radius := f.R * _SQRT3
  let shell_thickness :=
    |t8_vec_dot (vecAt active_tree_vertices (4 * 3)) f.normal| * _SQRT3 - inner_radius
  let out_pos ← face_out_pos active_tree_vertices f ref
  t8_vec_rescale out_pos (inner_radius + ref 2 * shell_thickness)

/-- Method `t8_geometry_cubed_spherical_shell::t8_geom_evaluate` (lines 327-383). -/
def t8_geom_evaluate (active_tree_vertices : Nat → ℝ) (_gtreeid : Nat) (ref_coords : Nat → ℝ)
    (num_coords : Nat) (out_coords : Nat → Option ℝ) : Nat → Option ℝ :=
  let f := face_frame active_tree_vertices
  forLoop num_coords
    (fun i_coord out =>
      let offset_3d := 3 * i_coord
      writeVec out offset_3d
        (f.bind (fun f => point active_tree_vertices f (shiftBuf ref_coords offset_3d))))
    out_coords

end t8_geometry_cubed_spherical_shell

namespace t8_geometry_cubed_sphere

/-- Locals of `t8_geom_evaluate` that are set before the loop (lines 403-409). -/
structure Locals where
  n : Vec3
  r : Vec3
  inv_denominator : ℝ

/-- Lines 403-409: `n`, `r` and `inv_denominator`. -/
def locals (active_tree_vertices : Nat → ℝ) : Option Locals := do
  let n ← t8_vec_normalize (t8_vec_copy (vecAt active_tree_vertices 0))
  let r ← t8_vec_normalize (t8_vec_copy (vecAt active_tree_vertices (7 * 3)))
  let inv_denominator ← fdiv 1.0 (t8_vec_dot r n)
  pure ⟨n, r, inv_denominator⟩

/-- Line 412. -/
def r_coord_lookup : List Int := [-1, 1, 0, 2]

/-- Line 415. -/
def t_coord_lookup : List Int := [-1, 0, 1, 0]

/-- Line 418. -/
def p_coord_lookup : List Int := [-1, 2, 2, 1]

/-- Array access `table[k]` for an index `k` within the four entries. -/
def lookup (table : List Int) (k : Nat) : Int :=
  table.getD k 0

/-- Index `offset + c` for an `int` offset `c`. -/
def idx (offset : Nat) (c : Int) : Nat :=
  ((offset : Int) + c).toNat

/-- Lines 422-450, one round of the side-hexahedron loop: the three values stored at
`out_coords + offset`.  `ref` is `ref_coords + offset`. -/
def side_point (active_tree_vertices : Nat → ℝ) (gtreeid : Nat) (l : Locals)
    (ref : Nat → ℝ) : Option Vec3 := do
  let r_coord := lookup r_coord_lookup (gtreeid % 4)
  let t_coord := lookup t_coord_lookup (gtreeid % 4)
  let p_coord := lookup p_coord_lookup (gtreeid % 4)
  let r_ref := ref (idx 0 r_coord)
  let t_ref := ref (idx 0 t_coord)
  let p_ref := ref (idx 0 p_coord)
  let corr_ref_coords : Nat → ℝ :=
    writeCell (writeCell (writeCell (fun _ => 0) (idx 0 r_coord) r_ref)
      (idx 0 t_coord) (tan (0.25 * M_PI * t_ref))) (idx 0 p_coord) (tan (0.25 * M_PI * p_ref))
  let s ← t8_vec_normalize (t8_geom_linear_interpolation corr_ref_coords active_tree_vertices 3 3)
  let p := t8_geom_linear_interpolation ref active_tree_vertices 3 3
  let out_radius := t8_vec_dot p l.n * l.inv_denominator
  let out := t8_vec_axy p (1.0 - r_ref)
  pure (t8_vec_axpy s out (r_ref * out_radius))

/-- Method `t8_geometry_cubed_sphere::t8_geom_evaluate` (lines 385-452). -/
def t8_geom_evaluate (active_tree_vertices : Nat → ℝ) (gtreeid : Nat) (ref_coords : Nat → ℝ)
    (num_coords : Nat) (out_coords : Nat → Option ℝ) : Nat → Option ℝ :=
  if gtreeid % 4 = 0 then
    forLoop num_coords
      (fun i_coord out =>
        let offset := 3 * i_coord
        writeVec out offset
          (some (t8_geom_linear_interpolation (shiftBuf ref_coords offset)
            active_tree_vertices 3 3)))
      out_coords
  else
    let l := locals active_tree_vertices
    forLoop num_coords
      (fun i_coord out =>
        let offset := 3 * i_coord
        writeVec out offset
          (l.bind (fun l =>
            side_point active_tree_vertices gtreeid l (shiftBuf ref_coords offset))))
      out_coords

end t8_geometry_cubed_sphere

/-! ## Quantities named in the statements -/

/-- Corner number `c` of the active tree. -/
def corner (active_tree_vertices : Nat → ℝ) (c : Nat) : Vec3 :=
  vecAt active_tree_vertices (3 * c)

/-- The face normal that both cube-face geometries and the prism shell compute from the
first three corners, before it is normalized. -/
def face_normal (active_tree_vertices : Nat → ℝ) : Vec3 :=
  t8_vec_tri_normal (vecAt active_tree_vertices 0) (vecAt active_tree_vertices 3)
    (vecAt active_tree_vertices 6)

/-- The unit face normal `n`, meaningful when the face normal is not zero. -/
def unit_normal (active_tree_vertices : Nat → ℝ) : Vec3 :=
  t8_vec_ax (face_normal active_tree_vertices) (1 / t8_vec_norm (face_normal active_tree_vertices))

/-- The corrected local triangle coordinate of lines 128-129, as a function of the
uncorrected one. -/
def tri_corr (t : ℝ) : ℝ :=
  tan (0.5 * M_PI * (t - 0.5)) * 0.5 + 0.5

/-- The position vector `pos`, before it is rescaled, of the sub-mapping anchored at corner
number `shift` of the triangle, with the reference vectors of its call in
`t8_geom_evaluate_sphere_tri_prism` (lines 162-190). -/
def sub_mapping_raw (active_tree_vertices : Nat → ℝ) (shift : Nat) (ref : Nat → ℝ) : Vec3 :=
  match shift with
  | 0 =>
    t8_map_triangle_to_sphere_raw (tri_u active_tree_vertices 0) (tri_v active_tree_vertices 0)
      (tri_w active_tree_vertices 0) ⟨0.0, 0.0, 0.0⟩ ⟨1.0, 0.0, 0.0⟩ ⟨-1.0, 1.0, 0.0⟩ ref
  | 1 =>
    t8_map_triangle_to_sphere_raw (tri_u active_tree_vertices 1) (tri_v active_tree_vertices 1)
      (tri_w active_tree_vertices 1) ⟨1.0, 0.0, 0.0⟩ ⟨-1.0, 1.0, 0.0⟩ ⟨0.0, -1.0, 0.0⟩ ref
  | _ =>
    t8_map_triangle_to_sphere_raw (tri_u active_tree_vertices 2) (tri_v active_tree_vertices 2)
      (tri_w active_tree_vertices 2) ⟨0.0, 1.0, 0.0⟩ ⟨0.0, -1.0, 0.0⟩ ⟨1.0, 0.0, 0.0⟩ ref

/-- That position vector rescaled to the sphere radius, the norm of the first corner: the
sphere projection of the sub-mapping anchored at corner number `shift`. -/
def sub_mapping (active_tree_vertices : Nat → ℝ) (shift : Nat) (ref : Nat → ℝ) : Option Vec3 :=
  t8_vec_rescale (sub_mapping_raw active_tree_vertices shift ref)
    (t8_vec_norm (vecAt active_tree_vertices 0))

/-- The inner radius of the cubed spherical shell, `|V0 . n| * _SQRT3`. -/
def inner_radius (active_tree_vertices : Nat → ℝ) : ℝ :=
  |t8_vec_dot (corner active_tree_vertices 0) (unit_normal active_tree_vertices)| * _SQRT3

/-- The outer radius of the cubed spherical shell, `|V4 . n| * _SQRT3`. -/
def outer_radius (active_tree_vertices : Nat → ℝ) : ℝ :=
  |t8_vec_dot (corner active_tree_vertices 4) (unit_normal active_tree_vertices)| * _SQRT3

/-- A flat array with the given leading cells, and zeros after them. -/
def arrayOf (cells : List ℝ) : Nat → ℝ :=
  fun j => cells.getD j 0

/-- The content of the three output cells of a point after the clearing loop and the three
calls of `t8_map_triangle_to_sphere`, when the three sphere projections are `p0`, `p1`, `p2`:
`0.0` plus a third of each, component by component (lines 140-142). -/
def average3 (p0 p1 p2 : Vec3) : Vec3 :=
  ⟨0.0 + p0.x * (1.0 / 3.0) + p1.x * (1.0 / 3.0) + p2.x * (1.0 / 3.0),
   0.0 + p0.y * (1.0 / 3.0) + p1.y * (1.0 / 3.0) + p2.y * (1.0 / 3.0),
   0.0 + p0.z * (1.0 / 3.0) + p1.z * (1.0 / 3.0) + p2.z * (1.0 / 3.0)⟩

/-- The radial unit vector `r` of the prism shell (lines 204-208), meaningful when the first
corner is not the origin. -/
def radial_unit (active_tree_vertices : Nat → ℝ) : Vec3 :=
  t8_vec_ax (vecAt active_tree_vertices 0) (1 / t8_vec_norm (vecAt active_tree_vertices 0))

/-! ## Loop bodies and predicates named for the proofs -/

/-- The new vector of a point in the last loop of `t8_geom_evaluate_sphere_tri_prism`
(lines 213-220), as a function of the round and of the vector found in the output cells. -/
def prism_rescale (active_tree_vertices : Nat → ℝ) (ref_coords : Nat → ℝ) (i_coord : Nat)
    (o : Option Vec3) : Option Vec3 :=
  let n :=
    t8_vec_normalize
      (t8_vec_tri_normal (vecAt active_tree_vertices 0) (vecAt active_tree_vertices 3)
        (vecAt active_tree_vertices 6))
  let r := t8_vec_normalize (vecAt active_tree_vertices 0)
  let denominator := n.bind (fun n => r.bind (fun r => fdiv 1.0 (t8_vec_dot r n)))
  let p := t8_geom_compute_linear_geometry_prism active_tree_vertices
    (shiftBuf ref_coords (3 * i_coord))
  o.bind (fun o => n.bind (fun n => denominator.bind (fun d =>
    t8_vec_rescale o (t8_vec_dot p n * d))))

/-- The body of the loop of `t8_map_triangle_to_sphere`, with the vector `pos i` of round
`i` given. -/
def accumulate_body (pos : Nat → Option Vec3) (i_coord : Nat) (out : Nat → Option ℝ) :
    Nat → Option ℝ :=
  forLoop 3
    (fun i out =>
      writeCell out (3 * i_coord + i)
        (cellAdd (out (3 * i_coord + i)) ((pos i_coord).map (fun pos => pos.get i * (1.0 / 3.0)))))
    out

/-- The body of the last loop of `t8_geom_evaluate_sphere_tri_prism` (lines 213-220), with
the new vector given as a function of the round and the old vector. -/
def update_body (F : Nat → Option Vec3 → Option Vec3) (i_coord : Nat)
    (out : Nat → Option ℝ) : Nat → Option ℝ :=
  writeVec out (3 * i_coord) (F i_coord (readVec out (3 * i_coord)))

/-- What the statements below use of a face frame: the normal is a unit vector, both
tangents are orthogonal to it, and `origin` is `R` times the normal. -/
def FaceFrame.Good (f : FaceFrame) : Prop :=
  t8_vec_dot f.normal f.normal = 1 ∧ t8_vec_dot f.tangent1 f.normal = 0
    ∧ t8_vec_dot f.tangent2 f.normal = 0 ∧ f.origin = t8_vec_axy f.normal f.R

/-- The point of the straight edge from `Va` to `Vb` with the corrected edge parameter:
`(1 - f(t)) * Va + f(t) * Vb`, `f` the tangent correction `tri_corr`. -/
def edge_vector (Va Vb : Vec3) (t : ℝ) : Vec3 :=
  ⟨(1 - tri_corr t) * Va.x + tri_corr t * Vb.x,
   (1 - tri_corr t) * Va.y + tri_corr t * Vb.y,
   (1 - tri_corr t) * Va.z + tri_corr t * Vb.z⟩

/-- That point rescaled to the length `R`. -/
def tri_edge_point (Va Vb : Vec3) (t R : ℝ) : Option Vec3 :=
  t8_vec_rescale (edge_vector Va Vb t) R

/-- The two end vertices of edge number `e` of the triangle: edge 0 is `y = 0` (corners 0
and 1), edge 1 is `x = 1` (corners 1 and 2), every other number stands for the edge `x = y`
(corners 0 and 2). -/
def edge_ends (active_tree_vertices : Nat → ℝ) (e : Nat) : Vec3 × Vec3 :=
  match e with
  | 0 => (corner active_tree_vertices 0, corner active_tree_vertices 1)
  | 1 => (corner active_tree_vertices 1, corner active_tree_vertices 2)
  | _ => (corner active_tree_vertices 0, corner active_tree_vertices 2)

/-- The reference point with parameter `t` on edge number `e` of the reference triangle:
`(t, 0)`, `(1, t)` or `(t, t)`. -/
def edge_ref (e : Nat) (t : ℝ) : Nat → ℝ :=
  match e with
  | 0 => arrayOf [t, 0]
  | 1 => arrayOf [1, t]
  | _ => arrayOf [t, t]

/-- The two local triangle coordinates `vv_ref`, `ww_ref` of lines 118-119. -/
def tri_local_coords (u_ref v_ref w_ref : Vec3) (ref : Nat → ℝ) : ℝ × ℝ :=
  (u_ref.x + ref 0 * v_ref.x + ref 1 * w_ref.x, u_ref.y + ref 0 * v_ref.y + ref 1 * w_ref.y)

/-- The reference vectors `u_ref`, `v_ref`, `w_ref` of the call of
`t8_map_triangle_to_sphere` with the given `shift` (lines 162-190). -/
def tri_reference_frame (shift : Nat) : Vec3 × Vec3 × Vec3 :=
  match shift with
  | 0 => (⟨0.0, 0.0, 0.0⟩, ⟨1.0, 0.0, 0.0⟩, ⟨-1.0, 1.0, 0.0⟩)
  | 1 => (⟨1.0, 0.0, 0.0⟩, ⟨-1.0, 1.0, 0.0⟩, ⟨0.0, -1.0, 0.0⟩)
  | _ => (⟨0.0, 1.0, 0.0⟩, ⟨0.0, -1.0, 0.0⟩, ⟨1.0, 0.0, 0.0⟩)

/-- The two arguments passed to `tan` in lines 128-129 by the sub-mapping with the given
`shift`. -/
def tri_tan_args (shift : Nat) (ref : Nat → ℝ) : ℝ × ℝ :=
  let f := tri_reference_frame shift
  let c := tri_local_coords f.1 f.2.1 f.2.2 ref
  (0.5 * M_PI * (c.1 - 0.5), 0.5 * M_PI * (c.2 - 0.5))

/-- The argument passed to `tan` in line 73 by the quadrangulated disk. -/
def disk_tan_arg (gtreeid : Nat) (ref : Nat → ℝ) : ℝ :=
  0.25 * M_PI * ref (t8_geometry_quadrangulated_disk.a_coord gtreeid)

/-- The two arguments passed to `tan` in lines 435-436 by the cubed sphere. -/
def cubed_sphere_tan_args (gtreeid : Nat) (ref : Nat → ℝ) : ℝ × ℝ :=
  (0.25 * M_PI
      * ref (t8_geometry_cubed_sphere.idx 0
          (t8_geometry_cubed_sphere.lookup t8_geometry_cubed_sphere.t_coord_lookup (gtreeid % 4))),
   0.25 * M_PI
      * ref (t8_geometry_cubed_sphere.idx 0
          (t8_geometry_cubed_sphere.lookup t8_geometry_cubed_sphere.p_coord_lookup (gtreeid % 4))))

/-- The argument of a tangent correction lies in `[-pi/4, pi/4]`, and the tangent there in
`[-1, 1]`. -/
def tan_arg_in_range (θ : ℝ) : Prop :=
  -(M_PI / 4) ≤ θ ∧ θ ≤ M_PI / 4 ∧ -1 ≤ tan θ ∧ tan θ ≤ 1

/-- Plain bilinear interpolation of the four corner points `c 0, ..., c 3` at `(x, y)`,
corners numbered with the x index running fastest. -/
def bilinear (c : Nat → Vec3) (x y : ℝ) : Vec3 :=
  ⟨(c 0).x * (1 - x) * (1 - y) + (c 1).x * x * (1 - y) + (c 2).x * (1 - x) * y + (c 3).x * x * y,
   (c 0).y * (1 - x) * (1 - y) + (c 1).y * x * (1 - y) + (c 2).y * (1 - x) * y + (c 3).y * x * y,
   (c 0).z * (1 - x) * (1 - y) + (c 1).z * x * (1 - y) + (c 2).z * (1 - x) * y + (c 3).z * x * y⟩

/-- Plain trilinear interpolation of the eight corner points `c 0, ..., c 7` at
`(x, y, z)`. -/
def trilinear (c : Nat → Vec3) (x y z : ℝ) : Vec3 :=
  ⟨((c 0).x * (1 - x) * (1 - y) + (c 1).x * x * (1 - y) + (c 2).x * (1 - x) * y
        + (c 3).x * x * y) * (1 - z)
      + ((c 4).x * (1 - x) * (1 - y) + (c 5).x * x * (1 - y) + (c 6).x * (1 - x) * y
        + (c 7).x * x * y) * z,
   ((c 0).y * (1 - x) * (1 - y) + (c 1).y * x * (1 - y) + (c 2).y * (1 - x) * y
        + (c 3).y * x * y) * (1 - z)
      + ((c 4).y * (1 - x) * (1 - y) + (c 5).y * x * (1 - y) + (c 6).y * (1 - x) * y
        + (c 7).y * x * y) * z,
   ((c 0).z * (1 - x) * (1 - y) + (c 1).z * x * (1 - y) + (c 2).z * (1 - x) * y
        + (c 3).z * x * y) * (1 - z)
      + ((c 4).z * (1 - x) * (1 - y) + (c 5).z * x * (1 - y) + (c 6).z * (1 - x) * y
        + (c 7).z * x * y) * z⟩

/-- The vector `v / |v|`, meaningful when `v` is not the zero vector. -/
def unit_of (v : Vec3) : Vec3 :=
  t8_vec_ax v (1 / t8_vec_norm v)

/-- The blend `(1 - r_ref) * p + r_ref * rho * s` of the flat point `p` and the point
`rho * s` on the ray through `s`. -/
def blend (p s : Vec3) (rho r_ref : ℝ) : Vec3 :=
  ⟨(1 - r_ref) * p.x + r_ref * rho * s.x,
   (1 - r_ref) * p.y + r_ref * rho * s.y,
   (1 - r_ref) * p.z + r_ref * rho * s.z⟩

/-- The radius `rho = (p . n) / (r . n)` with `n = V0 / |V0|` and `r = Vr / |Vr|`, where `Vr`
is the corner on the tilted edge (corner 3 of a disk quad, corner 7 of a cubed sphere
hexahedron). -/
def plane_radius (p V0 Vr : Vec3) : ℝ :=
  t8_vec_dot p (unit_of V0) / t8_vec_dot (unit_of Vr) (unit_of V0)

/-- The corrected reference point of a side quad of the disk: the angular coordinate is
replaced by `tan (pi/4 * a_ref)`, the radial coordinate is unchanged. -/
def disk_corrected (gtreeid : Nat) (ref : Nat → ℝ) (j : Nat) : ℝ :=
  if j = t8_geometry_quadrangulated_disk.a_coord gtreeid then tan (M_PI / 4 * ref j) else ref j

/-- The corrected reference point of a side hexahedron of the cubed sphere: the two angular
coordinates are replaced by `tan (pi/4 * coordinate)`, the radial coordinate is unchanged. -/
def cubed_sphere_corrected (gtreeid : Nat) (ref : Nat → ℝ) (j : Nat) : ℝ :=
  if j = t8_geometry_cubed_sphere.idx 0
      (t8_geometry_cubed_sphere.lookup t8_geometry_cubed_sphere.r_coord_lookup (gtreeid % 4))
  then ref j else tan (M_PI / 4 * ref j)

/-- The blend of a side tree in the words of the specification, with the values that may
fail to exist: `n = V0 / |V0|`, `r = Vr / |Vr|`, `rho = (p . n) / (r . n)`, `s = c / |c|`, and
the result `(1 - r_ref) * p + r_ref * rho * s`.  It has a value when the three
normalisations and the quotient have one. -/
def side_blend (p V0 Vr c : Vec3) (r_ref : ℝ) : Option Vec3 := do
  let n ← t8_vec_normalize V0
  let r ← t8_vec_normalize Vr
  let rho ← fdiv (t8_vec_dot p n) (t8_vec_dot r n)
  let s ← t8_vec_normalize c
  pure (blend p s rho r_ref)

/-- The corner number `c` of the reference triangle: `(0,0)`, `(1,0)`, and `(1,1)` for every
other number. -/
def ref_corner (c : Nat) : ℝ × ℝ :=
  match c with
  | 0 => (0, 0)
  | 1 => (1, 0)
  | _ => (1, 1)

/-- Lines 276-279, and again 342-345: the local `R` alone.  It has a value when the face
normal can be normalised, whether or not the tangents can. -/
def face_R (active_tree_vertices : Nat → ℝ) : Option ℝ := do
  let normal ← t8_vec_normalize
    (t8_vec_tri_normal (vecAt active_tree_vertices 0) (vecAt active_tree_vertices 3)
      (vecAt active_tree_vertices 6))
  pure |t8_vec_dot (vecAt active_tree_vertices 0) normal|

/-- Lines 276-279 and 293, and again 342-345 and 359: the local `origin` alone. -/
def face_origin (active_tree_vertices : Nat → ℝ) : Option Vec3 := do
  let normal ← t8_vec_normalize
    (t8_vec_tri_normal (vecAt active_tree_vertices 0) (vecAt active_tree_vertices 3)
      (vecAt active_tree_vertices 6))
  let R := |t8_vec_dot (vecAt active_tree_vertices 0) normal|
  pure (t8_vec_axy normal R)

/-- The corner that spans the outer edge of a side quad of the disk together with corner 3:
corner 1 when the radial reference index is 0, corner 2 when it is 1. -/
def disk_outer_corner (gtreeid : Nat) : Nat :=
  if t8_geometry_quadrangulated_disk.r_coord gtreeid = 0 then 1 else 2

/-- The tangent correction of lines 307-308 (and 372-373) as a function of the tangential
offset `d`: `R * tan (0.25 * M_PI * d / R)`. -/
def tangent_correction (R d : ℝ) : ℝ :=
  R * tan (0.25 * M_PI * d / R)

/-! ## Adaptation callbacks of the example: `example/remove/t8_balls.cxx`

The callbacks read the forest only through `t8_forest_get_user_data` and
`t8_forest_element_centroid`, which belong to the forest layer: `adapt_data` stands for the
user data and `element_centroid` for the centroid that is stored for `elements[0]`.  The
arguments `which_tree`, `lelement_id` and `ts` are unused. -/

/-- Modelled from the spec: `t8_vec_dist` of `t8_vec.h`, the Euclidean distance. -/
def t8_vec_dist (a b : Vec3) : ℝ :=
  Real.sqrt ((a.x - b.x) * (a.x - b.x) + (a.y - b.y) * (a.y - b.y) + (a.z - b.z) * (a.z - b.z))

/-- Lines 10-15, `struct t8_adapt_data`: `midpoint i` is the row `midpoint[i]`. -/
structure t8_adapt_data where
  midpoint : Nat → Vec3
  radius : ℝ
  with_ring : ℝ

/-- The loop of `t8_adapt_callback_coarse` (lines 87-92) from the index `i` on, with `todo`
rounds left, followed by line 93: a round whose test holds returns -1 at once, and when no
round is left the function returns 0. -/
def coarse_loop (adapt_data : t8_adapt_data) (centroid : Vec3) (num_elements : Int) :
    Nat → Nat → Int
  | 0, _ => 0
  | todo + 1, i =>
    let dist := t8_vec_dist (adapt_data.midpoint i) centroid
    if num_elements > 1 ∧ dist < adapt_data.radius + adapt_data.with_ring then -1
    else coarse_loop adapt_data centroid num_elements todo (i + 1)

/-- Function `t8_adapt_callback_coarse` (lines 70-94). -/
def t8_adapt_callback_coarse (adapt_data : t8_adapt_data) (element_centroid : Vec3)
    (num_elements : Int) : Int :=
  coarse_loop adapt_data element_centroid num_elements 6 0

/-- Function `t8_adapt_callback_coarse_all` (lines 96-110). -/
def t8_adapt_callback_coarse_all (num_elements : Int) : Int :=
  if num_elements > 1 then -1 else 0

/-! ## Concrete trees used as examples -/

/-- The top face `z = 1` of the cube `[-1,1]^3`, as a quad, followed by the corresponding
face of the cube `[-2,2]^3`: together a hexahedron of the cubed spherical shell. -/
def cube_top : Nat → ℝ :=
  arrayOf [-1, -1, 1, 1, -1, 1, -1, 1, 1, 1, 1, 1, -2, -2, 2, 2, -2, 2, -2, 2, 2, 2, 2, 2]

/-- A parallelogram in the plane `x - y + z = 1` with the corners `(1,0,0)`, `(0,-1,0)`,
`(0,0,1)`, `(-1,-1,1)`, followed by the same parallelogram scaled by 2: a quad, and a
hexahedron, whose face normal is parallel to `(1, -1, 1)`. -/
def tilted_face : Nat → ℝ :=
  arrayOf [1, 0, 0, 0, -1, 0, 0, 0, 1, -1, -1, 1, 2, 0, 0, 0, -2, 0, 0, 0, 2, -2, -2, 2]

/-- The face of the octahedron with the corners `(1,0,0)`, `(0,1,0)`, `(0,0,1)`, followed by
the same triangle scaled by 2: a triangle of the triangulated spherical surface, and a prism
of the prismed spherical shell. -/
def octahedron_face : Nat → ℝ :=
  arrayOf [1, 0, 0, 0, 1, 0, 0, 0, 1, 2, 0, 0, 0, 2, 0, 0, 0, 2]

/-- A batch of three reference points of a triangle, `(0,0)`, `(1,1)`, `(0,0)`, stored with
two coordinates per point. -/
def batch_2d : Nat → ℝ :=
  arrayOf [0, 0, 1, 1, 0, 0]

/-- A triangle with non-zero corners `(1,0,0)`, `(-1,0,0)`, `(0,1,0)` whose first edge passes
through the origin. -/
def flat_triangle : Nat → ℝ :=
  arrayOf [1, 0, 0, -1, 0, 0, 0, 1, 0]

/-- A side quad of a disk with the corners `(1,0,0)`, `(2,0,0)`, `(1,1,0)`, `(2,2,0)`. -/
def disk_side : Nat → ℝ :=
  arrayOf [1, 0, 0, 2, 0, 0, 1, 1, 0, 2, 2, 0]

/-- The top face `z = 1` of the cube `[-1,1]^3` with the corners 1 and 2 exchanged: the
corners `(-1,-1,1)`, `(-1,1,1)`, `(1,-1,1)`, `(1,1,1)`, whose face normal `(0, 0, -4)` points
towards the coordinate origin. -/
def flipped_top : Nat → ℝ :=
  arrayOf [-1, -1, 1, -1, 1, 1, 1, -1, 1, 1, 1, 1]

/-- The frame of `cube_top`: the normal `(0,0,1)`, `R = 1`, the tangents `(0,1,0)` and
`(-1,0,0)`, and the radial origin `(0,0,1)`. -/
def cube_top_frame : FaceFrame :=
  ⟨⟨0, 0, 1⟩, 1, ⟨0, 1, 0⟩, ⟨-1, 0, 0⟩, ⟨0, 0, 1⟩⟩

end

/-! ## Generic loop facts -/

/-- A loop that writes cell `i` in round `i` leaves in cell `i` the value of round `i`. -/
theorem forLoop_writeCell_lt {β : Type} (f : Nat → β) (a : Nat → β) (n i : Nat) (h : i < n) :
    forLoop n (fun k b => writeCell b k (f k)) a i = f i := by
  induction n with
  | zero => omega
  | succ k ih =>
    simp only [forLoop, writeCell]
    by_cases hik : i = k
    · simp [hik]
    · simp only [hik, if_false]
      exact ih (by omega)

/-- A loop that writes cell `i` in round `i` leaves the cells from `n` on untouched. -/
theorem forLoop_writeCell_ge {β : Type} (f : Nat → β) (a : Nat → β) (n i : Nat) (h : n ≤ i) :
    forLoop n (fun k b => writeCell b k (f k)) a i = a i := by
  induction n with
  | zero => rfl
  | succ k ih =>
    simp only [forLoop, writeCell]
    have hik : i ≠ k := by omega
    simp only [hik, if_false]
    exact ih (by omega)

namespace t8_geometry_linear_axis_aligned

section BoxTestFacts

variable {α : Type} [LinearOrderedField α]

/-- After the call, cell `i` of `is_inside` holds `inside_value` of point `i`. -/
theorem batch_inside_cell (ec : Nat → Nat → α) (points : Nat → α) (num_points : Int)
    (is_inside : Nat → Int) (tol : α) (i : Nat) (hi : (i : Int) < num_points) :
    t8_geom_point_batch_inside_element ec points num_points is_inside tol i
      = inside_value (ec 0) (ec 1) points tol i := by
  unfold t8_geom_point_batch_inside_element
  exact forLoop_writeCell_lt _ _ _ _ (by omega)

/-- The stored value is non-zero exactly when all six comparisons hold. -/
theorem inside_value_ne_zero_iff (v_min v_max points : Nat → α) (tol : α) (i : Nat) :
    inside_value v_min v_max points tol i ≠ 0 ↔
      ∀ k, k < 3 → v_min k - tol ≤ points (3 * i + k) ∧ points (3 * i + k) ≤ v_max k + tol := by
  have e : i * 3 = 3 * i := Nat.mul_comm _ _
  unfold inside_value
  rw [e]
  constructor
  · intro h k hk
    split_ifs at h with hc
    · obtain ⟨h0, h1, h2, h3, h4, h5⟩ := hc
      interval_cases k
      · exact ⟨h0, h1⟩
      · exact ⟨h2, h3⟩
      · exact ⟨h4, h5⟩
    · exact absurd rfl h
  · intro h
    have h0 := h 0 (by omega)
    have h1 := h 1 (by omega)
    have h2 := h 2 (by omega)
    rw [if_pos ⟨h0.1, h0.2, h1.1, h1.2, h2.1, h2.2⟩]
    decide

/-- The stored value is 1 or 0. -/
theorem inside_value_eq_one_iff (v_min v_max points : Nat → α) (tol : α) (i : Nat) :
    inside_value v_min v_max points tol i = 1 ↔ inside_value v_min v_max points tol i ≠ 0 := by
  unfold inside_value
  split_ifs <;> simp

/-- Claim C1.  After `t8_geom_point_batch_inside_element`, for every index `i` below
`num_points`: `is_inside[i]` is true (it holds 1, and otherwise 0) if and only if
`v_min[k] - tolerance <= points[3i+k] <= v_max[k] + tolerance` on the three axes
`k = 0, 1, 2`; and the result for point `i` is the same in every batch that has the same
three coordinates at `3i, 3i+1, 3i+2`, whatever its other points, its length and the
previous content of `is_inside` are. -/
theorem C1_point_batch_inside_iff (ec : Nat → Nat → α) (tol : α) (points : Nat → α)
    (num_points : Int) (is_inside : Nat → Int) (i : Nat) (hi : (i : Int) < num_points) :
    (t8_geom_point_batch_inside_element ec points num_points is_inside tol i = 1 ↔
        ∀ k, k < 3 →
          ec 0 k - tol ≤ points (3 * i + k) ∧ points (3 * i + k) ≤ ec 1 k + tol)
    ∧ (t8_geom_point_batch_inside_element ec points num_points is_inside tol i = 0 ↔
        ¬ ∀ k, k < 3 →
          ec 0 k - tol ≤ points (3 * i + k) ∧ points (3 * i + k) ≤ ec 1 k + tol)
    ∧ ∀ (points2 : Nat → α) (num_points2 : Int) (is_inside2 : Nat → Int),
        (i : Int) < num_points2 →
        (∀ k, k < 3 → points2 (3 * i + k) = points (3 * i + k)) →
        t8_geom_point_batch_inside_element ec points2 num_points2 is_inside2 tol i
          = t8_geom_point_batch_inside_element ec points num_points is_inside tol i := by
  have hiff := inside_value_ne_zero_iff (ec 0) (ec 1) points tol i
  refine ⟨?_, ?_, ?_⟩
  · rw [batch_inside_cell ec points num_points is_inside tol i hi, inside_value_eq_one_iff]
    exact hiff
  · rw [batch_inside_cell ec points num_points is_inside tol i hi, ← hiff]
    exact not_not.symm
  · intro points2 num_points2 is_inside2 hi2 hp
    rw [batch_inside_cell ec points num_points is_inside tol i hi,
      batch_inside_cell ec points2 num_points2 is_inside2 tol i hi2]
    have e : i * 3 = 3 * i := Nat.mul_comm _ _
    have h0 := hp 0 (by omega)
    have h1 := hp 1 (by omega)
    have h2 := hp 2 (by omega)
    simp only [Nat.add_zero] at h0
    unfold inside_value
    rw [e, h0, h1, h2]

/-- Claim C2.  In `t8_geom_point_batch_inside_element` a point that lies strictly inside
`[v_min - tol, v_max + tol]` on all three axes is reported inside (1), and a point whose
coordinate on at least one axis is one unit beyond `v_max + tol` is reported not inside (0),
whatever its other coordinates are. -/
theorem C2_strictly_inside_and_one_beyond (ec : Nat → Nat → α) (tol : α) (points : Nat → α)
    (num_points : Int) (is_inside : Nat → Int) (i : Nat) (hi : (i : Int) < num_points) :
    ((∀ k, k < 3 → ec 0 k - tol < points (3 * i + k) ∧ points (3 * i + k) < ec 1 k + tol) →
        t8_geom_point_batch_inside_element ec points num_points is_inside tol i = 1)
    ∧ ((∃ k, k < 3 ∧ points (3 * i + k) = ec 1 k + tol + 1) →
        t8_geom_point_batch_inside_element ec points num_points is_inside tol i = 0) := by
  have hiff := inside_value_ne_zero_iff (ec 0) (ec 1) points tol i
  rw [batch_inside_cell ec points num_points is_inside tol i hi]
  constructor
  · intro h
    rw [inside_value_eq_one_iff]
    exact hiff.mpr (fun k hk => ⟨le_of_lt (h k hk).1, le_of_lt (h k hk).2⟩)
  · rintro ⟨k, hk, hpk⟩
    by_contra hne
    have hle := (hiff.mp hne k hk).2
    rw [hpk] at hle
    exact absurd hle (not_le.mpr (lt_add_one _))

end BoxTestFacts

/-- Witness of C1: in the unit cube `[0,1]^3` with tolerance 0, the single point
`(1/2, 1/2, 1/2)` is reported inside. -/
theorem C1_point_batch_inside_iff_witness :
    ((0 : Nat) : Int) < 1 ∧
      t8_geom_point_batch_inside_element (fun c _ => (c : ℚ)) (fun _ => (1 / 2 : ℚ)) 1
        (fun _ => 0) 0 0 = 1 :=
  ⟨by decide,
    (C1_point_batch_inside_iff (fun c _ => (c : ℚ)) 0 (fun _ => (1 / 2 : ℚ)) 1 (fun _ => 0) 0
      (by decide)).1.mpr (fun _ _ => by norm_num)⟩

/-- Witness of C2: in the unit cube with tolerance 0 the point `(2, 1/2, 1/2)`, one unit
beyond the maximum on the first axis, is reported not inside. -/
theorem C2_strictly_inside_and_one_beyond_witness :
    ((0 : Nat) : Int) < 1 ∧
      t8_geom_point_batch_inside_element (fun c _ => (c : ℚ))
        (fun j => if j = 0 then (2 : ℚ) else 1 / 2) 1 (fun _ => 0) 0 0 = 0 :=
  ⟨by decide,
    (C2_strictly_inside_and_one_beyond (fun c _ => (c : ℚ)) 0
      (fun j => if j = 0 then (2 : ℚ) else 1 / 2) 1 (fun _ => 0) 0 (by decide)).2
      ⟨0, by decide, by norm_num⟩⟩

/-- Claim C3.  `t8_geometry_linear_axis_aligned::t8_geom_evaluate_jacobian` ends in the
abort "Not implemented." for every cmesh, tree id, reference batch (the empty one included)
and `jacobian` array, and so never returns a Jacobian. -/
theorem C3_evaluate_jacobian_not_implemented {α κ : Type} (cmesh : κ) (gtreeid : Int)
    (ref_coords : Nat → α) (num_coords : Nat) (jacobian : Nat → α) :
    t8_geom_evaluate_jacobian cmesh gtreeid ref_coords num_coords jacobian
        = Except.error "Not implemented."
      ∧ ∀ j : Nat → α,
          t8_geom_evaluate_jacobian cmesh gtreeid ref_coords num_coords jacobian
            ≠ Except.ok j := by
  refine ⟨rfl, ?_⟩
  intro j h
  simp [t8_geom_evaluate_jacobian] at h

end t8_geometry_linear_axis_aligned

/-! ## Facts about the vector kernel -/

section VectorFacts

theorem Vec3.ext_iff3 (a b : Vec3) : a = b ↔ a.x = b.x ∧ a.y = b.y ∧ a.z = b.z := by
  cases a; cases b; simp

theorem t8_vec_dot_self_nonneg (v : Vec3) : 0 ≤ t8_vec_dot v v := by
  unfold t8_vec_dot
  nlinarith [mul_self_nonneg v.x, mul_self_nonneg v.y, mul_self_nonneg v.z]

theorem t8_vec_norm_nonneg (v : Vec3) : 0 ≤ t8_vec_norm v :=
  Real.sqrt_nonneg _

theorem t8_vec_norm_mul_self (v : Vec3) : t8_vec_norm v * t8_vec_norm v = t8_vec_dot v v :=
  Real.mul_self_sqrt (t8_vec_dot_self_nonneg v)

theorem t8_vec_norm_eq_zero_iff (v : Vec3) : t8_vec_norm v = 0 ↔ t8_vec_dot v v = 0 := by
  unfold t8_vec_norm
  rw [Real.sqrt_eq_zero (t8_vec_dot_self_nonneg v)]

theorem t8_vec_dot_self_eq_zero_iff (v : Vec3) :
    t8_vec_dot v v = 0 ↔ v.x = 0 ∧ v.y = 0 ∧ v.z = 0 := by
  unfold t8_vec_dot
  constructor
  · intro h
    have hx : v.x * v.x = 0 := by
      nlinarith [mul_self_nonneg v.x, mul_self_nonneg v.y, mul_self_nonneg v.z]
    have hy : v.y * v.y = 0 := by
      nlinarith [mul_self_nonneg v.x, mul_self_nonneg v.y, mul_self_nonneg v.z]
    have hz : v.z * v.z = 0 := by
      nlinarith [mul_self_nonneg v.x, mul_self_nonneg v.y, mul_self_nonneg v.z]
    exact ⟨mul_self_eq_zero.mp hx, mul_self_eq_zero.mp hy, mul_self_eq_zero.mp hz⟩
  · rintro ⟨hx, hy, hz⟩
    rw [hx, hy, hz]
    ring

theorem t8_vec_dot_ax_ax (u v : Vec3) (a b : ℝ) :
    t8_vec_dot (t8_vec_ax u a) (t8_vec_ax v b) = a * b * t8_vec_dot u v := by
  simp only [t8_vec_dot, t8_vec_ax]
  ring

theorem t8_vec_norm_ax (v : Vec3) (a : ℝ) : t8_vec_norm (t8_vec_ax v a) = |a| * t8_vec_norm v := by
  unfold t8_vec_norm
  rw [t8_vec_dot_ax_ax, ← Real.sqrt_mul_self (abs_nonneg a),
    ← Real.sqrt_mul (mul_self_nonneg |a|), abs_mul_abs_self]

theorem t8_vec_normalize_of_ne (v : Vec3) (h : t8_vec_norm v ≠ 0) :
    t8_vec_normalize v = some (t8_vec_ax v (1 / t8_vec_norm v)) := by
  simp [t8_vec_normalize, fdiv, h]

theorem t8_vec_normalize_of_eq (v : Vec3) (h : t8_vec_norm v = 0) :
    t8_vec_normalize v = none := by
  simp [t8_vec_normalize, fdiv, h]

/-- A normalized vector has dot product 1 with itself. -/
theorem t8_vec_dot_unit (v : Vec3) (h : t8_vec_norm v ≠ 0) :
    t8_vec_dot (t8_vec_ax v (1 / t8_vec_norm v)) (t8_vec_ax v (1 / t8_vec_norm v)) = 1 := by
  rw [t8_vec_dot_ax_ax, ← t8_vec_norm_mul_self]
  field_simp

/-- Rescaling a non-zero vector succeeds and gives a vector whose norm is the absolute value
of the new length. -/
theorem t8_vec_rescale_norm (v : Vec3) (len : ℝ) (h : t8_vec_norm v ≠ 0) :
    ∃ w, t8_vec_rescale v len = some w ∧ t8_vec_norm w = |len| := by
  refine ⟨t8_vec_ax (t8_vec_ax v (1 / t8_vec_norm v)) len, ?_, ?_⟩
  · simp [t8_vec_rescale, t8_vec_normalize_of_ne v h]
  · have hn : 0 ≤ 1 / t8_vec_norm v := div_nonneg zero_le_one (t8_vec_norm_nonneg v)
    rw [t8_vec_norm_ax, t8_vec_norm_ax, abs_of_nonneg hn]
    field_simp

theorem t8_vec_rescale_of_eq (v : Vec3) (len : ℝ) (h : t8_vec_norm v = 0) :
    t8_vec_rescale v len = none := by
  simp [t8_vec_rescale, t8_vec_normalize_of_eq v h]

/-- A vector that has a non-zero dot product with some vector is not the zero vector. -/
theorem t8_vec_norm_ne_zero_of_dot (v n : Vec3) (h : t8_vec_dot v n ≠ 0) :
    t8_vec_norm v ≠ 0 := by
  intro h0
  rw [t8_vec_norm_eq_zero_iff, t8_vec_dot_self_eq_zero_iff] at h0
  apply h
  unfold t8_vec_dot
  rw [h0.1, h0.2.1, h0.2.2]
  ring

end VectorFacts

/-! ## Facts about stores into the output array -/

section BufferFacts

theorem readVec_writeVec_same (out : Nat → Option ℝ) (off : Nat) (v : Option Vec3) :
    readVec (writeVec out off v) off = v := by
  cases v with
  | none => simp [readVec, writeVec]
  | some w => simp [readVec, writeVec]

theorem writeVec_cell_same (out : Nat → Option ℝ) (off k : Nat) (hk : k < 3)
    (v : Option Vec3) : writeVec out off v (off + k) = v.map (fun w => w.get k) := by
  interval_cases k
  · cases v <;> simp [writeVec, Vec3.get]
  · cases v <;> simp [writeVec, Vec3.get]
  · cases v <;> simp [writeVec, Vec3.get]

theorem writeVec_cell_other (out : Nat → Option ℝ) (off j : Nat) (v : Option Vec3)
    (h : j < off ∨ off + 3 ≤ j) : writeVec out off v j = out j := by
  unfold writeVec
  have h0 : j ≠ off := by omega
  have h1 : j ≠ off + 1 := by omega
  have h2 : j ≠ off + 2 := by omega
  simp [h0, h1, h2]

/-- A loop that stores the vector `f i` at offset `3 * i` in round `i` leaves component `k`
of `f i` in cell `3 * i + k`. -/
theorem forLoop_writeVec_cell (f : Nat → Option Vec3) (out : Nat → Option ℝ) (n i k : Nat)
    (hi : i < n) (hk : k < 3) :
    forLoop n (fun j o => writeVec o (3 * j) (f j)) out (3 * i + k)
      = (f i).map (fun w => w.get k) := by
  induction n with
  | zero => omega
  | succ m ih =>
    simp only [forLoop]
    by_cases him : i = m
    · subst him
      exact writeVec_cell_same _ _ _ hk _
    · rw [writeVec_cell_other _ _ _ _ (by omega)]
      exact ih (by omega)

/-- Such a loop does not touch the cells from `3 * n` on. -/
theorem forLoop_writeVec_ge (f : Nat → Option Vec3) (out : Nat → Option ℝ) (n j : Nat)
    (hj : 3 * n ≤ j) :
    forLoop n (fun j o => writeVec o (3 * j) (f j)) out j = out j := by
  induction n with
  | zero => rfl
  | succ m ih =>
    simp only [forLoop]
    rw [writeVec_cell_other _ _ _ _ (by omega)]
    exact ih (by omega)

theorem readVec_congr (o1 o2 : Nat → Option ℝ) (off1 off2 : Nat)
    (h : ∀ k, k < 3 → o1 (off1 + k) = o2 (off2 + k)) : readVec o1 off1 = readVec o2 off2 := by
  have h0 := h 0 (by omega)
  have h1 := h 1 (by omega)
  have h2 := h 2 (by omega)
  simp only [Nat.add_zero] at h0
  unfold readVec
  rw [h0, h1, h2]

/-- Reading back the three cells of round `i` gives the vector stored in round `i`. -/
theorem forLoop_writeVec_read (f : Nat → Option Vec3) (out : Nat → Option ℝ) (n i : Nat)
    (hi : i < n) :
    readVec (forLoop n (fun j o => writeVec o (3 * j) (f j)) out) (3 * i) = f i := by
  rw [← readVec_writeVec_same (fun _ => none) 0 (f i)]
  apply readVec_congr
  intro k hk
  rw [forLoop_writeVec_cell f out n i k hi hk, writeVec_cell_same _ _ _ hk]

end BufferFacts

/-! ## The face frame of the quadrangulated spherical surface and the cubed shell -/

section FaceFrameFacts

/-- For a unit vector `n`, the first tangent before normalisation, `(n.y, n.z, -n.x)` minus
its component along `n`, is orthogonal to `n`. -/
theorem tangent1_raw_orthogonal (n : Vec3) (hn : t8_vec_dot n n = 1) :
    t8_vec_dot (t8_vec_axpy n ⟨n.y, n.z, -n.x⟩ (-(t8_vec_dot n ⟨n.y, n.z, -n.x⟩))) n = 0 := by
  simp only [t8_vec_dot, t8_vec_axpy] at hn ⊢
  linear_combination
    (-(n.x * n.y + n.y * n.z + n.z * -n.x)) * hn

/-- For a unit vector `n`, that first tangent vanishes only if `n` is parallel to
`(1, -1, 1)`. -/
theorem tangent1_raw_ne_zero (n : Vec3) (hn : t8_vec_dot n n = 1)
    (hdeg : ¬ (n.y = -n.x ∧ n.z = n.x)) :
    t8_vec_norm (t8_vec_axpy n ⟨n.y, n.z, -n.x⟩ (-(t8_vec_dot n ⟨n.y, n.z, -n.x⟩))) ≠ 0 := by
  intro h0
  rw [t8_vec_norm_eq_zero_iff, t8_vec_dot_self_eq_zero_iff] at h0
  simp only [t8_vec_dot, t8_vec_axpy] at hn h0
  obtain ⟨h1, h2, h3⟩ := h0
  set c : ℝ := n.x * n.y + n.y * n.z + n.z * -n.x with hc
  have e1 : n.y = c * n.x := by linarith
  have e2 : n.z = c * n.y := by linarith
  have e3 : -n.x = c * n.z := by linarith
  have hx : n.x ≠ 0 := by
    intro hx0
    have hy0 : n.y = 0 := by rw [e1, hx0]; ring
    have hz0 : n.z = 0 := by rw [e2, hy0]; ring
    rw [hx0, hy0, hz0] at hn
    norm_num at hn
  have hc3 : (c + 1) * (c * c - c + 1) = 0 := by
    have : (c * c * c + 1) * n.x = 0 := by
      have : n.x = -(c * (c * (c * n.x))) := by
        calc n.x = -(c * n.z) := by linarith
          _ = -(c * (c * n.y)) := by rw [← e2]
          _ = -(c * (c * (c * n.x))) := by rw [← e1]
      linarith
    have h4 : c * c * c + 1 = 0 := (mul_eq_zero.mp this).resolve_right hx
    linarith
  have hpos : c * c - c + 1 ≠ 0 := by nlinarith [mul_self_nonneg (c - 1 / 2)]
  have hcm : c = -1 := by
    have := (mul_eq_zero.mp hc3).resolve_right hpos
    linarith
  apply hdeg
  constructor
  · rw [e1, hcm]; ring
  · rw [e2, e1, hcm]; ring

/-- For a unit vector `n` parallel to `(1, -1, 1)` the first tangent is the zero vector. -/
theorem tangent1_raw_eq_zero (n : Vec3) (hn : t8_vec_dot n n = 1)
    (hdeg : n.y = -n.x ∧ n.z = n.x) :
    t8_vec_norm (t8_vec_axpy n ⟨n.y, n.z, -n.x⟩ (-(t8_vec_dot n ⟨n.y, n.z, -n.x⟩))) = 0 := by
  rw [t8_vec_norm_eq_zero_iff, t8_vec_dot_self_eq_zero_iff]
  simp only [t8_vec_dot, t8_vec_axpy] at hn ⊢
  obtain ⟨hy, hz⟩ := hdeg
  rw [hy, hz] at hn ⊢
  refine ⟨?_, ?_, ?_⟩
  · linear_combination (n.x) * hn
  · linear_combination (-n.x) * hn
  · linear_combination (n.x) * hn

/-- Lagrange's identity for a unit vector `n` and a vector `t` orthogonal to it. -/
theorem t8_vec_cross_unit_orthogonal (n t : Vec3) (hn : t8_vec_dot n n = 1)
    (ht : t8_vec_dot t n = 0) :
    t8_vec_dot (t8_vec_cross n t) (t8_vec_cross n t) = t8_vec_dot t t := by
  simp only [t8_vec_dot, t8_vec_cross] at hn ht ⊢
  linear_combination (t.x * t.x + t.y * t.y + t.z * t.z) * hn
    - (t.x * n.x + t.y * n.y + t.z * n.z) * ht

theorem t8_vec_cross_orthogonal_left (n t : Vec3) : t8_vec_dot (t8_vec_cross n t) n = 0 := by
  simp only [t8_vec_dot, t8_vec_cross]
  ring

theorem t8_vec_dot_ax_left (v n : Vec3) (a : ℝ) :
    t8_vec_dot (t8_vec_ax v a) n = a * t8_vec_dot v n := by
  simp only [t8_vec_dot, t8_vec_ax]
  ring

/-- If the face normal is neither zero nor parallel to `(1, -1, 1)`, the frame exists. -/
theorem face_frame_some (atv : Nat → ℝ) (hN : t8_vec_norm (face_normal atv) ≠ 0)
    (hdeg : ¬ ((face_normal atv).y = -(face_normal atv).x
      ∧ (face_normal atv).z = (face_normal atv).x)) :
    ∃ f, face_frame atv = some f ∧ f.normal = unit_normal atv
      ∧ f.R = |t8_vec_dot (vecAt atv 0) (unit_normal atv)| ∧ f.Good := by
  have hunit : t8_vec_dot (unit_normal atv) (unit_normal atv) = 1 := t8_vec_dot_unit _ hN
  have hdeg2 : ¬ ((unit_normal atv).y = -(unit_normal atv).x
      ∧ (unit_normal atv).z = (unit_normal atv).x) := by
    rintro ⟨h1, h2⟩
    apply hdeg
    have ha : (1 / t8_vec_norm (face_normal atv)) ≠ 0 := one_div_ne_zero hN
    simp only [unit_normal, t8_vec_ax] at h1 h2
    constructor
    · apply mul_left_cancel₀ ha
      linarith
    · apply mul_left_cancel₀ ha
      linarith
  have ht1 := tangent1_raw_ne_zero _ hunit hdeg2
  have ho1 := tangent1_raw_orthogonal _ hunit
  have ht2 : t8_vec_norm (t8_vec_cross (unit_normal atv)
      (t8_vec_axpy (unit_normal atv) ⟨(unit_normal atv).y, (unit_normal atv).z,
        -(unit_normal atv).x⟩
        (-(t8_vec_dot (unit_normal atv) ⟨(unit_normal atv).y, (unit_normal atv).z,
          -(unit_normal atv).x⟩)))) ≠ 0 := by
    rw [Ne, t8_vec_norm_eq_zero_iff, t8_vec_cross_unit_orthogonal _ _ hunit ho1,
      ← t8_vec_norm_eq_zero_iff]
    exact ht1
  have hnorm : t8_vec_normalize (t8_vec_tri_normal (vecAt atv 0) (vecAt atv 3) (vecAt atv 6))
      = some (unit_normal atv) := t8_vec_normalize_of_ne _ hN
  simp only [face_frame, hnorm, t8_vec_normalize_of_ne _ ht1, t8_vec_normalize_of_ne _ ht2,
    Option.bind_eq_bind, Option.some_bind, Option.pure_def]
  refine ⟨_, rfl, rfl, rfl, hunit, ?_, ?_, rfl⟩
  · rw [t8_vec_dot_ax_left, ho1, mul_zero]
  · rw [t8_vec_dot_ax_left, t8_vec_cross_orthogonal_left, mul_zero]

/-- If the face normal is parallel to `(1, -1, 1)`, the normalisation of the first tangent
divides by zero and there is no frame. -/
theorem face_frame_none (atv : Nat → ℝ) (hN : t8_vec_norm (face_normal atv) ≠ 0)
    (hdeg : (face_normal atv).y = -(face_normal atv).x
      ∧ (face_normal atv).z = (face_normal atv).x) :
    face_frame atv = none := by
  have hunit : t8_vec_dot (unit_normal atv) (unit_normal atv) = 1 := t8_vec_dot_unit _ hN
  have hdeg2 : (unit_normal atv).y = -(unit_normal atv).x
      ∧ (unit_normal atv).z = (unit_normal atv).x := by
    simp only [unit_normal, t8_vec_ax]
    rw [hdeg.1, hdeg.2]
    exact ⟨by ring, rfl⟩
  have ht1 := tangent1_raw_eq_zero _ hunit hdeg2
  have hnorm : t8_vec_normalize (t8_vec_tri_normal (vecAt atv 0) (vecAt atv 3) (vecAt atv 6))
      = some (unit_normal atv) := t8_vec_normalize_of_ne _ hN
  simp only [face_frame, hnorm, t8_vec_normalize_of_eq _ ht1,
    Option.bind_eq_bind, Option.some_bind, Option.none_bind]

/-- With a good frame and `R` not zero, `out_pos` exists and its component along the normal
is `R`; so it is not the zero vector. -/
theorem face_out_pos_some (atv : Nat → ℝ) (f : FaceFrame) (ref : Nat → ℝ) (hf : f.Good)
    (hR : f.R ≠ 0) :
    ∃ p, face_out_pos atv f ref = some p ∧ t8_vec_norm p ≠ 0 := by
  obtain ⟨hn, h1, h2, ho⟩ := hf
  simp only [face_out_pos, fdiv, hR, if_false, Option.bind_eq_bind, Option.some_bind,
    Option.pure_def]
  refine ⟨_, rfl, ?_⟩
  · apply t8_vec_norm_ne_zero_of_dot _ f.normal
    have : t8_vec_dot
        (t8_vec_axpy f.tangent2
          (t8_vec_axpy f.tangent1 (t8_vec_copy f.origin)
            (f.R * tan (0.25 * M_PI * t8_vec_dot f.tangent1
              (t8_vec_diff (t8_geom_linear_interpolation ref atv 3 2) f.origin) / f.R)))
          (f.R * tan (0.25 * M_PI * t8_vec_dot f.tangent2
              (t8_vec_diff (t8_geom_linear_interpolation ref atv 3 2) f.origin) / f.R)))
        f.normal = f.R := by
      generalize (f.R * tan (0.25 * M_PI * t8_vec_dot f.tangent1
              (t8_vec_diff (t8_geom_linear_interpolation ref atv 3 2) f.origin) / f.R)) = a1
      generalize (f.R * tan (0.25 * M_PI * t8_vec_dot f.tangent2
              (t8_vec_diff (t8_geom_linear_interpolation ref atv 3 2) f.origin) / f.R)) = a2
      rw [ho]
      simp only [t8_vec_dot, t8_vec_axpy, t8_vec_copy, t8_vec_axy] at hn h1 h2 ⊢
      linear_combination f.R * hn + a1 * h1 + a2 * h2
    rw [this]
    exact hR

/-- The constant `_SQRT3` of the code is the square root of 3 up to `10^-15`. -/
theorem _SQRT3_close : |_SQRT3 - Real.sqrt 3| < 1 / 10 ^ 15 := by
  have h1 : _SQRT3 < Real.sqrt 3 := by
    rw [Real.lt_sqrt (by norm_num [_SQRT3])]
    norm_num [_SQRT3]
  have h2 : Real.sqrt 3 < _SQRT3 + 1 / 10 ^ 15 := by
    rw [Real.sqrt_lt' (by norm_num [_SQRT3])]
    norm_num [_SQRT3]
  rw [abs_lt]
  constructor <;> linarith

theorem _SQRT3_pos : 0 < _SQRT3 := by
  norm_num [_SQRT3]

/-- If the plane of the face does not pass through the origin, `R` is positive. -/
theorem unit_normal_dot_pos (atv : Nat → ℝ) (c : Nat)
    (hN : t8_vec_norm (face_normal atv) ≠ 0)
    (h : t8_vec_dot (corner atv c) (face_normal atv) ≠ 0) :
    0 < |t8_vec_dot (corner atv c) (unit_normal atv)| := by
  apply abs_pos.mpr
  have e : t8_vec_dot (corner atv c) (unit_normal atv)
      = (1 / t8_vec_norm (face_normal atv)) * t8_vec_dot (corner atv c) (face_normal atv) := by
    simp only [unit_normal, t8_vec_dot, t8_vec_ax]
    ring
  rw [e]
  exact mul_ne_zero (one_div_ne_zero hN) h

theorem face_normal_cube_top : face_normal cube_top = ⟨0, 0, 4⟩ := by
  simp only [face_normal, t8_vec_tri_normal, t8_vec_cross, t8_vec_diff, vecAt, cube_top,
    arrayOf, List.getD_cons_zero, List.getD_cons_succ]
  norm_num

theorem face_normal_tilted_face : face_normal tilted_face = ⟨-1, 1, -1⟩ := by
  simp only [face_normal, t8_vec_tri_normal, t8_vec_cross, t8_vec_diff, vecAt, tilted_face,
    arrayOf, List.getD_cons_zero, List.getD_cons_succ]
  norm_num

theorem corner_zero_cube_top : corner cube_top 0 = ⟨-1, -1, 1⟩ := by
  simp [corner, vecAt, cube_top, arrayOf]

theorem corner_zero_tilted_face : corner tilted_face 0 = ⟨1, 0, 0⟩ := by
  simp [corner, vecAt, tilted_face, arrayOf]

theorem t8_vec_norm_ne_zero_of_dot_self (v : Vec3) (h : t8_vec_dot v v ≠ 0) :
    t8_vec_norm v ≠ 0 := by
  rw [Ne, t8_vec_norm_eq_zero_iff]
  exact h

theorem cube_top_normal_ne : t8_vec_norm (face_normal cube_top) ≠ 0 := by
  apply t8_vec_norm_ne_zero_of_dot_self
  rw [face_normal_cube_top]
  norm_num [t8_vec_dot]

theorem tilted_face_normal_ne : t8_vec_norm (face_normal tilted_face) ≠ 0 := by
  apply t8_vec_norm_ne_zero_of_dot_self
  rw [face_normal_tilted_face]
  norm_num [t8_vec_dot]

theorem cube_top_R_pos : 0 < |t8_vec_dot (corner cube_top 0) (unit_normal cube_top)| := by
  apply unit_normal_dot_pos _ _ cube_top_normal_ne
  rw [face_normal_cube_top, corner_zero_cube_top]
  norm_num [t8_vec_dot]

theorem tilted_face_R_pos :
    0 < |t8_vec_dot (corner tilted_face 0) (unit_normal tilted_face)| := by
  apply unit_normal_dot_pos _ _ tilted_face_normal_ne
  rw [face_normal_tilted_face, corner_zero_tilted_face]
  norm_num [t8_vec_dot]

theorem cube_top_not_degenerate :
    ¬ ((face_normal cube_top).y = -(face_normal cube_top).x
      ∧ (face_normal cube_top).z = (face_normal cube_top).x) := by
  rw [face_normal_cube_top]
  norm_num

end FaceFrameFacts

namespace t8_geometry_quadrangulated_spherical_surface

/-- The three cells of point `i` after the call hold the value of round `i`. -/
theorem quad_sphere_read (atv : Nat → ℝ) (gtreeid : Nat) (ref_coords : Nat → ℝ)
    (num_coords : Nat) (out_coords : Nat → Option ℝ) (i : Nat) (hi : i < num_coords) :
    readVec (t8_geom_evaluate atv gtreeid ref_coords num_coords out_coords) (3 * i)
      = (face_frame atv).bind (fun f => point atv f (shiftBuf ref_coords (2 * i))) :=
  forLoop_writeVec_read
    (fun j => (face_frame atv).bind (fun f => point atv f (shiftBuf ref_coords (2 * j))))
    out_coords num_coords i hi

/-- Claim C5, amended.  For `t8_geometry_quadrangulated_spherical_surface::t8_geom_evaluate`,
for every quad tree whose first three corners are not collinear (the face normal is not
zero), whose face plane does not pass through the origin (`R = |V0 . n| > 0`, `n` the unit
face normal) and whose face normal is not parallel to `(1, -1, 1)`, and for every reference
point of a batch: the output point exists and its Euclidean norm equals `R * _SQRT3`, where
`_SQRT3 = 1.7320508075688772` is the constant of the code, the square root of 3 up to
`10^-15`. -/
theorem C5_quad_sphere_norm (atv : Nat → ℝ) (gtreeid : Nat) (ref_coords : Nat → ℝ)
    (num_coords : Nat) (out_coords : Nat → Option ℝ) (i : Nat) (hi : i < num_coords)
    (hN : t8_vec_norm (face_normal atv) ≠ 0)
    (hR : 0 < |t8_vec_dot (corner atv 0) (unit_normal atv)|)
    (hdeg : ¬ ((face_normal atv).y = -(face_normal atv).x
      ∧ (face_normal atv).z = (face_normal atv).x)) :
    (∃ v, readVec (t8_geom_evaluate atv gtreeid ref_coords num_coords out_coords) (3 * i)
          = some v
        ∧ t8_vec_norm v = |t8_vec_dot (corner atv 0) (unit_normal atv)| * _SQRT3)
      ∧ |_SQRT3 - Real.sqrt 3| < 1 / 10 ^ 15 := by
  refine ⟨?_, _SQRT3_close⟩
  obtain ⟨f, hf, _, hfR, hgood⟩ := face_frame_some atv hN hdeg
  have hR2 : f.R ≠ 0 := by
    rw [hfR]
    exact ne_of_gt hR
  obtain ⟨p, hp, hpn⟩ := face_out_pos_some atv f (shiftBuf ref_coords (2 * i)) hgood hR2
  obtain ⟨w, hw, hwn⟩ := t8_vec_rescale_norm p (f.R * _SQRT3) hpn
  refine ⟨w, ?_, ?_⟩
  · rw [quad_sphere_read atv gtreeid ref_coords num_coords out_coords i hi, hf]
    simp only [Option.some_bind, point, hp, Option.bind_eq_bind]
    exact hw
  · rw [hwn, hfR]
    exact abs_of_nonneg (mul_nonneg (abs_nonneg _) (le_of_lt _SQRT3_pos))

/-- Witness of C5: the top face of the cube `[-1,1]^3`, at the reference point `(0, 0)`. -/
theorem C5_quad_sphere_norm_witness :
    (0 < 1 ∧ t8_vec_norm (face_normal cube_top) ≠ 0
      ∧ 0 < |t8_vec_dot (corner cube_top 0) (unit_normal cube_top)|
      ∧ ¬ ((face_normal cube_top).y = -(face_normal cube_top).x
        ∧ (face_normal cube_top).z = (face_normal cube_top).x))
    ∧ ((∃ v, readVec (t8_geom_evaluate cube_top 0 (fun _ => 0) 1 (fun _ => none)) (3 * 0)
          = some v
        ∧ t8_vec_norm v = |t8_vec_dot (corner cube_top 0) (unit_normal cube_top)| * _SQRT3)
      ∧ |_SQRT3 - Real.sqrt 3| < 1 / 10 ^ 15) :=
  ⟨⟨Nat.zero_lt_one, cube_top_normal_ne, cube_top_R_pos, cube_top_not_degenerate⟩,
    C5_quad_sphere_norm cube_top 0 (fun _ => 0) 1 (fun _ => none) 0 Nat.zero_lt_one
      cube_top_normal_ne cube_top_R_pos cube_top_not_degenerate⟩

/-- Counterexample to C5 as stated: the quad `tilted_face` has non-collinear first corners
and `R > 0`, but its face normal is parallel to `(1, -1, 1)`; the first tangent is the zero
vector, its normalisation divides by zero, and the output point has no value, hence no norm
equal to the radius. -/
theorem C5_counterexample :
    t8_vec_norm (face_normal tilted_face) ≠ 0
      ∧ 0 < |t8_vec_dot (corner tilted_face 0) (unit_normal tilted_face)|
      ∧ readVec (t8_geom_evaluate tilted_face 0 (fun _ => 0) 1 (fun _ => some 0)) 0 = none
      ∧ ¬ ∃ v, readVec (t8_geom_evaluate tilted_face 0 (fun _ => 0) 1 (fun _ => some 0)) 0
            = some v
          ∧ t8_vec_norm v
            = |t8_vec_dot (corner tilted_face 0) (unit_normal tilted_face)| * Real.sqrt 3 := by
  have hnone : readVec (t8_geom_evaluate tilted_face 0 (fun _ => 0) 1 (fun _ => some 0)) 0
      = none := by
    have h := quad_sphere_read tilted_face 0 (fun _ => 0) 1 (fun _ => some 0) 0 Nat.zero_lt_one
    rw [face_frame_none tilted_face tilted_face_normal_ne
      (by rw [face_normal_tilted_face]; norm_num)] at h
    exact h
  refine ⟨tilted_face_normal_ne, tilted_face_R_pos, hnone, ?_⟩
  rintro ⟨v, hv, _⟩
  rw [hnone] at hv
  exact absurd hv (by simp)

end t8_geometry_quadrangulated_spherical_surface

namespace t8_geometry_cubed_spherical_shell

/-- The three cells of point `i` after the call hold the value of round `i`. -/
theorem cubed_shell_read (atv : Nat → ℝ) (gtreeid : Nat) (ref_coords : Nat → ℝ)
    (num_coords : Nat) (out_coords : Nat → Option ℝ) (i : Nat) (hi : i < num_coords) :
    readVec (t8_geom_evaluate atv gtreeid ref_coords num_coords out_coords) (3 * i)
      = (face_frame atv).bind (fun f => point atv f (shiftBuf ref_coords (3 * i))) :=
  forLoop_writeVec_read
    (fun j => (face_frame atv).bind (fun f => point atv f (shiftBuf ref_coords (3 * j))))
    out_coords num_coords i hi

/-- Claim C7, amended.  For `t8_geometry_cubed_spherical_shell::t8_geom_evaluate`, for every
hex tree whose first three corners are not collinear, with `R = |V0 . n| > 0` and a face
normal that is not parallel to `(1, -1, 1)`, and for every reference point `(x, y, z)` of a
batch with `z` in `[0,1]`: the output point exists and its norm equals
`inner + z * thickness`, where `inner = |V0 . n| * _SQRT3` and
`inner + thickness = |V4 . n| * _SQRT3`; so the norm is `inner` at `z = 0`,
`inner + thickness` at `z = 1`, and lies between these two radii. -/
theorem C7_cubed_shell_norm (atv : Nat → ℝ) (gtreeid : Nat) (ref_coords : Nat → ℝ)
    (num_coords : Nat) (out_coords : Nat → Option ℝ) (i : Nat) (hi : i < num_coords)
    (hN : t8_vec_norm (face_normal atv) ≠ 0)
    (hR : 0 < |t8_vec_dot (corner atv 0) (unit_normal atv)|)
    (hdeg : ¬ ((face_normal atv).y = -(face_normal atv).x
      ∧ (face_normal atv).z = (face_normal atv).x))
    (hz0 : 0 ≤ ref_coords (3 * i + 2)) (hz1 : ref_coords (3 * i + 2) ≤ 1) :
    ∃ v, readVec (t8_geom_evaluate atv gtreeid ref_coords num_coords out_coords) (3 * i)
          = some v
        ∧ t8_vec_norm v
          = inner_radius atv + ref_coords (3 * i + 2) * (outer_radius atv - inner_radius atv)
        ∧ (ref_coords (3 * i + 2) = 0 → t8_vec_norm v = inner_radius atv)
        ∧ (ref_coords (3 * i + 2) = 1 → t8_vec_norm v = outer_radius atv)
        ∧ min (inner_radius atv) (outer_radius atv) ≤ t8_vec_norm v
        ∧ t8_vec_norm v ≤ max (inner_radius atv) (outer_radius atv) := by
  obtain ⟨f, hf, hfn, hfR, hgood⟩ := face_frame_some atv hN hdeg
  have hR2 : f.R ≠ 0 := by
    rw [hfR]
    exact ne_of_gt hR
  obtain ⟨p, hp, hpn⟩ := face_out_pos_some atv f (shiftBuf ref_coords (3 * i)) hgood hR2
  have hin : 0 ≤ inner_radius atv :=
    mul_nonneg (abs_nonneg _) (le_of_lt _SQRT3_pos)
  have hou : 0 ≤ outer_radius atv :=
    mul_nonneg (abs_nonneg _) (le_of_lt _SQRT3_pos)
  have hlen : f.R * _SQRT3 + shiftBuf ref_coords (3 * i) 2
        * (|t8_vec_dot (vecAt atv (4 * 3)) f.normal| * _SQRT3 - f.R * _SQRT3)
      = inner_radius atv
        + ref_coords (3 * i + 2) * (outer_radius atv - inner_radius atv) := by
    rw [hfR, hfn]
    rfl
  have hnonneg : 0 ≤ inner_radius atv
      + ref_coords (3 * i + 2) * (outer_radius atv - inner_radius atv) := by
    nlinarith [mul_nonneg hz0 hou, mul_nonneg (sub_nonneg.mpr hz1) hin]
  obtain ⟨w, hw, hwn⟩ := t8_vec_rescale_norm p
    (f.R * _SQRT3 + shiftBuf ref_coords (3 * i) 2
        * (|t8_vec_dot (vecAt atv (4 * 3)) f.normal| * _SQRT3 - f.R * _SQRT3)) hpn
  rw [hlen, abs_of_nonneg hnonneg] at hwn
  refine ⟨w, ?_, hwn, ?_, ?_, ?_, ?_⟩
  · rw [cubed_shell_read atv gtreeid ref_coords num_coords out_coords i hi, hf]
    simp only [Option.some_bind, point, hp, Option.bind_eq_bind]
    exact hw
  · intro hz
    rw [hwn, hz]
    ring
  · intro hz
    rw [hwn, hz]
    ring
  · rw [hwn]
    rcases le_total (inner_radius atv) (outer_radius atv) with h | h
    · rw [min_eq_left h]
      nlinarith [mul_nonneg hz0 (sub_nonneg.mpr h)]
    · rw [min_eq_right h]
      nlinarith [mul_nonneg (sub_nonneg.mpr hz1) (sub_nonneg.mpr h)]
  · rw [hwn]
    rcases le_total (inner_radius atv) (outer_radius atv) with h | h
    · rw [max_eq_right h]
      nlinarith [mul_nonneg (sub_nonneg.mpr hz1) (sub_nonneg.mpr h)]
    · rw [max_eq_left h]
      nlinarith [mul_nonneg hz0 (sub_nonneg.mpr h)]

/-- Witness of C7: the hexahedron over the top face of the cube `[-1,1]^3`, at the
reference point `(0, 0, 1/2)`. -/
theorem C7_cubed_shell_norm_witness :
    (0 < 1 ∧ t8_vec_norm (face_normal cube_top) ≠ 0
      ∧ 0 < |t8_vec_dot (corner cube_top 0) (unit_normal cube_top)|
      ∧ ¬ ((face_normal cube_top).y = -(face_normal cube_top).x
        ∧ (face_normal cube_top).z = (face_normal cube_top).x)
      ∧ (0 : ℝ) ≤ arrayOf [0, 0, 1 / 2] (3 * 0 + 2) ∧ arrayOf [0, 0, 1 / 2] (3 * 0 + 2) ≤ 1)
    ∧ ∃ v, readVec (t8_geom_evaluate cube_top 0 (arrayOf [0, 0, 1 / 2]) 1 (fun _ => none))
          (3 * 0) = some v
        ∧ t8_vec_norm v
          = inner_radius cube_top
            + arrayOf [0, 0, 1 / 2] (3 * 0 + 2) * (outer_radius cube_top - inner_radius cube_top)
        ∧ (arrayOf [0, 0, 1 / 2] (3 * 0 + 2) = 0 → t8_vec_norm v = inner_radius cube_top)
        ∧ (arrayOf [0, 0, 1 / 2] (3 * 0 + 2) = 1 → t8_vec_norm v = outer_radius cube_top)
        ∧ min (inner_radius cube_top) (outer_radius cube_top) ≤ t8_vec_norm v
        ∧ t8_vec_norm v ≤ max (inner_radius cube_top) (outer_radius cube_top) :=
  ⟨⟨Nat.zero_lt_one, cube_top_normal_ne, cube_top_R_pos, cube_top_not_degenerate,
      by norm_num [arrayOf], by norm_num [arrayOf]⟩,
    C7_cubed_shell_norm cube_top 0 (arrayOf [0, 0, 1 / 2]) 1 (fun _ => none) 0
      Nat.zero_lt_one cube_top_normal_ne cube_top_R_pos cube_top_not_degenerate
      (by norm_num [arrayOf]) (by norm_num [arrayOf])⟩

/-- Counterexample to C7 as stated: the hexahedron `tilted_face` has `R > 0`, but its face
normal is parallel to `(1, -1, 1)`; the normalisation of the first tangent divides by zero
and the output point at the reference point `(0, 0, 0)` has no value, hence no norm equal to
the inner radius. -/
theorem C7_counterexample :
    t8_vec_norm (face_normal tilted_face) ≠ 0
      ∧ 0 < |t8_vec_dot (corner tilted_face 0) (unit_normal tilted_face)|
      ∧ readVec (t8_geom_evaluate tilted_face 0 (fun _ => 0) 1 (fun _ => some 0)) 0 = none
      ∧ ¬ ∃ v, readVec (t8_geom_evaluate tilted_face 0 (fun _ => 0) 1 (fun _ => some 0)) 0
            = some v
          ∧ t8_vec_norm v
            = |t8_vec_dot (corner tilted_face 0) (unit_normal tilted_face)| * Real.sqrt 3 := by
  have hnone : readVec (t8_geom_evaluate tilted_face 0 (fun _ => 0) 1 (fun _ => some 0)) 0
      = none := by
    have h := cubed_shell_read tilted_face 0 (fun _ => 0) 1 (fun _ => some 0) 0 Nat.zero_lt_one
    rw [face_frame_none tilted_face tilted_face_normal_ne
      (by rw [face_normal_tilted_face]; norm_num)] at h
    exact h
  refine ⟨tilted_face_normal_ne, tilted_face_R_pos, hnone, ?_⟩
  rintro ⟨v, hv, _⟩
  rw [hnone] at hv
  exact absurd hv (by simp)

end t8_geometry_cubed_spherical_shell

/-! ## The triangle and prism mapping -/

section TriPrismFacts

/-- The accumulation loop over the three components (lines 140-142) adds `g c` to cell
`off + c` and leaves the other cells alone. -/
theorem accumulate_cell (out : Nat → Option ℝ) (off : Nat) (g : Nat → Option ℝ) (j : Nat) :
    forLoop 3 (fun c o => writeCell o (off + c) (cellAdd (o (off + c)) (g c))) out j
      = if off ≤ j ∧ j < off + 3 then cellAdd (out j) (g (j - off)) else out j := by
  simp only [forLoop, writeCell]
  by_cases h2 : j = off + 2
  · subst h2
    simp
  · by_cases h1 : j = off + 1
    · subst h1
      simp
    · by_cases h0 : j = off
      · subst h0
        simp
      · have hne : ¬ (off ≤ j ∧ j < off + 3) := by omega
        simp [h0, h1, h2, hne]

/-- A loop whose round `k` changes only the cells `3k, 3k+1, 3k+2` leaves the cells from
`3 * n` on untouched. -/
theorem forLoop_block_ge {β : Type} (body : Nat → (Nat → β) → (Nat → β))
    (hframe : ∀ k o j, (j < 3 * k ∨ 3 * k + 3 ≤ j) → body k o j = o j)
    (n : Nat) (out : Nat → β) (j : Nat) (hj : 3 * n ≤ j) :
    forLoop n body out j = out j := by
  induction n with
  | zero => rfl
  | succ m ih =>
    simp only [forLoop]
    rw [hframe m _ j (by omega)]
    exact ih (by omega)

/-- A loop whose round `k` changes only the cells `3k, 3k+1, 3k+2`, and computes them from
the previous content of these three cells alone, leaves in the cells of round `i` what
round `i` alone computes from the initial array. -/
theorem forLoop_block_cell {β : Type} (body : Nat → (Nat → β) → (Nat → β))
    (hframe : ∀ k o j, (j < 3 * k ∨ 3 * k + 3 ≤ j) → body k o j = o j)
    (hloc : ∀ k o o2, (∀ j, 3 * k ≤ j → j < 3 * k + 3 → o j = o2 j) →
      ∀ j, 3 * k ≤ j → j < 3 * k + 3 → body k o j = body k o2 j)
    (n : Nat) (out : Nat → β) (i j : Nat) (hi : i < n) (h1 : 3 * i ≤ j) (h2 : j < 3 * i + 3) :
    forLoop n body out j = body i out j := by
  induction n with
  | zero => omega
  | succ m ih =>
    simp only [forLoop]
    by_cases him : i = m
    · subst him
      apply hloc i _ _ _ j h1 h2
      intro q hq1 _
      exact forLoop_block_ge body hframe i out q hq1
    · rw [hframe m _ j (by omega)]
      exact ih (by omega)

theorem accumulate_body_cell (pos : Nat → Option Vec3) (k : Nat) (out : Nat → Option ℝ)
    (j : Nat) :
    accumulate_body pos k out j
      = if 3 * k ≤ j ∧ j < 3 * k + 3 then
          cellAdd (out j) ((pos k).map (fun p => p.get (j - 3 * k) * (1.0 / 3.0)))
        else out j :=
  accumulate_cell out (3 * k)
    (fun c => (pos k).map (fun (p : Vec3) => p.get c * ((1.0 : ℝ) / 3.0))) j

/-- After a loop of `accumulate_body`, cell `3 * i + c` has received a third of component
`c` of `pos i`. -/
theorem forLoop_accumulate_cell (pos : Nat → Option Vec3) (out : Nat → Option ℝ)
    (n i c : Nat) (hi : i < n) (hc : c < 3) :
    forLoop n (accumulate_body pos) out (3 * i + c)
      = cellAdd (out (3 * i + c)) ((pos i).map (fun p => p.get c * (1.0 / 3.0))) := by
  rw [forLoop_block_cell (accumulate_body pos) ?_ ?_ n out i (3 * i + c) hi (by omega) (by omega)]
  · rw [accumulate_body_cell, if_pos (by omega), Nat.add_sub_cancel_left]
  · intro k o j hj
    rw [accumulate_body_cell, if_neg (by omega)]
  · intro k o o2 h j hj1 hj2
    rw [accumulate_body_cell, accumulate_body_cell, if_pos ⟨hj1, hj2⟩, if_pos ⟨hj1, hj2⟩,
      h j hj1 hj2]

theorem forLoop_accumulate_ge (pos : Nat → Option Vec3) (out : Nat → Option ℝ)
    (n j : Nat) (hj : 3 * n ≤ j) :
    forLoop n (accumulate_body pos) out j = out j := by
  apply forLoop_block_ge (accumulate_body pos) ?_ n out j hj
  intro k o j hj
  rw [accumulate_body_cell, if_neg (by omega)]

/-- The function `t8_map_triangle_to_sphere` is a loop of `accumulate_body`. -/
theorem t8_map_triangle_to_sphere_eq (atv : Nat → ℝ) (sphere_radius : ℝ) (shift : Nat)
    (u_ref v_ref w_ref : Vec3) (ref_coords : Nat → ℝ) (num_coords : Nat)
    (out_coords : Nat → Option ℝ) :
    t8_map_triangle_to_sphere atv sphere_radius shift u_ref v_ref w_ref ref_coords num_coords
        out_coords
      = forLoop num_coords
          (accumulate_body (fun i =>
            t8_vec_rescale
              (t8_map_triangle_to_sphere_raw (tri_u atv shift) (tri_v atv shift) (tri_w atv shift)
                u_ref v_ref w_ref (shiftBuf ref_coords (3 * i)))
              sphere_radius))
          out_coords :=
  rfl

theorem forLoop_update_cell (F : Nat → Option Vec3 → Option Vec3) (out : Nat → Option ℝ)
    (n i c : Nat) (hi : i < n) (hc : c < 3) :
    forLoop n (update_body F) out (3 * i + c)
      = (F i (readVec out (3 * i))).map (fun w => w.get c) := by
  rw [forLoop_block_cell (update_body F) ?_ ?_ n out i (3 * i + c) hi (by omega) (by omega)]
  · exact writeVec_cell_same _ _ _ hc _
  · intro k o j hj
    exact writeVec_cell_other _ _ _ _ (by omega)
  · intro k o o2 h j hj1 hj2
    have hr : readVec o (3 * k) = readVec o2 (3 * k) :=
      readVec_congr o o2 (3 * k) (3 * k) (fun q hq => h (3 * k + q) (by omega) (by omega))
    obtain ⟨q, rfl⟩ : ∃ q, j = 3 * k + q := ⟨j - 3 * k, by omega⟩
    unfold update_body
    rw [writeVec_cell_same _ _ _ (by omega), writeVec_cell_same _ _ _ (by omega), hr]

theorem forLoop_update_ge (F : Nat → Option Vec3 → Option Vec3) (out : Nat → Option ℝ)
    (n j : Nat) (hj : 3 * n ≤ j) :
    forLoop n (update_body F) out j = out j := by
  apply forLoop_block_ge (update_body F) ?_ n out j hj
  intro k o j hj
  exact writeVec_cell_other _ _ _ _ (by omega)

/-- The clearing loop (lines 154-156). -/
theorem clear_cell (out : Nat → Option ℝ) (n j : Nat) (hj : j < 3 * n) :
    forLoop (3 * n) (fun i o => writeCell o i (some (0.0 : ℝ))) out j = some 0.0 :=
  forLoop_writeCell_lt (fun _ => some (0.0 : ℝ)) out (3 * n) j hj

theorem clear_ge (out : Nat → Option ℝ) (n j : Nat) (hj : 3 * n ≤ j) :
    forLoop (3 * n) (fun i o => writeCell o i (some (0.0 : ℝ))) out j = out j :=
  forLoop_writeCell_ge (fun _ => some (0.0 : ℝ)) out (3 * n) j hj

/-- For triangles, `t8_geom_evaluate_sphere_tri_prism` is the clearing loop followed by the
three accumulation loops. -/
theorem tri_prism_triangle_eq (atv : Nat → ℝ) (ref_coords : Nat → ℝ) (num_coords : Nat)
    (out_coords : Nat → Option ℝ) :
    t8_geom_evaluate_sphere_tri_prism atv t8_eclass_t.T8_ECLASS_TRIANGLE ref_coords num_coords
        out_coords
      = forLoop num_coords
          (accumulate_body (fun i => sub_mapping atv 2 (shiftBuf ref_coords (3 * i))))
          (forLoop num_coords
            (accumulate_body (fun i => sub_mapping atv 1 (shiftBuf ref_coords (3 * i))))
            (forLoop num_coords
              (accumulate_body (fun i => sub_mapping atv 0 (shiftBuf ref_coords (3 * i))))
              (forLoop (3 * num_coords) (fun i o => writeCell o i (some (0.0 : ℝ)))
                out_coords))) :=
  rfl

/-- For prisms, the last loop runs on the result for triangles. -/
theorem tri_prism_prism_eq (atv : Nat → ℝ) (ref_coords : Nat → ℝ) (num_coords : Nat)
    (out_coords : Nat → Option ℝ) :
    t8_geom_evaluate_sphere_tri_prism atv t8_eclass_t.T8_ECLASS_PRISM ref_coords num_coords
        out_coords
      = forLoop num_coords (update_body (prism_rescale atv ref_coords))
          (t8_geom_evaluate_sphere_tri_prism atv t8_eclass_t.T8_ECLASS_TRIANGLE ref_coords
            num_coords out_coords) :=
  rfl

/-- Cell `3 * i + c` of the result for triangles. -/
theorem tri_cell (atv : Nat → ℝ) (ref_coords : Nat → ℝ) (num_coords : Nat)
    (out_coords : Nat → Option ℝ) (i c : Nat) (hi : i < num_coords) (hc : c < 3) :
    t8_geom_evaluate_sphere_tri_prism atv t8_eclass_t.T8_ECLASS_TRIANGLE ref_coords num_coords
        out_coords (3 * i + c)
      = cellAdd (cellAdd (cellAdd (some 0.0)
          ((sub_mapping atv 0 (shiftBuf ref_coords (3 * i))).map
            (fun p => p.get c * (1.0 / 3.0))))
          ((sub_mapping atv 1 (shiftBuf ref_coords (3 * i))).map
            (fun p => p.get c * (1.0 / 3.0))))
          ((sub_mapping atv 2 (shiftBuf ref_coords (3 * i))).map
            (fun p => p.get c * (1.0 / 3.0))) := by
  rw [tri_prism_triangle_eq, forLoop_accumulate_cell _ _ _ _ _ hi hc,
    forLoop_accumulate_cell _ _ _ _ _ hi hc, forLoop_accumulate_cell _ _ _ _ _ hi hc,
    clear_cell _ _ _ (by omega)]

/-- Neither the triangle nor the prism mapping touches the cells from `3 * num_coords` on. -/
theorem tri_ge (atv : Nat → ℝ) (ref_coords : Nat → ℝ) (num_coords : Nat)
    (out_coords : Nat → Option ℝ) (j : Nat) (hj : 3 * num_coords ≤ j) :
    t8_geom_evaluate_sphere_tri_prism atv t8_eclass_t.T8_ECLASS_TRIANGLE ref_coords num_coords
        out_coords j = out_coords j := by
  rw [tri_prism_triangle_eq, forLoop_accumulate_ge _ _ _ _ hj, forLoop_accumulate_ge _ _ _ _ hj,
    forLoop_accumulate_ge _ _ _ _ hj, clear_ge _ _ _ hj]

/-- If the three sphere projections of point `i` exist, the cells of point `i` hold their
average. -/
theorem tri_read_some (atv : Nat → ℝ) (ref_coords : Nat → ℝ) (num_coords : Nat)
    (out_coords : Nat → Option ℝ) (i : Nat) (hi : i < num_coords) (p0 p1 p2 : Vec3)
    (h0 : sub_mapping atv 0 (shiftBuf ref_coords (3 * i)) = some p0)
    (h1 : sub_mapping atv 1 (shiftBuf ref_coords (3 * i)) = some p1)
    (h2 : sub_mapping atv 2 (shiftBuf ref_coords (3 * i)) = some p2) :
    readVec (t8_geom_evaluate_sphere_tri_prism atv t8_eclass_t.T8_ECLASS_TRIANGLE ref_coords
        num_coords out_coords) (3 * i) = some (average3 p0 p1 p2) := by
  have c0 := tri_cell atv ref_coords num_coords out_coords i 0 hi (by omega)
  have c1 := tri_cell atv ref_coords num_coords out_coords i 1 hi (by omega)
  have c2 := tri_cell atv ref_coords num_coords out_coords i 2 hi (by omega)
  rw [h0, h1, h2] at c0 c1 c2
  simp only [Nat.add_zero] at c0
  simp only [readVec, c0, c1, c2, Option.map_some', cellAdd, Vec3.get, average3]
  simp

/-- If one of the three sphere projections of point `i` does not exist, the cells of point
`i` hold no value. -/
theorem tri_read_none (atv : Nat → ℝ) (ref_coords : Nat → ℝ) (num_coords : Nat)
    (out_coords : Nat → Option ℝ) (i : Nat) (hi : i < num_coords)
    (h : sub_mapping atv 0 (shiftBuf ref_coords (3 * i)) = none
      ∨ sub_mapping atv 1 (shiftBuf ref_coords (3 * i)) = none
      ∨ sub_mapping atv 2 (shiftBuf ref_coords (3 * i)) = none) :
    readVec (t8_geom_evaluate_sphere_tri_prism atv t8_eclass_t.T8_ECLASS_TRIANGLE ref_coords
        num_coords out_coords) (3 * i) = none := by
  have c0 := tri_cell atv ref_coords num_coords out_coords i 0 hi (by omega)
  simp only [Nat.add_zero] at c0
  have hc : t8_geom_evaluate_sphere_tri_prism atv t8_eclass_t.T8_ECLASS_TRIANGLE ref_coords
      num_coords out_coords (3 * i) = none := by
    rw [c0]
    rcases h with h | h | h
    · rw [h]
      simp [cellAdd]
    · rw [h]
      cases sub_mapping atv 0 (shiftBuf ref_coords (3 * i)) <;>
        cases sub_mapping atv 2 (shiftBuf ref_coords (3 * i)) <;> simp [cellAdd]
    · rw [h]
      cases sub_mapping atv 0 (shiftBuf ref_coords (3 * i)) <;>
        cases sub_mapping atv 1 (shiftBuf ref_coords (3 * i)) <;> simp [cellAdd]
  simp only [readVec, hc]

/-- Cell `3 * i + c` of the result for prisms. -/
theorem prism_cell (atv : Nat → ℝ) (ref_coords : Nat → ℝ) (num_coords : Nat)
    (out_coords : Nat → Option ℝ) (i c : Nat) (hi : i < num_coords) (hc : c < 3) :
    t8_geom_evaluate_sphere_tri_prism atv t8_eclass_t.T8_ECLASS_PRISM ref_coords num_coords
        out_coords (3 * i + c)
      = (prism_rescale atv ref_coords i
          (readVec (t8_geom_evaluate_sphere_tri_prism atv t8_eclass_t.T8_ECLASS_TRIANGLE
            ref_coords num_coords out_coords) (3 * i))).map (fun w => w.get c) := by
  rw [tri_prism_prism_eq, forLoop_update_cell _ _ _ _ _ hi hc]

theorem prism_read (atv : Nat → ℝ) (ref_coords : Nat → ℝ) (num_coords : Nat)
    (out_coords : Nat → Option ℝ) (i : Nat) (hi : i < num_coords) :
    readVec (t8_geom_evaluate_sphere_tri_prism atv t8_eclass_t.T8_ECLASS_PRISM ref_coords
        num_coords out_coords) (3 * i)
      = prism_rescale atv ref_coords i
          (readVec (t8_geom_evaluate_sphere_tri_prism atv t8_eclass_t.T8_ECLASS_TRIANGLE
            ref_coords num_coords out_coords) (3 * i)) := by
  rw [← readVec_writeVec_same (fun _ => none) 0 (prism_rescale atv ref_coords i _)]
  apply readVec_congr
  intro k hk
  rw [prism_cell atv ref_coords num_coords out_coords i k hi hk, writeVec_cell_same _ _ _ hk]

/-! ### Values of the tangent correction -/

theorem tan_pi_div_twelve_ne : Real.tan (Real.pi / 12) ≠ 1 / 3 := by
  intro h
  have h2 := Real.tan_two_mul (x := Real.pi / 12)
  rw [show 2 * (Real.pi / 12) = Real.pi / 6 by ring, Real.tan_pi_div_six, h] at h2
  have h3 : Real.sqrt 3 = 4 / 3 := by
    have hs : Real.sqrt 3 ≠ 0 := by positivity
    field_simp at h2
    norm_num at h2
    linarith
  have h4 := Real.mul_self_sqrt (show (0 : ℝ) ≤ 3 by norm_num)
  rw [h3] at h4
  norm_num at h4

theorem tri_corr_third_ne : tri_corr (1 / 3) ≠ 1 / 3 := by
  intro h
  apply tan_pi_div_twelve_ne
  have e : (0.5 : ℝ) * M_PI * (1 / 3 - 0.5) = -(Real.pi / 12) := by
    unfold M_PI
    norm_num
    ring
  unfold tri_corr tan at h
  rw [e, Real.tan_neg] at h
  norm_num at h
  linarith

theorem tri_corr_zero : tri_corr 0 = 0 := by
  have e : (0.5 : ℝ) * M_PI * (0 - 0.5) = -(Real.pi / 4) := by
    unfold M_PI
    norm_num
    ring
  unfold tri_corr tan
  rw [e, Real.tan_neg, Real.tan_pi_div_four]
  norm_num

theorem tri_corr_half : tri_corr (1 / 2) = 1 / 2 := by
  have e : (0.5 : ℝ) * M_PI * (1 / 2 - 0.5) = 0 := by
    norm_num
  unfold tri_corr tan
  rw [e, Real.tan_zero]
  norm_num

theorem tri_corr_one : tri_corr 1 = 1 := by
  have e : (0.5 : ℝ) * M_PI * (1 - 0.5) = Real.pi / 4 := by
    unfold M_PI
    norm_num
    ring
  unfold tri_corr tan
  rw [e, Real.tan_pi_div_four]
  norm_num

/-- The position vector of lines 133-136 in terms of `tri_corr`. -/
theorem t8_map_triangle_to_sphere_raw_eq (u v w u_ref v_ref w_ref : Vec3) (ref : Nat → ℝ) :
    t8_map_triangle_to_sphere_raw u v w u_ref v_ref w_ref ref
      = ⟨u.x + tri_corr (u_ref.x + ref 0 * v_ref.x + ref 1 * w_ref.x) * v.x
            + tri_corr (u_ref.y + ref 0 * v_ref.y + ref 1 * w_ref.y) * w.x,
         u.y + tri_corr (u_ref.x + ref 0 * v_ref.x + ref 1 * w_ref.x) * v.y
            + tri_corr (u_ref.y + ref 0 * v_ref.y + ref 1 * w_ref.y) * w.y,
         u.z + tri_corr (u_ref.x + ref 0 * v_ref.x + ref 1 * w_ref.x) * v.z
            + tri_corr (u_ref.y + ref 0 * v_ref.y + ref 1 * w_ref.y) * w.z⟩ :=
  rfl

/-! ### The norm of the averaged point -/

/-- A sphere projection exists when the position vector is not zero, and then has the norm
of the first corner. -/
theorem sub_mapping_some (atv : Nat → ℝ) (k : Nat) (ref : Nat → ℝ)
    (h : t8_vec_norm (sub_mapping_raw atv k ref) ≠ 0) :
    ∃ p, sub_mapping atv k ref = some p ∧ t8_vec_norm p = t8_vec_norm (vecAt atv 0) := by
  obtain ⟨w, hw, hwn⟩ := t8_vec_rescale_norm _ (t8_vec_norm (vecAt atv 0)) h
  exact ⟨w, hw, by rw [hwn, abs_of_nonneg (t8_vec_norm_nonneg _)]⟩

theorem sub_mapping_none (atv : Nat → ℝ) (k : Nat) (ref : Nat → ℝ)
    (h : t8_vec_norm (sub_mapping_raw atv k ref) = 0) : sub_mapping atv k ref = none :=
  t8_vec_rescale_of_eq _ _ h

/-- The average of three vectors of norm `R` has norm at most `R`. -/
theorem average3_norm_le (p0 p1 p2 : Vec3) (R : ℝ) (h0 : t8_vec_norm p0 = R)
    (h1 : t8_vec_norm p1 = R) (h2 : t8_vec_norm p2 = R) :
    t8_vec_norm (average3 p0 p1 p2) ≤ R := by
  have hR : 0 ≤ R := by
    rw [← h0]
    exact t8_vec_norm_nonneg _
  have e0 := t8_vec_norm_mul_self p0
  have e1 := t8_vec_norm_mul_self p1
  have e2 := t8_vec_norm_mul_self p2
  rw [h0] at e0
  rw [h1] at e1
  rw [h2] at e2
  unfold t8_vec_norm
  rw [Real.sqrt_le_left hR]
  simp only [t8_vec_dot, average3] at e0 e1 e2 ⊢
  nlinarith [sq_nonneg (p0.x - p1.x), sq_nonneg (p0.y - p1.y), sq_nonneg (p0.z - p1.z),
    sq_nonneg (p0.x - p2.x), sq_nonneg (p0.y - p2.y), sq_nonneg (p0.z - p2.z),
    sq_nonneg (p1.x - p2.x), sq_nonneg (p1.y - p2.y), sq_nonneg (p1.z - p2.z)]

/-- The average of three equal vectors is that vector. -/
theorem average3_same (p : Vec3) : average3 p p p = p := by
  rw [Vec3.ext_iff3]
  simp only [average3]
  refine ⟨?_, ?_, ?_⟩ <;> norm_num <;> ring

/-! ### The octahedron face and the flat triangle -/

theorem octa_norm_first : t8_vec_norm (vecAt octahedron_face 0) = 1 := by
  simp [t8_vec_norm, t8_vec_dot, vecAt, octahedron_face, arrayOf]

theorem t8_vec_rescale_unit (q : Vec3) (hq : t8_vec_norm q = 1) :
    t8_vec_rescale q 1 = some q := by
  have hne : t8_vec_norm q ≠ 0 := by rw [hq]; norm_num
  simp only [t8_vec_rescale, t8_vec_normalize_of_ne q hne, Option.map_some', hq, t8_vec_ax]
  simp

/-- On the octahedron face: the three position vectors of a reference point. -/
theorem octa_raw (ref : Nat → ℝ) :
    sub_mapping_raw octahedron_face 0 ref
        = ⟨1 - tri_corr (ref 0 - ref 1) - tri_corr (ref 1), tri_corr (ref 0 - ref 1),
            tri_corr (ref 1)⟩
      ∧ sub_mapping_raw octahedron_face 1 ref
        = ⟨tri_corr (1 - ref 0), tri_corr (ref 0 - ref 1),
            1 - tri_corr (1 - ref 0) - tri_corr (ref 0 - ref 1)⟩
      ∧ sub_mapping_raw octahedron_face 2 ref
        = ⟨tri_corr (1 - ref 0), 1 - tri_corr (ref 1) - tri_corr (1 - ref 0),
            tri_corr (ref 1)⟩ := by
  refine ⟨?_, ?_, ?_⟩
  · simp only [sub_mapping_raw, t8_map_triangle_to_sphere_raw_eq, tri_u, tri_v, tri_w, vecAt,
      octahedron_face, arrayOf, t8_vec_diff, List.getD_cons_zero, List.getD_cons_succ]
    norm_num
    simp only [← sub_eq_add_neg, and_self]
  · simp only [sub_mapping_raw, t8_map_triangle_to_sphere_raw_eq, tri_u, tri_v, tri_w, vecAt,
      octahedron_face, arrayOf, t8_vec_diff, List.getD_cons_zero, List.getD_cons_succ]
    norm_num
    simp only [← sub_eq_add_neg, and_self]
  · simp only [sub_mapping_raw, t8_map_triangle_to_sphere_raw_eq, tri_u, tri_v, tri_w, vecAt,
      octahedron_face, arrayOf, t8_vec_diff, List.getD_cons_zero, List.getD_cons_succ]
    norm_num
    simp only [← sub_eq_add_neg, and_self]

theorem octa_sub_of_raw (k : Nat) (ref : Nat → ℝ) (q : Vec3)
    (hr : sub_mapping_raw octahedron_face k ref = q) (hq : t8_vec_norm q = 1) :
    sub_mapping octahedron_face k ref = some q := by
  unfold sub_mapping
  rw [hr, octa_norm_first]
  exact t8_vec_rescale_unit q hq

/-- On the octahedron face the reference point `(1, 0)` has the position vector `(0, 1, 0)`,
the second corner, in all three sub-mappings. -/
theorem octa_raw_one_zero (ref : Nat → ℝ) (h0 : ref 0 = 1) (h1 : ref 1 = 0) (k : Nat)
    (hk : k < 3) : sub_mapping_raw octahedron_face k ref = ⟨0, 1, 0⟩ := by
  obtain ⟨r0, r1, r2⟩ := octa_raw ref
  interval_cases k
  · rw [r0, h0, h1]
    norm_num [tri_corr_zero, tri_corr_one]
  · rw [r1, h0, h1]
    norm_num [tri_corr_zero, tri_corr_one]
  · rw [r2, h0, h1]
    norm_num [tri_corr_zero, tri_corr_one]

/-- On the octahedron face the reference point `(1, 1)` has the position vector `(0, 0, 1)`,
the third corner, in all three sub-mappings. -/
theorem octa_raw_one_one (ref : Nat → ℝ) (h0 : ref 0 = 1) (h1 : ref 1 = 1) (k : Nat)
    (hk : k < 3) : sub_mapping_raw octahedron_face k ref = ⟨0, 0, 1⟩ := by
  obtain ⟨r0, r1, r2⟩ := octa_raw ref
  interval_cases k
  · rw [r0, h0, h1]
    norm_num [tri_corr_zero, tri_corr_one]
  · rw [r1, h0, h1]
    norm_num [tri_corr_zero, tri_corr_one]
  · rw [r2, h0, h1]
    norm_num [tri_corr_zero, tri_corr_one]

theorem norm_e2 : t8_vec_norm ⟨0, 1, 0⟩ = 1 := by
  simp [t8_vec_norm, t8_vec_dot]

theorem norm_e3 : t8_vec_norm ⟨0, 0, 1⟩ = 1 := by
  simp [t8_vec_norm, t8_vec_dot]

theorem centroid_norm_sq (c : ℝ) :
    t8_vec_norm ⟨1 - 2 * c, c, c⟩ = Real.sqrt (1 - 4 * c + 6 * c ^ 2)
      ∧ t8_vec_norm ⟨c, c, 1 - 2 * c⟩ = Real.sqrt (1 - 4 * c + 6 * c ^ 2)
      ∧ t8_vec_norm ⟨c, 1 - 2 * c, c⟩ = Real.sqrt (1 - 4 * c + 6 * c ^ 2) := by
  refine ⟨?_, ?_, ?_⟩ <;>
  · simp only [t8_vec_norm, t8_vec_dot]
    congr 1
    ring

/-- The average of the three unit vectors along `(1-2c, c, c)`, `(c, c, 1-2c)` and
`(c, 1-2c, c)` is shorter than 1 unless `c = 1/3`. -/
theorem centroid_strict (c : ℝ) (hc : c ≠ 1 / 3) (p0 p1 p2 : Vec3)
    (h0 : t8_vec_rescale ⟨1 - 2 * c, c, c⟩ 1 = some p0)
    (h1 : t8_vec_rescale ⟨c, c, 1 - 2 * c⟩ 1 = some p1)
    (h2 : t8_vec_rescale ⟨c, 1 - 2 * c, c⟩ 1 = some p2) :
    t8_vec_norm (average3 p0 p1 p2) < 1 := by
  obtain ⟨n0, n1, n2⟩ := centroid_norm_sq c
  have hM : 0 < 1 - 4 * c + 6 * c ^ 2 := by nlinarith [sq_nonneg (3 * c - 1)]
  have hm : 0 < Real.sqrt (1 - 4 * c + 6 * c ^ 2) := Real.sqrt_pos.mpr hM
  have hmm := Real.mul_self_sqrt (le_of_lt hM)
  have hne0 : t8_vec_norm ⟨1 - 2 * c, c, c⟩ ≠ 0 := by rw [n0]; exact ne_of_gt hm
  have hne1 : t8_vec_norm ⟨c, c, 1 - 2 * c⟩ ≠ 0 := by rw [n1]; exact ne_of_gt hm
  have hne2 : t8_vec_norm ⟨c, 1 - 2 * c, c⟩ ≠ 0 := by rw [n2]; exact ne_of_gt hm
  simp only [t8_vec_rescale, t8_vec_normalize_of_ne _ hne0, t8_vec_normalize_of_ne _ hne1,
    t8_vec_normalize_of_ne _ hne2, Option.map_some', Option.some.injEq, n0, n1, n2] at h0 h1 h2
  subst h0 h1 h2
  generalize Real.sqrt (1 - 4 * c + 6 * c ^ 2) = m at hm hmm
  have ha : 0 < 1 / m := by positivity
  have ham : (1 / m) * m = 1 := by field_simp
  generalize 1 / m = a at ha ham
  unfold t8_vec_norm
  rw [Real.sqrt_lt' one_pos]
  simp only [t8_vec_dot, average3, t8_vec_ax]
  have h3 : 0 < 3 * (1 - 4 * c + 6 * c ^ 2) - 1 := by
    have : 3 * c - 1 ≠ 0 := by
      intro h
      apply hc
      linarith
    nlinarith [sq_pos_of_ne_zero this]
  have ha2 : a * a * (1 - 4 * c + 6 * c ^ 2) = 1 := by
    rw [← hmm]
    calc a * a * (m * m) = (a * m) * (a * m) := by ring
      _ = 1 := by rw [ham]; ring
  have : a * a < 3 := by nlinarith [mul_pos (mul_pos ha ha) h3]
  norm_num
  nlinarith

/-- On the octahedron face, at the reference point `(2/3, 1/3)`, the output point exists and
is shorter than the sphere radius 1. -/
theorem octa_centroid_short (out : Nat → Option ℝ) :
    ∃ v, readVec (t8_geom_evaluate_sphere_tri_prism octahedron_face
          t8_eclass_t.T8_ECLASS_TRIANGLE (arrayOf [2 / 3, 1 / 3]) 1 out) (3 * 0) = some v
      ∧ t8_vec_norm v < 1 := by
  obtain ⟨r0, r1, r2⟩ := octa_raw (shiftBuf (arrayOf [2 / 3, 1 / 3]) (3 * 0))
  have e0 : shiftBuf (arrayOf [2 / 3, 1 / 3]) (3 * 0) 0 = 2 / 3 := by
    simp [shiftBuf, arrayOf]
  have e1 : shiftBuf (arrayOf [2 / 3, 1 / 3]) (3 * 0) 1 = 1 / 3 := by
    simp [shiftBuf, arrayOf]
  have a1 : (2 / 3 : ℝ) - 1 / 3 = 1 / 3 := by norm_num
  have a2 : (1 : ℝ) - 2 / 3 = 1 / 3 := by norm_num
  have a3 : ∀ c : ℝ, 1 - c - c = 1 - 2 * c := fun c => by ring
  rw [e0, e1, a1, a3] at r0
  rw [e0, e1, a1, a2, a3] at r1
  rw [e0, e1, a2, a3] at r2
  have hM : ∀ c : ℝ, Real.sqrt (1 - 4 * c + 6 * c ^ 2) ≠ 0 := by
    intro c
    apply ne_of_gt
    apply Real.sqrt_pos.mpr
    nlinarith [sq_nonneg (3 * c - 1)]
  obtain ⟨n0, n1, n2⟩ := centroid_norm_sq (tri_corr (1 / 3))
  obtain ⟨p0, hp0, _⟩ := sub_mapping_some octahedron_face 0
    (shiftBuf (arrayOf [2 / 3, 1 / 3]) (3 * 0)) (by rw [r0, n0]; exact hM _)
  obtain ⟨p1, hp1, _⟩ := sub_mapping_some octahedron_face 1
    (shiftBuf (arrayOf [2 / 3, 1 / 3]) (3 * 0)) (by rw [r1, n1]; exact hM _)
  obtain ⟨p2, hp2, _⟩ := sub_mapping_some octahedron_face 2
    (shiftBuf (arrayOf [2 / 3, 1 / 3]) (3 * 0)) (by rw [r2, n2]; exact hM _)
  refine ⟨average3 p0 p1 p2,
    tri_read_some octahedron_face _ 1 out 0 Nat.zero_lt_one p0 p1 p2 hp0 hp1 hp2, ?_⟩
  unfold sub_mapping at hp0 hp1 hp2
  rw [octa_norm_first] at hp0 hp1 hp2
  rw [r0] at hp0
  rw [r1] at hp1
  rw [r2] at hp2
  exact centroid_strict _ tri_corr_third_ne p0 p1 p2 hp0 hp1 hp2

/-- On the flat triangle, at the reference point `(1/2, 0)`, the position vector of the
first sub-mapping is the zero vector. -/
theorem flat_triangle_raw_zero (ref : Nat → ℝ) (h0 : ref 0 = 1 / 2) (h1 : ref 1 = 0) :
    t8_vec_norm (sub_mapping_raw flat_triangle 0 ref) = 0 := by
  rw [t8_vec_norm_eq_zero_iff, t8_vec_dot_self_eq_zero_iff]
  simp only [sub_mapping_raw, t8_map_triangle_to_sphere_raw_eq, tri_u, tri_v, tri_w, vecAt,
    flat_triangle, arrayOf, t8_vec_diff, List.getD_cons_zero, List.getD_cons_succ, h0, h1]
  norm_num [tri_corr_zero, tri_corr_half]

end TriPrismFacts

namespace t8_geometry_triangulated_spherical_surface

/-- Claim C6, the code at a failing input.  The octahedron face has the non-zero corners
`(1,0,0)`, `(0,1,0)`, `(0,0,1)` and the sphere radius `|V0| = 1`, and the reference point
`(2/3, 1/3)` lies in the reference triangle.  There each of the three sphere projections
exists and has norm `|V0|`, but the output, which is one third of their sum whatever the
output buffer held before, is strictly shorter than `|V0|`: the triangle branch returns
after the averaging and does not rescale the point back onto the sphere. -/
theorem C6_octahedron_point_inside_sphere :
    (t8_vec_norm (corner octahedron_face 0) ≠ 0 ∧ t8_vec_norm (corner octahedron_face 1) ≠ 0
      ∧ t8_vec_norm (corner octahedron_face 2) ≠ 0)
      ∧ ((0 : ℝ) ≤ arrayOf [2 / 3, 1 / 3] 1
        ∧ arrayOf [2 / 3, 1 / 3] 1 ≤ arrayOf [2 / 3, 1 / 3] 0
        ∧ arrayOf [2 / 3, 1 / 3] 0 ≤ 1)
      ∧ t8_vec_norm (corner octahedron_face 0) = 1
      ∧ ∃ p0 p1 p2 : Vec3,
        sub_mapping octahedron_face 0 (arrayOf [2 / 3, 1 / 3]) = some p0
        ∧ sub_mapping octahedron_face 1 (arrayOf [2 / 3, 1 / 3]) = some p1
        ∧ sub_mapping octahedron_face 2 (arrayOf [2 / 3, 1 / 3]) = some p2
        ∧ t8_vec_norm p0 = t8_vec_norm (corner octahedron_face 0)
        ∧ t8_vec_norm p1 = t8_vec_norm (corner octahedron_face 0)
        ∧ t8_vec_norm p2 = t8_vec_norm (corner octahedron_face 0)
        ∧ (∀ out_coords : Nat → Option ℝ,
            readVec (t8_geom_evaluate octahedron_face 0 (arrayOf [2 / 3, 1 / 3]) 1 out_coords) 0
              = some (average3 p0 p1 p2))
        ∧ t8_vec_norm (average3 p0 p1 p2) < t8_vec_norm (corner octahedron_face 0) := by
  have hcorner : ∀ k : Nat, t8_vec_dot (corner octahedron_face k) (corner octahedron_face k) ≠ 0 →
      t8_vec_norm (corner octahedron_face k) ≠ 0 :=
    fun k h => t8_vec_norm_ne_zero_of_dot_self _ h
  have hV0 : t8_vec_norm (corner octahedron_face 0) = 1 := octa_norm_first
  have hs : shiftBuf (arrayOf [2 / 3, 1 / 3]) (3 * 0) = arrayOf [2 / 3, 1 / 3] := by
    funext j
    simp [shiftBuf]
  obtain ⟨r0, r1, r2⟩ := octa_raw (arrayOf [2 / 3, 1 / 3])
  have e0 : arrayOf [2 / 3, 1 / 3] 0 = 2 / 3 := by simp [arrayOf]
  have e1 : arrayOf [2 / 3, 1 / 3] 1 = 1 / 3 := by simp [arrayOf]
  have a1 : (2 / 3 : ℝ) - 1 / 3 = 1 / 3 := by norm_num
  have a2 : (1 : ℝ) - 2 / 3 = 1 / 3 := by norm_num
  have a3 : ∀ c : ℝ, 1 - c - c = 1 - 2 * c := fun c => by ring
  rw [e0, e1, a1, a3] at r0
  rw [e0, e1, a1, a2, a3] at r1
  rw [e0, e1, a2, a3] at r2
  have hM : ∀ c : ℝ, Real.sqrt (1 - 4 * c + 6 * c ^ 2) ≠ 0 := by
    intro c
    apply ne_of_gt
    apply Real.sqrt_pos.mpr
    nlinarith [sq_nonneg (3 * c - 1)]
  obtain ⟨n0, n1, n2⟩ := centroid_norm_sq (tri_corr (1 / 3))
  obtain ⟨p0, hp0, hn0⟩ := sub_mapping_some octahedron_face 0 (arrayOf [2 / 3, 1 / 3])
    (by rw [r0, n0]; exact hM _)
  obtain ⟨p1, hp1, hn1⟩ := sub_mapping_some octahedron_face 1 (arrayOf [2 / 3, 1 / 3])
    (by rw [r1, n1]; exact hM _)
  obtain ⟨p2, hp2, hn2⟩ := sub_mapping_some octahedron_face 2 (arrayOf [2 / 3, 1 / 3])
    (by rw [r2, n2]; exact hM _)
  refine ⟨⟨?_, ?_, ?_⟩, ⟨?_, ?_, ?_⟩, hV0, p0, p1, p2, hp0, hp1, hp2, hn0, hn1, hn2, ?_, ?_⟩
  · apply hcorner; norm_num [corner, vecAt, octahedron_face, arrayOf, t8_vec_dot]
  · apply hcorner; norm_num [corner, vecAt, octahedron_face, arrayOf, t8_vec_dot]
  · apply hcorner; norm_num [corner, vecAt, octahedron_face, arrayOf, t8_vec_dot]
  · norm_num [arrayOf]
  · norm_num [arrayOf]
  · norm_num [arrayOf]
  · intro out_coords
    exact tri_read_some octahedron_face (arrayOf [2 / 3, 1 / 3]) 1 out_coords 0
      Nat.zero_lt_one p0 p1 p2 (by rw [hs]; exact hp0) (by rw [hs]; exact hp1)
      (by rw [hs]; exact hp2)
  · rw [hV0]
    unfold sub_mapping at hp0 hp1 hp2
    rw [octa_norm_first] at hp0 hp1 hp2
    rw [r0] at hp0
    rw [r1] at hp1
    rw [r2] at hp2
    exact centroid_strict _ tri_corr_third_ne p0 p1 p2 hp0 hp1 hp2

end t8_geometry_triangulated_spherical_surface

section PrismFacts

/-- If the first corner has a non-zero component along the unit normal, the face normal is
not the zero vector. -/
theorem face_normal_ne_of_dot (atv : Nat → ℝ) (c : Nat)
    (hV : t8_vec_dot (corner atv c) (unit_normal atv) ≠ 0) :
    t8_vec_norm (face_normal atv) ≠ 0 := by
  intro h0
  apply hV
  have hz := (t8_vec_dot_self_eq_zero_iff _).mp ((t8_vec_norm_eq_zero_iff _).mp h0)
  simp only [unit_normal, t8_vec_dot, t8_vec_ax, hz.1, hz.2.1, hz.2.2]
  ring

/-- On the base triangle (`z = 0`) the linear prism position lies in the plane of the base
triangle: its dot product with the face normal is that of the first corner. -/
theorem prism_position_base (atv : Nat → ℝ) (ref : Nat → ℝ) (hz : ref 2 = 0) :
    t8_vec_dot (t8_geom_compute_linear_geometry_prism atv ref) (face_normal atv)
      = t8_vec_dot (vecAt atv 0) (face_normal atv) := by
  simp only [t8_geom_compute_linear_geometry_prism, face_normal, t8_vec_tri_normal,
    t8_vec_cross, t8_vec_diff, t8_vec_axpy, t8_vec_axy, t8_vec_dot, vecAt, hz]
  ring

theorem t8_vec_dot_unit_normal (atv : Nat → ℝ) (v : Vec3) :
    t8_vec_dot v (unit_normal atv)
      = (1 / t8_vec_norm (face_normal atv)) * t8_vec_dot v (face_normal atv) := by
  simp only [unit_normal, t8_vec_dot, t8_vec_ax]
  ring

end PrismFacts

namespace t8_geometry_prismed_spherical_shell

/-- Claim C8.  For `t8_geometry_prismed_spherical_shell::t8_geom_evaluate`, for every prism
tree with `V0 . n != 0` (`n` the unit normal of the base triangle) and every reference point
of a batch at which the averaged triangle mapping (the output of the triangulated spherical
surface on the same input) is a non-zero vector `a`: the output point exists and its norm
equals `|(p . n) / (r . n)|`, where `p` is the linear prism position of the reference point
and `r = V0 / |V0|`; and for a reference point on the base triangle (`z = 0`) the norm
equals the inner radius `|V0|`. -/
theorem C8_prism_shell_norm (atv : Nat → ℝ) (gtreeid : Nat) (ref_coords : Nat → ℝ)
    (num_coords : Nat) (out_coords : Nat → Option ℝ) (i : Nat) (hi : i < num_coords)
    (hV : t8_vec_dot (corner atv 0) (unit_normal atv) ≠ 0)
    (a : Vec3)
    (ha : readVec (t8_geometry_triangulated_spherical_surface.t8_geom_evaluate atv gtreeid
      ref_coords num_coords out_coords) (3 * i) = some a)
    (hane : t8_vec_norm a ≠ 0) :
    ∃ v, readVec (t8_geom_evaluate atv gtreeid ref_coords num_coords out_coords) (3 * i)
          = some v
      ∧ t8_vec_norm v
          = |t8_vec_dot
                (t8_geom_compute_linear_geometry_prism atv (shiftBuf ref_coords (3 * i)))
                (unit_normal atv)
              / t8_vec_dot (radial_unit atv) (unit_normal atv)|
      ∧ (ref_coords (3 * i + 2) = 0 → t8_vec_norm v = t8_vec_norm (corner atv 0)) := by
  have hN : t8_vec_norm (face_normal atv) ≠ 0 := face_normal_ne_of_dot atv 0 hV
  have hV0 : t8_vec_norm (vecAt atv 0) ≠ 0 := t8_vec_norm_ne_zero_of_dot _ _ hV
  have hrn : t8_vec_dot (radial_unit atv) (unit_normal atv)
      = (1 / t8_vec_norm (vecAt atv 0)) * t8_vec_dot (vecAt atv 0) (unit_normal atv) :=
    t8_vec_dot_ax_left _ _ _
  have hrn0 : t8_vec_dot (radial_unit atv) (unit_normal atv) ≠ 0 := by
    rw [hrn]
    exact mul_ne_zero (one_div_ne_zero hV0) hV
  have hnorm : t8_vec_normalize (t8_vec_tri_normal (vecAt atv 0) (vecAt atv 3) (vecAt atv 6))
      = some (unit_normal atv) := t8_vec_normalize_of_ne _ hN
  have hr : t8_vec_normalize (vecAt atv 0) = some (radial_unit atv) :=
    t8_vec_normalize_of_ne _ hV0
  obtain ⟨w, hw, hwn⟩ := t8_vec_rescale_norm a
    (t8_vec_dot (t8_geom_compute_linear_geometry_prism atv (shiftBuf ref_coords (3 * i)))
        (unit_normal atv)
      * (1.0 / t8_vec_dot (radial_unit atv) (unit_normal atv))) hane
  have hread : readVec (t8_geom_evaluate atv gtreeid ref_coords num_coords out_coords) (3 * i)
      = some w := by
    have h := prism_read atv ref_coords num_coords out_coords i hi
    have ha2 : readVec (t8_geom_evaluate_sphere_tri_prism atv t8_eclass_t.T8_ECLASS_TRIANGLE
        ref_coords num_coords out_coords) (3 * i) = some a := ha
    rw [ha2] at h
    simp only [prism_rescale, hnorm, hr, fdiv, hrn0, if_false, Option.some_bind] at h
    rw [hw] at h
    exact h
  have hval : t8_vec_norm w
      = |t8_vec_dot
            (t8_geom_compute_linear_geometry_prism atv (shiftBuf ref_coords (3 * i)))
            (unit_normal atv)
          / t8_vec_dot (radial_unit atv) (unit_normal atv)| := by
    rw [hwn]
    congr 1
    norm_num
    rw [div_eq_mul_inv]
  refine ⟨w, hread, hval, ?_⟩
  intro hz
  rw [hval, hrn, t8_vec_dot_unit_normal atv (t8_geom_compute_linear_geometry_prism atv _),
    prism_position_base atv (shiftBuf ref_coords (3 * i)) hz, ← t8_vec_dot_unit_normal]
  have hpos : 0 < t8_vec_norm (vecAt atv 0) :=
    lt_of_le_of_ne (t8_vec_norm_nonneg _) (Ne.symm hV0)
  have e : t8_vec_dot (vecAt atv 0) (unit_normal atv)
      / (1 / t8_vec_norm (vecAt atv 0) * t8_vec_dot (vecAt atv 0) (unit_normal atv))
        = t8_vec_norm (vecAt atv 0) := by
    have hV2 : t8_vec_dot (vecAt atv 0) (unit_normal atv) ≠ 0 := hV
    field_simp
  rw [e, abs_of_pos hpos]
  rfl

end t8_geometry_prismed_spherical_shell

/-! ## Order preservation -/

section OrderFacts

theorem shiftBuf_shiftBuf_zero (a : Nat → ℝ) (m d : Nat) :
    shiftBuf (shiftBuf a m) (d * 0) = shiftBuf a m := by
  funext j
  simp [shiftBuf]

/-- Cell `3 * i + k` after the disk evaluation of a batch: component `k` of the point value
of round `i`, which depends on the batch only through the reference point at offset
`2 * i`. -/
theorem disk_cell (atv : Nat → ℝ) (gtreeid : Nat) (ref_coords : Nat → ℝ) (num_coords : Nat)
    (out_coords : Nat → Option ℝ) (i k : Nat) (hi : i < num_coords) (hk : k < 3) :
    t8_geometry_quadrangulated_disk.t8_geom_evaluate atv gtreeid ref_coords num_coords
        out_coords (3 * i + k)
      = (if gtreeid % 3 = 0 then
          some (t8_geom_linear_interpolation (shiftBuf ref_coords (2 * i)) atv 3 2)
        else
          (t8_geometry_quadrangulated_disk.locals atv).bind (fun l =>
            t8_geometry_quadrangulated_disk.side_point atv gtreeid l
              (shiftBuf ref_coords (2 * i)))).map (fun w => w.get k) := by
  unfold t8_geometry_quadrangulated_disk.t8_geom_evaluate
  split_ifs with h
  · exact forLoop_writeVec_cell
      (fun j => some (t8_geom_linear_interpolation (shiftBuf ref_coords (2 * j)) atv 3 2))
      out_coords num_coords i k hi hk
  · exact forLoop_writeVec_cell
      (fun j => (t8_geometry_quadrangulated_disk.locals atv).bind (fun l =>
        t8_geometry_quadrangulated_disk.side_point atv gtreeid l (shiftBuf ref_coords (2 * j))))
      out_coords num_coords i k hi hk

/-- Cell `3 * i + k` after the cubed sphere evaluation of a batch. -/
theorem cubed_sphere_cell (atv : Nat → ℝ) (gtreeid : Nat) (ref_coords : Nat → ℝ)
    (num_coords : Nat) (out_coords : Nat → Option ℝ) (i k : Nat) (hi : i < num_coords)
    (hk : k < 3) :
    t8_geometry_cubed_sphere.t8_geom_evaluate atv gtreeid ref_coords num_coords
        out_coords (3 * i + k)
      = (if gtreeid % 4 = 0 then
          some (t8_geom_linear_interpolation (shiftBuf ref_coords (3 * i)) atv 3 3)
        else
          (t8_geometry_cubed_sphere.locals atv).bind (fun l =>
            t8_geometry_cubed_sphere.side_point atv gtreeid l
              (shiftBuf ref_coords (3 * i)))).map (fun w => w.get k) := by
  unfold t8_geometry_cubed_sphere.t8_geom_evaluate
  split_ifs with h
  · exact forLoop_writeVec_cell
      (fun j => some (t8_geom_linear_interpolation (shiftBuf ref_coords (3 * j)) atv 3 3))
      out_coords num_coords i k hi hk
  · exact forLoop_writeVec_cell
      (fun j => (t8_geometry_cubed_sphere.locals atv).bind (fun l =>
        t8_geometry_cubed_sphere.side_point atv gtreeid l (shiftBuf ref_coords (3 * j))))
      out_coords num_coords i k hi hk

/-- Cell `3 * i + k` after the evaluation of a batch on the quadrangulated spherical
surface. -/
theorem quad_sphere_cell (atv : Nat → ℝ) (gtreeid : Nat) (ref_coords : Nat → ℝ)
    (num_coords : Nat) (out_coords : Nat → Option ℝ) (i k : Nat) (hi : i < num_coords)
    (hk : k < 3) :
    t8_geometry_quadrangulated_spherical_surface.t8_geom_evaluate atv gtreeid ref_coords
        num_coords out_coords (3 * i + k)
      = ((face_frame atv).bind (fun f =>
          t8_geometry_quadrangulated_spherical_surface.point atv f
            (shiftBuf ref_coords (2 * i)))).map (fun w => w.get k) :=
  forLoop_writeVec_cell
    (fun j => (face_frame atv).bind (fun f =>
      t8_geometry_quadrangulated_spherical_surface.point atv f (shiftBuf ref_coords (2 * j))))
    out_coords num_coords i k hi hk

/-- Cell `3 * i + k` after the evaluation of a batch on the cubed spherical shell. -/
theorem cubed_shell_cell (atv : Nat → ℝ) (gtreeid : Nat) (ref_coords : Nat → ℝ)
    (num_coords : Nat) (out_coords : Nat → Option ℝ) (i k : Nat) (hi : i < num_coords)
    (hk : k < 3) :
    t8_geometry_cubed_spherical_shell.t8_geom_evaluate atv gtreeid ref_coords
        num_coords out_coords (3 * i + k)
      = ((face_frame atv).bind (fun f =>
          t8_geometry_cubed_spherical_shell.point atv f
            (shiftBuf ref_coords (3 * i)))).map (fun w => w.get k) :=
  forLoop_writeVec_cell
    (fun j => (face_frame atv).bind (fun f =>
      t8_geometry_cubed_spherical_shell.point atv f (shiftBuf ref_coords (3 * j))))
    out_coords num_coords i k hi hk

/-- The triangle mapping of a batch has in the cells of point `i` what the mapping of the
single point at offset `3 * i` has in its three cells. -/
theorem tri_single (atv : Nat → ℝ) (ref_coords : Nat → ℝ) (num_coords : Nat)
    (out_coords out2 : Nat → Option ℝ) (i k : Nat) (hi : i < num_coords) (hk : k < 3) :
    t8_geom_evaluate_sphere_tri_prism atv t8_eclass_t.T8_ECLASS_TRIANGLE ref_coords num_coords
        out_coords (3 * i + k)
      = t8_geom_evaluate_sphere_tri_prism atv t8_eclass_t.T8_ECLASS_TRIANGLE
          (shiftBuf ref_coords (3 * i)) 1 out2 (3 * 0 + k) := by
  rw [tri_cell atv ref_coords num_coords out_coords i k hi hk,
    tri_cell atv (shiftBuf ref_coords (3 * i)) 1 out2 0 k Nat.zero_lt_one hk,
    shiftBuf_shiftBuf_zero]

/-- The same for the prism mapping. -/
theorem prism_single (atv : Nat → ℝ) (ref_coords : Nat → ℝ) (num_coords : Nat)
    (out_coords out2 : Nat → Option ℝ) (i k : Nat) (hi : i < num_coords) (hk : k < 3) :
    t8_geom_evaluate_sphere_tri_prism atv t8_eclass_t.T8_ECLASS_PRISM ref_coords num_coords
        out_coords (3 * i + k)
      = t8_geom_evaluate_sphere_tri_prism atv t8_eclass_t.T8_ECLASS_PRISM
          (shiftBuf ref_coords (3 * i)) 1 out2 (3 * 0 + k) := by
  rw [prism_cell atv ref_coords num_coords out_coords i k hi hk,
    prism_cell atv (shiftBuf ref_coords (3 * i)) 1 out2 0 k Nat.zero_lt_one hk]
  have hr : readVec (t8_geom_evaluate_sphere_tri_prism atv t8_eclass_t.T8_ECLASS_TRIANGLE
        ref_coords num_coords out_coords) (3 * i)
      = readVec (t8_geom_evaluate_sphere_tri_prism atv t8_eclass_t.T8_ECLASS_TRIANGLE
        (shiftBuf ref_coords (3 * i)) 1 out2) (3 * 0) :=
    readVec_congr _ _ _ _
      (fun q hq => tri_single atv ref_coords num_coords out_coords out2 i q hi hq)
  rw [hr]
  simp only [prism_rescale, shiftBuf_shiftBuf_zero]

end OrderFacts

/-- Claim C9.  Order preservation of `t8_geom_evaluate` for the quadrangulated disk and the
quadrangulated spherical surface (2 reference coordinates per point) and for the prismed
spherical shell, the cubed spherical shell and the cubed sphere (3 reference coordinates
per point): for every tree, every `N` and every batch of `N` reference points, output cell
`3i + k` (coordinate `k` at position `i`) equals cell `k` of the evaluation of the `i`-th
reference point alone, whatever the output arrays held before, for every `i < N`; and for
`N = 0` the output array is returned as it was. -/
theorem C9_order_preservation (atv : Nat → ℝ) (gtreeid : Nat) (ref_coords : Nat → ℝ)
    (num_coords : Nat) (out_coords out2 : Nat → Option ℝ) :
    (∀ i k, i < num_coords → k < 3 →
      t8_geometry_quadrangulated_disk.t8_geom_evaluate atv gtreeid ref_coords num_coords
          out_coords (3 * i + k)
        = t8_geometry_quadrangulated_disk.t8_geom_evaluate atv gtreeid
            (shiftBuf ref_coords (2 * i)) 1 out2 k
      ∧ t8_geometry_quadrangulated_spherical_surface.t8_geom_evaluate atv gtreeid ref_coords
          num_coords out_coords (3 * i + k)
        = t8_geometry_quadrangulated_spherical_surface.t8_geom_evaluate atv gtreeid
            (shiftBuf ref_coords (2 * i)) 1 out2 k
      ∧ t8_geometry_prismed_spherical_shell.t8_geom_evaluate atv gtreeid ref_coords
          num_coords out_coords (3 * i + k)
        = t8_geometry_prismed_spherical_shell.t8_geom_evaluate atv gtreeid
            (shiftBuf ref_coords (3 * i)) 1 out2 k
      ∧ t8_geometry_cubed_spherical_shell.t8_geom_evaluate atv gtreeid ref_coords
          num_coords out_coords (3 * i + k)
        = t8_geometry_cubed_spherical_shell.t8_geom_evaluate atv gtreeid
            (shiftBuf ref_coords (3 * i)) 1 out2 k
      ∧ t8_geometry_cubed_sphere.t8_geom_evaluate atv gtreeid ref_coords
          num_coords out_coords (3 * i + k)
        = t8_geometry_cubed_sphere.t8_geom_evaluate atv gtreeid
            (shiftBuf ref_coords (3 * i)) 1 out2 k)
    ∧ t8_geometry_quadrangulated_disk.t8_geom_evaluate atv gtreeid ref_coords 0 out_coords
        = out_coords
    ∧ t8_geometry_quadrangulated_spherical_surface.t8_geom_evaluate atv gtreeid ref_coords 0
        out_coords = out_coords
    ∧ t8_geometry_prismed_spherical_shell.t8_geom_evaluate atv gtreeid ref_coords 0 out_coords
        = out_coords
    ∧ t8_geometry_cubed_spherical_shell.t8_geom_evaluate atv gtreeid ref_coords 0 out_coords
        = out_coords
    ∧ t8_geometry_cubed_sphere.t8_geom_evaluate atv gtreeid ref_coords 0 out_coords
        = out_coords := by
  refine ⟨?_, ?_, rfl, rfl, rfl, ?_⟩
  · intro i k hi hk
    have z : ∀ m : Nat, 3 * 0 + m = m := fun m => by omega
    refine ⟨?_, ?_, ?_, ?_, ?_⟩
    · have h := disk_cell atv gtreeid (shiftBuf ref_coords (2 * i)) 1 out2 0 k
        Nat.zero_lt_one hk
      rw [z, shiftBuf_shiftBuf_zero] at h
      rw [disk_cell atv gtreeid ref_coords num_coords out_coords i k hi hk, h]
    · have h := quad_sphere_cell atv gtreeid (shiftBuf ref_coords (2 * i)) 1 out2 0 k
        Nat.zero_lt_one hk
      rw [z, shiftBuf_shiftBuf_zero] at h
      rw [quad_sphere_cell atv gtreeid ref_coords num_coords out_coords i k hi hk, h]
    · have h := prism_single atv ref_coords num_coords out_coords out2 i k hi hk
      rw [z] at h
      exact h
    · have h := cubed_shell_cell atv gtreeid (shiftBuf ref_coords (3 * i)) 1 out2 0 k
        Nat.zero_lt_one hk
      rw [z, shiftBuf_shiftBuf_zero] at h
      rw [cubed_shell_cell atv gtreeid ref_coords num_coords out_coords i k hi hk, h]
    · have h := cubed_sphere_cell atv gtreeid (shiftBuf ref_coords (3 * i)) 1 out2 0 k
        Nat.zero_lt_one hk
      rw [z, shiftBuf_shiftBuf_zero] at h
      rw [cubed_sphere_cell atv gtreeid ref_coords num_coords out_coords i k hi hk, h]
  · unfold t8_geometry_quadrangulated_disk.t8_geom_evaluate
    split_ifs <;> rfl
  · unfold t8_geometry_cubed_sphere.t8_geom_evaluate
    split_ifs <;> rfl

/-! ## The stride of the triangulated spherical surface, and witnesses -/

section OctahedronFacts

theorem octa_read_one_zero (ref_coords : Nat → ℝ) (num_coords : Nat)
    (out_coords : Nat → Option ℝ) (i : Nat) (hi : i < num_coords)
    (h0 : ref_coords (3 * i) = 1) (h1 : ref_coords (3 * i + 1) = 0) :
    readVec (t8_geom_evaluate_sphere_tri_prism octahedron_face t8_eclass_t.T8_ECLASS_TRIANGLE
        ref_coords num_coords out_coords) (3 * i) = some ⟨0, 1, 0⟩ := by
  have hs : ∀ k, k < 3 →
      sub_mapping octahedron_face k (shiftBuf ref_coords (3 * i)) = some ⟨0, 1, 0⟩ :=
    fun k hk => octa_sub_of_raw k _ _ (octa_raw_one_zero _ h0 h1 k hk) norm_e2
  rw [tri_read_some octahedron_face ref_coords num_coords out_coords i hi _ _ _
    (hs 0 (by decide)) (hs 1 (by decide)) (hs 2 (by decide)), average3_same]

theorem octa_read_one_one (ref_coords : Nat → ℝ) (num_coords : Nat)
    (out_coords : Nat → Option ℝ) (i : Nat) (hi : i < num_coords)
    (h0 : ref_coords (3 * i) = 1) (h1 : ref_coords (3 * i + 1) = 1) :
    readVec (t8_geom_evaluate_sphere_tri_prism octahedron_face t8_eclass_t.T8_ECLASS_TRIANGLE
        ref_coords num_coords out_coords) (3 * i) = some ⟨0, 0, 1⟩ := by
  have hs : ∀ k, k < 3 →
      sub_mapping octahedron_face k (shiftBuf ref_coords (3 * i)) = some ⟨0, 0, 1⟩ :=
    fun k hk => octa_sub_of_raw k _ _ (octa_raw_one_one _ h0 h1 k hk) norm_e3
  rw [tri_read_some octahedron_face ref_coords num_coords out_coords i hi _ _ _
    (hs 0 (by decide)) (hs 1 (by decide)) (hs 2 (by decide)), average3_same]

theorem face_normal_octahedron_face : face_normal octahedron_face = ⟨1, 1, 1⟩ := by
  simp only [face_normal, t8_vec_tri_normal, t8_vec_cross, t8_vec_diff, vecAt, octahedron_face,
    arrayOf, List.getD_cons_zero, List.getD_cons_succ]
  norm_num

theorem octahedron_face_dot_ne :
    t8_vec_dot (corner octahedron_face 0) (unit_normal octahedron_face) ≠ 0 := by
  have hN : t8_vec_norm (face_normal octahedron_face) ≠ 0 := by
    apply t8_vec_norm_ne_zero_of_dot_self
    rw [face_normal_octahedron_face]
    norm_num [t8_vec_dot]
  rw [t8_vec_dot_unit_normal, face_normal_octahedron_face]
  apply mul_ne_zero (one_div_ne_zero (by rw [← face_normal_octahedron_face]; exact hN))
  norm_num [corner, vecAt, octahedron_face, arrayOf, t8_vec_dot]

end OctahedronFacts

namespace t8_geometry_triangulated_spherical_surface

/-- Claim C10, the code at a failing input.  On the octahedron face, for the batch of the
three reference points `(0,0)`, `(1,1)`, `(0,0)` stored with 2 coordinates per point, the
output at position 1 is `(0, 1, 0)`, the image of `(ref_coords[3], ref_coords[4]) = (1, 0)`,
although the second reference point `(1, 1)` evaluated alone has the image `(0, 0, 1)`: the
loop reads point `i` at offset `3 * i`, not `2 * i`. -/
theorem C10_batch_read_with_stride_three :
    readVec (t8_geom_evaluate octahedron_face 0 batch_2d 3 (fun _ => none)) (3 * 1)
        = some ⟨0, 1, 0⟩
      ∧ readVec (t8_geom_evaluate octahedron_face 0 (shiftBuf batch_2d (2 * 1)) 1
          (fun _ => none)) (3 * 0) = some ⟨0, 0, 1⟩
      ∧ (shiftBuf batch_2d (2 * 1) 0 = 1 ∧ shiftBuf batch_2d (2 * 1) 1 = 1)
      ∧ (shiftBuf batch_2d (3 * 1) 0 = 1 ∧ shiftBuf batch_2d (3 * 1) 1 = 0) := by
  refine ⟨?_, ?_, ⟨?_, ?_⟩, ⟨?_, ?_⟩⟩
  · exact octa_read_one_zero batch_2d 3 _ 1 (by decide) (by simp [batch_2d, arrayOf])
      (by simp [batch_2d, arrayOf])
  · exact octa_read_one_one (shiftBuf batch_2d (2 * 1)) 1 _ 0 Nat.zero_lt_one
      (by simp [shiftBuf, batch_2d, arrayOf]) (by simp [shiftBuf, batch_2d, arrayOf])
  · simp [shiftBuf, batch_2d, arrayOf]
  · simp [shiftBuf, batch_2d, arrayOf]
  · simp [shiftBuf, batch_2d, arrayOf]
  · simp [shiftBuf, batch_2d, arrayOf]

end t8_geometry_triangulated_spherical_surface

namespace t8_geometry_prismed_spherical_shell

/-- Witness of C8: the prism over the octahedron face, at the reference point `(1, 0, 0)`,
where the averaged triangle mapping is `(0, 1, 0)`. -/
theorem C8_prism_shell_norm_witness :
    (0 < 1
      ∧ t8_vec_dot (corner octahedron_face 0) (unit_normal octahedron_face) ≠ 0
      ∧ readVec (t8_geometry_triangulated_spherical_surface.t8_geom_evaluate octahedron_face 0
          (arrayOf [1, 0, 0]) 1 (fun _ => none)) (3 * 0) = some ⟨0, 1, 0⟩
      ∧ t8_vec_norm ⟨0, 1, 0⟩ ≠ 0)
    ∧ ∃ v, readVec (t8_geom_evaluate octahedron_face 0 (arrayOf [1, 0, 0]) 1 (fun _ => none))
          (3 * 0) = some v
      ∧ t8_vec_norm v
          = |t8_vec_dot
                (t8_geom_compute_linear_geometry_prism octahedron_face
                  (shiftBuf (arrayOf [1, 0, 0]) (3 * 0)))
                (unit_normal octahedron_face)
              / t8_vec_dot (radial_unit octahedron_face) (unit_normal octahedron_face)|
      ∧ (arrayOf [1, 0, 0] (3 * 0 + 2) = 0 →
          t8_vec_norm v = t8_vec_norm (corner octahedron_face 0)) :=
  have hread : readVec (t8_geometry_triangulated_spherical_surface.t8_geom_evaluate
      octahedron_face 0 (arrayOf [1, 0, 0]) 1 (fun _ => none)) (3 * 0) = some ⟨0, 1, 0⟩ :=
    octa_read_one_zero (arrayOf [1, 0, 0]) 1 _ 0 Nat.zero_lt_one (by simp [arrayOf])
      (by simp [arrayOf])
  have hne : t8_vec_norm ⟨0, 1, 0⟩ ≠ 0 := by
    rw [norm_e2]
    exact one_ne_zero
  ⟨⟨Nat.zero_lt_one, octahedron_face_dot_ne, hread, hne⟩,
    C8_prism_shell_norm octahedron_face 0 (arrayOf [1, 0, 0]) 1 (fun _ => none) 0
      Nat.zero_lt_one octahedron_face_dot_ne ⟨0, 1, 0⟩ hread hne⟩

end t8_geometry_prismed_spherical_shell

/-- Witness of C9: a batch of two points on the cube face, first point, first coordinate,
for the quadrangulated spherical surface. -/
theorem C9_order_preservation_witness :
    (0 < 2 ∧ 0 < 3)
    ∧ t8_geometry_quadrangulated_spherical_surface.t8_geom_evaluate cube_top 0 (fun _ => 0) 2
          (fun _ => none) (3 * 0 + 0)
        = t8_geometry_quadrangulated_spherical_surface.t8_geom_evaluate cube_top 0
            (shiftBuf (fun _ => 0) (2 * 0)) 1 (fun _ => some 0) 0 :=
  ⟨⟨by decide, by decide⟩,
    ((C9_order_preservation cube_top 0 (fun _ => 0) 2 (fun _ => none) (fun _ => some 0)).1
      0 0 (by decide) (by decide)).2.1⟩

/-! ## Edges of the triangulated spherical surface -/

section EdgeFacts

theorem tri_corr_compl (s : ℝ) : tri_corr (1 - s) = 1 - tri_corr s := by
  have e : (0.5 : ℝ) * M_PI * (1 - s - 0.5) = -(0.5 * M_PI * (s - 0.5)) := by
    norm_num
    ring
  unfold tri_corr tan
  rw [e, Real.tan_neg]
  ring

/-- The three position vectors of a reference point in terms of the corners. -/
theorem sub_mapping_raw_corners (atv : Nat → ℝ) (ref : Nat → ℝ) :
    sub_mapping_raw atv 0 ref
        = ⟨(corner atv 0).x + tri_corr (ref 0 - ref 1) * ((corner atv 1).x - (corner atv 0).x)
              + tri_corr (ref 1) * ((corner atv 2).x - (corner atv 0).x),
           (corner atv 0).y + tri_corr (ref 0 - ref 1) * ((corner atv 1).y - (corner atv 0).y)
              + tri_corr (ref 1) * ((corner atv 2).y - (corner atv 0).y),
           (corner atv 0).z + tri_corr (ref 0 - ref 1) * ((corner atv 1).z - (corner atv 0).z)
              + tri_corr (ref 1) * ((corner atv 2).z - (corner atv 0).z)⟩
      ∧ sub_mapping_raw atv 1 ref
        = ⟨(corner atv 2).x + tri_corr (1 - ref 0) * ((corner atv 0).x - (corner atv 2).x)
              + tri_corr (ref 0 - ref 1) * ((corner atv 1).x - (corner atv 2).x),
           (corner atv 2).y + tri_corr (1 - ref 0) * ((corner atv 0).y - (corner atv 2).y)
              + tri_corr (ref 0 - ref 1) * ((corner atv 1).y - (corner atv 2).y),
           (corner atv 2).z + tri_corr (1 - ref 0) * ((corner atv 0).z - (corner atv 2).z)
              + tri_corr (ref 0 - ref 1) * ((corner atv 1).z - (corner atv 2).z)⟩
      ∧ sub_mapping_raw atv 2 ref
        = ⟨(corner atv 1).x + tri_corr (ref 1) * ((corner atv 2).x - (corner atv 1).x)
              + tri_corr (1 - ref 0) * ((corner atv 0).x - (corner atv 1).x),
           (corner atv 1).y + tri_corr (ref 1) * ((corner atv 2).y - (corner atv 1).y)
              + tri_corr (1 - ref 0) * ((corner atv 0).y - (corner atv 1).y),
           (corner atv 1).z + tri_corr (ref 1) * ((corner atv 2).z - (corner atv 1).z)
              + tri_corr (1 - ref 0) * ((corner atv 0).z - (corner atv 1).z)⟩ := by
  have a0 : (0.0 : ℝ) + ref 0 * 1.0 + ref 1 * -1.0 = ref 0 - ref 1 := by norm_num; ring
  have a1 : (0.0 : ℝ) + ref 0 * 0.0 + ref 1 * 1.0 = ref 1 := by norm_num
  have b0 : (1.0 : ℝ) + ref 0 * -1.0 + ref 1 * 0.0 = 1 - ref 0 := by norm_num; ring
  have b1 : (0.0 : ℝ) + ref 0 * 1.0 + ref 1 * -1.0 = ref 0 - ref 1 := a0
  have c0 : (0.0 : ℝ) + ref 0 * 0.0 + ref 1 * 1.0 = ref 1 := a1
  have c1 : (1.0 : ℝ) + ref 0 * -1.0 + ref 1 * 0.0 = 1 - ref 0 := b0
  refine ⟨?_, ?_, ?_⟩
  · simp only [sub_mapping_raw, t8_map_triangle_to_sphere_raw_eq, a0, a1]
    rfl
  · simp only [sub_mapping_raw, t8_map_triangle_to_sphere_raw_eq, b0, b1]
    rfl
  · simp only [sub_mapping_raw, t8_map_triangle_to_sphere_raw_eq, c0, c1]
    rfl


theorem edge_ref_cells (e : Nat) (t : ℝ) :
    (e = 0 → edge_ref e t 0 = t ∧ edge_ref e t 1 = 0)
      ∧ (e = 1 → edge_ref e t 0 = 1 ∧ edge_ref e t 1 = t)
      ∧ (2 ≤ e → edge_ref e t 0 = t ∧ edge_ref e t 1 = t) := by
  refine ⟨?_, ?_, ?_⟩
  · rintro rfl
    simp [edge_ref, arrayOf]
  · rintro rfl
    simp [edge_ref, arrayOf]
  · intro h
    obtain ⟨m, rfl⟩ : ∃ m, e = m + 2 := ⟨e - 2, by omega⟩
    simp [edge_ref, arrayOf]

/-- On an edge of the reference triangle the three position vectors are the same point of
the straight edge between the two end vertices. -/
theorem sub_mapping_raw_on_edge (atv : Nat → ℝ) (ref : Nat → ℝ) (e : Nat) (t : ℝ) (k : Nat)
    (hk : k < 3) (h0 : ref 0 = edge_ref e t 0) (h1 : ref 1 = edge_ref e t 1) :
    sub_mapping_raw atv k ref = edge_vector (edge_ends atv e).1 (edge_ends atv e).2 t := by
  obtain ⟨r0, r1, r2⟩ := sub_mapping_raw_corners atv ref
  obtain ⟨c0, c1, c2⟩ := edge_ref_cells e t
  have hc := tri_corr_compl t
  have hz := tri_corr_zero
  rcases Nat.lt_or_ge e 2 with he | he
  · interval_cases e
    · obtain ⟨p0, p1⟩ := c0 rfl
      rw [p0] at h0
      rw [p1] at h1
      have s0 : ref 0 - ref 1 = t := by rw [h0, h1]; ring
      have s1 : (1 : ℝ) - ref 0 = 1 - t := by rw [h0]
      interval_cases k
      · rw [r0, s0, h1, hz, Vec3.ext_iff3]
        simp only [edge_vector, edge_ends]
        refine ⟨?_, ?_, ?_⟩ <;> ring
      · rw [r1, s0, s1, hc, Vec3.ext_iff3]
        simp only [edge_vector, edge_ends]
        refine ⟨?_, ?_, ?_⟩ <;> ring
      · rw [r2, s1, h1, hc, hz, Vec3.ext_iff3]
        simp only [edge_vector, edge_ends]
        refine ⟨?_, ?_, ?_⟩ <;> ring
    · obtain ⟨p0, p1⟩ := c1 rfl
      rw [p0] at h0
      rw [p1] at h1
      have s0 : ref 0 - ref 1 = 1 - t := by rw [h0, h1]
      have s1 : (1 : ℝ) - ref 0 = 0 := by rw [h0]; ring
      interval_cases k
      · rw [r0, s0, h1, hc, Vec3.ext_iff3]
        simp only [edge_vector, edge_ends]
        refine ⟨?_, ?_, ?_⟩ <;> ring
      · rw [r1, s0, s1, hc, hz, Vec3.ext_iff3]
        simp only [edge_vector, edge_ends]
        refine ⟨?_, ?_, ?_⟩ <;> ring
      · rw [r2, s1, h1, hz, Vec3.ext_iff3]
        simp only [edge_vector, edge_ends]
        refine ⟨?_, ?_, ?_⟩ <;> ring
  · obtain ⟨p0, p1⟩ := c2 he
    rw [p0] at h0
    rw [p1] at h1
    have s0 : ref 0 - ref 1 = 0 := by rw [h0, h1]; ring
    have s1 : (1 : ℝ) - ref 0 = 1 - t := by rw [h0]
    obtain ⟨m, rfl⟩ : ∃ m, e = m + 2 := ⟨e - 2, by omega⟩
    interval_cases k
    · rw [r0, s0, h1, hz, Vec3.ext_iff3]
      simp only [edge_vector, edge_ends]
      refine ⟨?_, ?_, ?_⟩ <;> ring
    · rw [r1, s0, s1, hc, hz, Vec3.ext_iff3]
      simp only [edge_vector, edge_ends]
      refine ⟨?_, ?_, ?_⟩ <;> ring
    · rw [r2, s1, h1, hc, Vec3.ext_iff3]
      simp only [edge_vector, edge_ends]
      refine ⟨?_, ?_, ?_⟩ <;> ring

/-- If the three sphere projections of point `i` are the same, possibly undefined, vector,
the cells of point `i` hold that vector. -/
theorem tri_read_same (atv : Nat → ℝ) (ref_coords : Nat → ℝ) (num_coords : Nat)
    (out_coords : Nat → Option ℝ) (i : Nat) (hi : i < num_coords) (q : Option Vec3)
    (h : ∀ k, k < 3 → sub_mapping atv k (shiftBuf ref_coords (3 * i)) = q) :
    readVec (t8_geom_evaluate_sphere_tri_prism atv t8_eclass_t.T8_ECLASS_TRIANGLE ref_coords
        num_coords out_coords) (3 * i) = q := by
  cases q with
  | none =>
    exact tri_read_none atv ref_coords num_coords out_coords i hi (Or.inl (h 0 (by decide)))
  | some p =>
    rw [tri_read_some atv ref_coords num_coords out_coords i hi p p p (h 0 (by decide))
      (h 1 (by decide)) (h 2 (by decide)), average3_same]

theorem edge_vector_swap (Va Vb : Vec3) (t : ℝ) :
    edge_vector Vb Va (1 - t) = edge_vector Va Vb t := by
  rw [Vec3.ext_iff3]
  simp only [edge_vector, tri_corr_compl]
  refine ⟨?_, ?_, ?_⟩ <;> ring

end EdgeFacts

namespace t8_geometry_triangulated_spherical_surface

/-- Claim C11.  Seam-free edges of the triangulated spherical surface.  For every triangle
tree and every reference point on an edge of the reference triangle (`(t, 0)` on `y = 0`,
`(1, t)` on `x = 1`, `(t, t)` on `x = y`), the three corner-anchored sub-mappings of
`t8_map_triangle_to_sphere` produce the same point, and the output equals
`(1 - f(t)) * Va + f(t) * Vb` rescaled to the length `|V0|`, where `Va`, `Vb` are the end
vertices of that edge and `f(t) = tan(pi/2 * (t - 1/2)) / 2 + 1/2` (both sides have a value
or both have none, namely when that point of the straight edge is the origin).  The output
does not depend on the third vertex: two triangles with the same radius `|V0|` that share
an edge, in the same or in the opposite direction, map matching edge points to the same
physical point.  Where the point of the straight edge is not the origin the output has a
value, of norm `|V0|`. -/
theorem C11_tri_edges_seam_free (atv atv2 : Nat → ℝ) (gtreeid gtreeid2 : Nat)
    (out out2 : Nat → Option ℝ) (e e2 : Nat) (t : ℝ) :
    (∀ k, k < 3 →
        sub_mapping atv k (edge_ref e t)
          = tri_edge_point (edge_ends atv e).1 (edge_ends atv e).2 t
              (t8_vec_norm (corner atv 0)))
      ∧ readVec (t8_geom_evaluate atv gtreeid (edge_ref e t) 1 out) 0
          = tri_edge_point (edge_ends atv e).1 (edge_ends atv e).2 t
              (t8_vec_norm (corner atv 0))
      ∧ tri_edge_point (edge_ends atv e).1 (edge_ends atv e).2 t (t8_vec_norm (corner atv 0))
          = t8_vec_rescale
              ⟨(1 - (tan (0.5 * M_PI * (t - 0.5)) * 0.5 + 0.5)) * (edge_ends atv e).1.x
                  + (tan (0.5 * M_PI * (t - 0.5)) * 0.5 + 0.5) * (edge_ends atv e).2.x,
               (1 - (tan (0.5 * M_PI * (t - 0.5)) * 0.5 + 0.5)) * (edge_ends atv e).1.y
                  + (tan (0.5 * M_PI * (t - 0.5)) * 0.5 + 0.5) * (edge_ends atv e).2.y,
               (1 - (tan (0.5 * M_PI * (t - 0.5)) * 0.5 + 0.5)) * (edge_ends atv e).1.z
                  + (tan (0.5 * M_PI * (t - 0.5)) * 0.5 + 0.5) * (edge_ends atv e).2.z⟩
              (t8_vec_norm (corner atv 0))
      ∧ (t8_vec_norm (corner atv2 0) = t8_vec_norm (corner atv 0) →
          edge_ends atv2 e2 = edge_ends atv e →
          readVec (t8_geom_evaluate atv2 gtreeid2 (edge_ref e2 t) 1 out2) 0
            = readVec (t8_geom_evaluate atv gtreeid (edge_ref e t) 1 out) 0)
      ∧ (t8_vec_norm (corner atv2 0) = t8_vec_norm (corner atv 0) →
          edge_ends atv2 e2 = ((edge_ends atv e).2, (edge_ends atv e).1) →
          readVec (t8_geom_evaluate atv2 gtreeid2 (edge_ref e2 (1 - t)) 1 out2) 0
            = readVec (t8_geom_evaluate atv gtreeid (edge_ref e t) 1 out) 0)
      ∧ (t8_vec_norm (edge_vector (edge_ends atv e).1 (edge_ends atv e).2 t) ≠ 0 →
          ∃ v, readVec (t8_geom_evaluate atv gtreeid (edge_ref e t) 1 out) 0 = some v
            ∧ t8_vec_norm v = t8_vec_norm (corner atv 0)) := by
  have hsub : ∀ (a : Nat → ℝ) (d : Nat) (s : ℝ) (k : Nat), k < 3 →
      sub_mapping a k (edge_ref d s)
        = tri_edge_point (edge_ends a d).1 (edge_ends a d).2 s (t8_vec_norm (corner a 0)) := by
    intro a d s k hk
    unfold sub_mapping tri_edge_point
    rw [sub_mapping_raw_on_edge a (edge_ref d s) d s k hk rfl rfl]
    rfl
  have hread : ∀ (a : Nat → ℝ) (g d : Nat) (s : ℝ) (o : Nat → Option ℝ),
      readVec (t8_geom_evaluate a g (edge_ref d s) 1 o) 0
        = tri_edge_point (edge_ends a d).1 (edge_ends a d).2 s (t8_vec_norm (corner a 0)) := by
    intro a g d s o
    have h := tri_read_same a (edge_ref d s) 1 o 0 Nat.zero_lt_one
      (tri_edge_point (edge_ends a d).1 (edge_ends a d).2 s (t8_vec_norm (corner a 0)))
      (fun k hk => by
        have e0 : shiftBuf (edge_ref d s) (3 * 0) = edge_ref d s := by
          funext j
          simp [shiftBuf]
        rw [e0]
        exact hsub a d s k hk)
    exact h
  refine ⟨hsub atv e t, hread atv gtreeid e t out, rfl, ?_, ?_, ?_⟩
  · intro hR hends
    rw [hread atv2 gtreeid2 e2 t out2, hread atv gtreeid e t out, hR, hends]
  · intro hR hends
    rw [hread atv2 gtreeid2 e2 (1 - t) out2, hread atv gtreeid e t out, hR, hends]
    unfold tri_edge_point
    rw [edge_vector_swap]
  · intro hne
    obtain ⟨w, hw, hwn⟩ := t8_vec_rescale_norm _ (t8_vec_norm (corner atv 0)) hne
    refine ⟨w, ?_, ?_⟩
    · rw [hread atv gtreeid e t out]
      exact hw
    · rw [hwn]
      exact abs_of_nonneg (t8_vec_norm_nonneg _)

end t8_geometry_triangulated_spherical_surface

/-! ## Tangent corrections and axis assignment -/

section TangentFacts

theorem tan_abs_le_one (θ : ℝ) (h1 : -(M_PI / 4) ≤ θ) (h2 : θ ≤ M_PI / 4) :
    -1 ≤ tan θ ∧ tan θ ≤ 1 := by
  unfold M_PI at h1 h2
  unfold tan
  have hpi := Real.pi_pos
  have hmono := Real.strictMonoOn_tan.monotoneOn
  have hθ : θ ∈ Set.Ioo (-(Real.pi / 2)) (Real.pi / 2) := ⟨by linarith, by linarith⟩
  have hq : Real.pi / 4 ∈ Set.Ioo (-(Real.pi / 2)) (Real.pi / 2) := ⟨by linarith, by linarith⟩
  have hq2 : -(Real.pi / 4) ∈ Set.Ioo (-(Real.pi / 2)) (Real.pi / 2) :=
    ⟨by linarith, by linarith⟩
  constructor
  · have := hmono hq2 hθ h1
    rw [Real.tan_neg, Real.tan_pi_div_four] at this
    exact this
  · have := hmono hθ hq h2
    rw [Real.tan_pi_div_four] at this
    exact this

/-- A coordinate in `[0,1]` gives the argument `0.25 * M_PI * a` in `[0, pi/4]`. -/
theorem quarter_arg_range (a : ℝ) (h0 : 0 ≤ a) (h1 : a ≤ 1) :
    -(M_PI / 4) ≤ 0.25 * M_PI * a ∧ 0.25 * M_PI * a ≤ M_PI / 4 := by
  have hpi : 0 < M_PI := Real.pi_pos
  constructor
  · nlinarith
  · nlinarith

theorem half_arg_range (s : ℝ) (h0 : 0 ≤ s) (h1 : s ≤ 1) :
    -(M_PI / 4) ≤ 0.5 * M_PI * (s - 0.5) ∧ 0.5 * M_PI * (s - 0.5) ≤ M_PI / 4 := by
  have hpi : 0 < M_PI := Real.pi_pos
  constructor
  · nlinarith
  · nlinarith

theorem tri_corr_range (s : ℝ) (h0 : 0 ≤ s) (h1 : s ≤ 1) :
    0 ≤ tri_corr s ∧ tri_corr s ≤ 1 := by
  obtain ⟨a, b⟩ := half_arg_range s h0 h1
  obtain ⟨c, d⟩ := tan_abs_le_one _ a b
  unfold tri_corr
  constructor
  · norm_num; linarith
  · norm_num; linarith


theorem tan_arg_in_range_of (θ : ℝ) (h : -(M_PI / 4) ≤ θ ∧ θ ≤ M_PI / 4) :
    tan_arg_in_range θ :=
  ⟨h.1, h.2, tan_abs_le_one θ h.1 h.2⟩

/-- The position vector of sub-mapping `shift` in terms of its two tangent arguments. -/
theorem sub_mapping_raw_tan (atv : Nat → ℝ) (shift : Nat) (hs : shift < 3) (ref : Nat → ℝ) :
    sub_mapping_raw atv shift ref
      = ⟨(tri_u atv shift).x + (tan (tri_tan_args shift ref).1 * 0.5 + 0.5) * (tri_v atv shift).x
            + (tan (tri_tan_args shift ref).2 * 0.5 + 0.5) * (tri_w atv shift).x,
         (tri_u atv shift).y + (tan (tri_tan_args shift ref).1 * 0.5 + 0.5) * (tri_v atv shift).y
            + (tan (tri_tan_args shift ref).2 * 0.5 + 0.5) * (tri_w atv shift).y,
         (tri_u atv shift).z + (tan (tri_tan_args shift ref).1 * 0.5 + 0.5) * (tri_v atv shift).z
            + (tan (tri_tan_args shift ref).2 * 0.5 + 0.5) * (tri_w atv shift).z⟩ := by
  interval_cases shift <;> rfl

/-- The corrected reference point of a side quad of the disk in terms of its tangent
argument. -/
theorem disk_side_point_tan (atv : Nat → ℝ) (gtreeid : Nat)
    (l : t8_geometry_quadrangulated_disk.Locals) (ref : Nat → ℝ) :
    t8_geometry_quadrangulated_disk.side_point atv gtreeid l ref
      = (t8_vec_normalize
          (t8_geom_linear_interpolation
            (writeCell (writeCell (writeCell (fun _ => 0)
              (t8_geometry_quadrangulated_disk.r_coord gtreeid)
              (ref (t8_geometry_quadrangulated_disk.r_coord gtreeid)))
              (t8_geometry_quadrangulated_disk.a_coord gtreeid)
              (tan (disk_tan_arg gtreeid ref))) 2 0.0)
            atv 3 2)).bind (fun s =>
          some (t8_vec_axpy s
            (t8_vec_axy (t8_geom_linear_interpolation ref atv 3 2)
              (1.0 - ref (t8_geometry_quadrangulated_disk.r_coord gtreeid)))
            (ref (t8_geometry_quadrangulated_disk.r_coord gtreeid)
              * (t8_vec_dot (t8_geom_linear_interpolation ref atv 3 2) l.n
                  * l.inv_denominator)))) :=
  rfl

theorem cubed_sphere_side_point_tan (atv : Nat → ℝ) (gtreeid : Nat)
    (l : t8_geometry_cubed_sphere.Locals) (ref : Nat → ℝ) :
    t8_geometry_cubed_sphere.side_point atv gtreeid l ref
      = (t8_vec_normalize
          (t8_geom_linear_interpolation
            (writeCell (writeCell (writeCell (fun _ => 0)
              (t8_geometry_cubed_sphere.idx 0
                (t8_geometry_cubed_sphere.lookup t8_geometry_cubed_sphere.r_coord_lookup
                  (gtreeid % 4)))
              (ref (t8_geometry_cubed_sphere.idx 0
                (t8_geometry_cubed_sphere.lookup t8_geometry_cubed_sphere.r_coord_lookup
                  (gtreeid % 4)))))
              (t8_geometry_cubed_sphere.idx 0
                (t8_geometry_cubed_sphere.lookup t8_geometry_cubed_sphere.t_coord_lookup
                  (gtreeid % 4)))
              (tan (cubed_sphere_tan_args gtreeid ref).1))
              (t8_geometry_cubed_sphere.idx 0
                (t8_geometry_cubed_sphere.lookup t8_geometry_cubed_sphere.p_coord_lookup
                  (gtreeid % 4)))
              (tan (cubed_sphere_tan_args gtreeid ref).2))
            atv 3 3)).bind (fun s =>
          some (t8_vec_axpy s
            (t8_vec_axy (t8_geom_linear_interpolation ref atv 3 3)
              (1.0 - ref (t8_geometry_cubed_sphere.idx 0
                (t8_geometry_cubed_sphere.lookup t8_geometry_cubed_sphere.r_coord_lookup
                  (gtreeid % 4)))))
            (ref (t8_geometry_cubed_sphere.idx 0
                (t8_geometry_cubed_sphere.lookup t8_geometry_cubed_sphere.r_coord_lookup
                  (gtreeid % 4)))
              * (t8_vec_dot (t8_geom_linear_interpolation ref atv 3 3) l.n
                  * l.inv_denominator)))) :=
  rfl

theorem disk_coords (gtreeid : Nat) :
    (gtreeid % 3 = 2 → t8_geometry_quadrangulated_disk.r_coord gtreeid = 0
        ∧ t8_geometry_quadrangulated_disk.a_coord gtreeid = 1)
      ∧ (gtreeid % 3 ≠ 2 → t8_geometry_quadrangulated_disk.r_coord gtreeid = 1
        ∧ t8_geometry_quadrangulated_disk.a_coord gtreeid = 0) := by
  unfold t8_geometry_quadrangulated_disk.r_coord t8_geometry_quadrangulated_disk.a_coord
  have key : Int.tmod ((gtreeid : Int) - 2) 3 = 0 ↔ gtreeid % 3 = 2 := by
    rcases Nat.lt_or_ge gtreeid 2 with h | h
    · interval_cases gtreeid <;> decide
    · obtain ⟨m, rfl⟩ : ∃ m, gtreeid = m + 2 := ⟨gtreeid - 2, by omega⟩
      have e : ((m + 2 : Nat) : Int) - 2 = (m : Int) := by push_cast; ring
      rw [e]
      have e2 : Int.tmod (m : Int) 3 = ((m % 3 : Nat) : Int) := by
        rw [Int.tmod_eq_emod (by omega) (by omega)]
        norm_cast
      rw [e2]
      constructor
      · intro h0
        have : m % 3 = 0 := by exact_mod_cast h0
        omega
      · intro h0
        have : m % 3 = 0 := by omega
        rw [this]
        rfl
  constructor
  · intro h
    rw [if_pos (key.mpr h), if_pos (key.mpr h)]
    exact ⟨rfl, rfl⟩
  · intro h
    have hn : ¬ Int.tmod ((gtreeid : Int) - 2) 3 = 0 := fun h0 => h (key.mp h0)
    rw [if_neg hn, if_neg hn]
    exact ⟨rfl, rfl⟩

theorem cubed_sphere_coords (gtreeid : Nat) :
    (gtreeid % 4 = 1 →
        t8_geometry_cubed_sphere.lookup t8_geometry_cubed_sphere.r_coord_lookup (gtreeid % 4) = 1
        ∧ t8_geometry_cubed_sphere.lookup t8_geometry_cubed_sphere.t_coord_lookup (gtreeid % 4) = 0
        ∧ t8_geometry_cubed_sphere.lookup t8_geometry_cubed_sphere.p_coord_lookup (gtreeid % 4) = 2)
      ∧ (gtreeid % 4 = 2 →
        t8_geometry_cubed_sphere.lookup t8_geometry_cubed_sphere.r_coord_lookup (gtreeid % 4) = 0
        ∧ t8_geometry_cubed_sphere.lookup t8_geometry_cubed_sphere.t_coord_lookup (gtreeid % 4) = 1
        ∧ t8_geometry_cubed_sphere.lookup t8_geometry_cubed_sphere.p_coord_lookup (gtreeid % 4) = 2)
      ∧ (gtreeid % 4 = 3 →
        t8_geometry_cubed_sphere.lookup t8_geometry_cubed_sphere.r_coord_lookup (gtreeid % 4) = 2
        ∧ t8_geometry_cubed_sphere.lookup t8_geometry_cubed_sphere.t_coord_lookup (gtreeid % 4) = 0
        ∧ t8_geometry_cubed_sphere.lookup t8_geometry_cubed_sphere.p_coord_lookup (gtreeid % 4) = 1) := by
  refine ⟨?_, ?_, ?_⟩ <;>
  · intro h
    rw [h]
    exact ⟨rfl, rfl, rfl⟩

/-- Claim C12.  Corner robustness of the tangent corrections.  For every reference point with
all coordinates in `[0,1]` (and `0 <= y <= x <= 1` for the triangle and prism mapping), every
argument passed to `tan` by the quadrangulated disk, by the three sub-mappings of the
triangulated sphere and prism shell, and by the side trees of the cubed sphere lies in
`[-pi/4, pi/4]`; hence every tangent correction has absolute value at most 1, and each
corrected triangle coordinate `vv_corr`, `ww_corr` lies in `[0,1]`, the reference corners
included. -/
theorem C12_tangent_arguments_in_range :
    (∀ (gtreeid : Nat) (ref : Nat → ℝ), (∀ k, k < 2 → 0 ≤ ref k ∧ ref k ≤ 1) →
        tan_arg_in_range (disk_tan_arg gtreeid ref))
      ∧ (∀ (shift : Nat) (ref : Nat → ℝ), 0 ≤ ref 1 → ref 1 ≤ ref 0 → ref 0 ≤ 1 →
          tan_arg_in_range (tri_tan_args shift ref).1
            ∧ tan_arg_in_range (tri_tan_args shift ref).2
            ∧ 0 ≤ tan (tri_tan_args shift ref).1 * 0.5 + 0.5
            ∧ tan (tri_tan_args shift ref).1 * 0.5 + 0.5 ≤ 1
            ∧ 0 ≤ tan (tri_tan_args shift ref).2 * 0.5 + 0.5
            ∧ tan (tri_tan_args shift ref).2 * 0.5 + 0.5 ≤ 1)
      ∧ (∀ (gtreeid : Nat) (ref : Nat → ℝ), gtreeid % 4 ≠ 0 →
          (∀ k, k < 3 → 0 ≤ ref k ∧ ref k ≤ 1) →
          tan_arg_in_range (cubed_sphere_tan_args gtreeid ref).1
            ∧ tan_arg_in_range (cubed_sphere_tan_args gtreeid ref).2) := by
  refine ⟨?_, ?_, ?_⟩
  · intro gtreeid ref h
    apply tan_arg_in_range_of
    have ha : t8_geometry_quadrangulated_disk.a_coord gtreeid < 2 := by
      unfold t8_geometry_quadrangulated_disk.a_coord
      split_ifs <;> omega
    exact quarter_arg_range _ (h _ ha).1 (h _ ha).2
  · intro shift ref hy hyx hx
    have key : ∀ s1 s2 : ℝ, 0 ≤ s1 → s1 ≤ 1 → 0 ≤ s2 → s2 ≤ 1 →
        tri_tan_args shift ref = (0.5 * M_PI * (s1 - 0.5), 0.5 * M_PI * (s2 - 0.5)) →
        tan_arg_in_range (tri_tan_args shift ref).1
          ∧ tan_arg_in_range (tri_tan_args shift ref).2
          ∧ 0 ≤ tan (tri_tan_args shift ref).1 * 0.5 + 0.5
          ∧ tan (tri_tan_args shift ref).1 * 0.5 + 0.5 ≤ 1
          ∧ 0 ≤ tan (tri_tan_args shift ref).2 * 0.5 + 0.5
          ∧ tan (tri_tan_args shift ref).2 * 0.5 + 0.5 ≤ 1 := by
      intro s1 s2 a1 b1 a2 b2 e
      rw [e]
      exact ⟨tan_arg_in_range_of _ (half_arg_range s1 a1 b1),
        tan_arg_in_range_of _ (half_arg_range s2 a2 b2),
        (tri_corr_range s1 a1 b1).1, (tri_corr_range s1 a1 b1).2,
        (tri_corr_range s2 a2 b2).1, (tri_corr_range s2 a2 b2).2⟩
    have a0 : (0.0 : ℝ) + ref 0 * 1.0 + ref 1 * -1.0 = ref 0 - ref 1 := by norm_num; ring
    have a1 : (0.0 : ℝ) + ref 0 * 0.0 + ref 1 * 1.0 = ref 1 := by norm_num
    have b0 : (1.0 : ℝ) + ref 0 * -1.0 + ref 1 * 0.0 = 1 - ref 0 := by norm_num; ring
    rcases Nat.lt_or_ge shift 2 with hs | hs
    · interval_cases shift
      · apply key (ref 0 - ref 1) (ref 1) (by linarith) (by linarith) hy (by linarith)
        simp only [tri_tan_args, tri_reference_frame, tri_local_coords, a0, a1, b0]
      · apply key (1 - ref 0) (ref 0 - ref 1) (by linarith) (by linarith) (by linarith)
          (by linarith)
        simp only [tri_tan_args, tri_reference_frame, tri_local_coords, a0, a1, b0]
    · obtain ⟨m, rfl⟩ : ∃ m, shift = m + 2 := ⟨shift - 2, by omega⟩
      apply key (ref 1) (1 - ref 0) hy (by linarith) (by linarith) (by linarith)
      simp only [tri_tan_args, tri_reference_frame, tri_local_coords, a0, a1, b0]
  · intro gtreeid ref hg h
    obtain ⟨c1, c2, c3⟩ := cubed_sphere_coords gtreeid
    have hcase : gtreeid % 4 = 1 ∨ gtreeid % 4 = 2 ∨ gtreeid % 4 = 3 := by omega
    unfold cubed_sphere_tan_args
    rcases hcase with h1 | h1 | h1
    · obtain ⟨_, ht, hp⟩ := c1 h1
      rw [ht, hp]
      exact ⟨tan_arg_in_range_of _ (quarter_arg_range _ (h 0 (by decide)).1 (h 0 (by decide)).2),
        tan_arg_in_range_of _ (quarter_arg_range _ (h 2 (by decide)).1 (h 2 (by decide)).2)⟩
    · obtain ⟨_, ht, hp⟩ := c2 h1
      rw [ht, hp]
      exact ⟨tan_arg_in_range_of _ (quarter_arg_range _ (h 1 (by decide)).1 (h 1 (by decide)).2),
        tan_arg_in_range_of _ (quarter_arg_range _ (h 2 (by decide)).1 (h 2 (by decide)).2)⟩
    · obtain ⟨_, ht, hp⟩ := c3 h1
      rw [ht, hp]
      exact ⟨tan_arg_in_range_of _ (quarter_arg_range _ (h 0 (by decide)).1 (h 0 (by decide)).2),
        tan_arg_in_range_of _ (quarter_arg_range _ (h 1 (by decide)).1 (h 1 (by decide)).2)⟩

end TangentFacts

/-! ## Center trees of the disk and the cubed sphere -/

section CenterFacts

/-- The interpolation helper in two dimensions is the plain bilinear interpolation. -/
theorem interpolation_bilinear (ref atv : Nat → ℝ) :
    t8_geom_linear_interpolation ref atv 3 2 = bilinear (corner atv) (ref 0) (ref 1) := by
  rw [Vec3.ext_iff3]
  simp only [t8_geom_linear_interpolation, linear_interpolation_component, bilinear, corner,
    vecAt]
  norm_num
  refine ⟨?_, ?_, ?_⟩ <;> ring

/-- The interpolation helper in three dimensions is the plain trilinear interpolation. -/
theorem interpolation_trilinear (ref atv : Nat → ℝ) :
    t8_geom_linear_interpolation ref atv 3 3
      = trilinear (corner atv) (ref 0) (ref 1) (ref 2) := by
  rw [Vec3.ext_iff3]
  simp only [t8_geom_linear_interpolation, linear_interpolation_component, trilinear, corner,
    vecAt, Nat.reduceMul, Nat.reduceAdd, gt_iff_lt, Nat.one_lt_ofNat, if_true]
  refine ⟨?_, ?_, ?_⟩ <;> ring

/-- The three cells of point `i` after the disk evaluation. -/
theorem disk_read (atv : Nat → ℝ) (gtreeid : Nat) (ref_coords : Nat → ℝ) (num_coords : Nat)
    (out_coords : Nat → Option ℝ) (i : Nat) (hi : i < num_coords) :
    readVec (t8_geometry_quadrangulated_disk.t8_geom_evaluate atv gtreeid ref_coords num_coords
        out_coords) (3 * i)
      = if gtreeid % 3 = 0 then
          some (t8_geom_linear_interpolation (shiftBuf ref_coords (2 * i)) atv 3 2)
        else
          (t8_geometry_quadrangulated_disk.locals atv).bind (fun l =>
            t8_geometry_quadrangulated_disk.side_point atv gtreeid l
              (shiftBuf ref_coords (2 * i))) := by
  unfold t8_geometry_quadrangulated_disk.t8_geom_evaluate
  split_ifs with h
  · exact forLoop_writeVec_read
      (fun j => some (t8_geom_linear_interpolation (shiftBuf ref_coords (2 * j)) atv 3 2))
      out_coords num_coords i hi
  · exact forLoop_writeVec_read
      (fun j => (t8_geometry_quadrangulated_disk.locals atv).bind (fun l =>
        t8_geometry_quadrangulated_disk.side_point atv gtreeid l (shiftBuf ref_coords (2 * j))))
      out_coords num_coords i hi

/-- The three cells of point `i` after the cubed sphere evaluation. -/
theorem cubed_sphere_read (atv : Nat → ℝ) (gtreeid : Nat) (ref_coords : Nat → ℝ)
    (num_coords : Nat) (out_coords : Nat → Option ℝ) (i : Nat) (hi : i < num_coords) :
    readVec (t8_geometry_cubed_sphere.t8_geom_evaluate atv gtreeid ref_coords num_coords
        out_coords) (3 * i)
      = if gtreeid % 4 = 0 then
          some (t8_geom_linear_interpolation (shiftBuf ref_coords (3 * i)) atv 3 3)
        else
          (t8_geometry_cubed_sphere.locals atv).bind (fun l =>
            t8_geometry_cubed_sphere.side_point atv gtreeid l
              (shiftBuf ref_coords (3 * i))) := by
  unfold t8_geometry_cubed_sphere.t8_geom_evaluate
  split_ifs with h
  · exact forLoop_writeVec_read
      (fun j => some (t8_geom_linear_interpolation (shiftBuf ref_coords (3 * j)) atv 3 3))
      out_coords num_coords i hi
  · exact forLoop_writeVec_read
      (fun j => (t8_geometry_cubed_sphere.locals atv).bind (fun l =>
        t8_geometry_cubed_sphere.side_point atv gtreeid l (shiftBuf ref_coords (3 * j))))
      out_coords num_coords i hi

/-- Claim C13.  For `t8_geometry_quadrangulated_disk::t8_geom_evaluate` and every tree index
with `gtreeid mod 3 = 0` (center quads): for every reference point `(x, y)` of a batch the
output equals the plain bilinear interpolation of the four corner points of the tree at
`(x, y)`, with no tangent correction and no radial blending. -/
theorem C13_disk_center_bilinear (atv : Nat → ℝ) (gtreeid : Nat) (ref_coords : Nat → ℝ)
    (num_coords : Nat) (out_coords : Nat → Option ℝ) (i : Nat) (hi : i < num_coords)
    (hg : gtreeid % 3 = 0) :
    readVec (t8_geometry_quadrangulated_disk.t8_geom_evaluate atv gtreeid ref_coords num_coords
        out_coords) (3 * i)
      = some (bilinear (corner atv) (ref_coords (2 * i)) (ref_coords (2 * i + 1))) := by
  rw [disk_read atv gtreeid ref_coords num_coords out_coords i hi, if_pos hg,
    interpolation_bilinear]
  rfl

/-- Claim C16.  For `t8_geometry_cubed_sphere::t8_geom_evaluate` and every tree index with
`gtreeid mod 4 = 0` (center hexahedron): for every reference point `(x, y, z)` of a batch the
output equals the plain trilinear interpolation of the eight corner points of the tree,
with no tangent correction and no radial blending. -/
theorem C16_cubed_sphere_center_trilinear (atv : Nat → ℝ) (gtreeid : Nat)
    (ref_coords : Nat → ℝ) (num_coords : Nat) (out_coords : Nat → Option ℝ) (i : Nat)
    (hi : i < num_coords) (hg : gtreeid % 4 = 0) :
    readVec (t8_geometry_cubed_sphere.t8_geom_evaluate atv gtreeid ref_coords num_coords
        out_coords) (3 * i)
      = some (trilinear (corner atv) (ref_coords (3 * i)) (ref_coords (3 * i + 1))
          (ref_coords (3 * i + 2))) := by
  rw [cubed_sphere_read atv gtreeid ref_coords num_coords out_coords i hi, if_pos hg,
    interpolation_trilinear]
  rfl

/-- Witness of C13: tree 0 with the corners of `cube_top`, at the reference point
`(1/2, 1/2)`. -/
theorem C13_disk_center_bilinear_witness :
    (0 < 1 ∧ 0 % 3 = 0)
      ∧ readVec (t8_geometry_quadrangulated_disk.t8_geom_evaluate cube_top 0
          (arrayOf [1 / 2, 1 / 2]) 1 (fun _ => none)) (3 * 0)
        = some (bilinear (corner cube_top) (arrayOf [1 / 2, 1 / 2] (2 * 0))
            (arrayOf [1 / 2, 1 / 2] (2 * 0 + 1))) :=
  ⟨⟨Nat.zero_lt_one, rfl⟩,
    C13_disk_center_bilinear cube_top 0 (arrayOf [1 / 2, 1 / 2]) 1 (fun _ => none) 0
      Nat.zero_lt_one rfl⟩

/-- Witness of C16: tree 0 with the corners of `cube_top`, at the reference point
`(1/2, 1/2, 1/2)`. -/
theorem C16_cubed_sphere_center_trilinear_witness :
    (0 < 1 ∧ 0 % 4 = 0)
      ∧ readVec (t8_geometry_cubed_sphere.t8_geom_evaluate cube_top 0
          (arrayOf [1 / 2, 1 / 2, 1 / 2]) 1 (fun _ => none)) (3 * 0)
        = some (trilinear (corner cube_top) (arrayOf [1 / 2, 1 / 2, 1 / 2] (3 * 0))
            (arrayOf [1 / 2, 1 / 2, 1 / 2] (3 * 0 + 1))
            (arrayOf [1 / 2, 1 / 2, 1 / 2] (3 * 0 + 2))) :=
  ⟨⟨Nat.zero_lt_one, rfl⟩,
    C16_cubed_sphere_center_trilinear cube_top 0 (arrayOf [1 / 2, 1 / 2, 1 / 2]) 1
      (fun _ => none) 0 Nat.zero_lt_one rfl⟩

end CenterFacts

/-! ## Axis assignment of the side trees (disk and cubed sphere) -/

section AxisFacts

namespace t8_geometry_quadrangulated_disk

/-- Claim C14, amended: the radial and the angular reference index of a side quad of the
disk are chosen by the tree index modulo 3, not by its parity.  Two side trees whose indices
are congruent modulo 3 use the same pair of indices; the two indices are the two different
elements of {0, 1}; residue 2 gives radial index 0 and angular index 1, residue 1 gives radial
index 1 and angular index 0. -/
theorem C14_disk_radial_axis_by_mod_three (g1 g2 : Nat) (h1 : g1 % 3 ≠ 0)
    (h : g1 % 3 = g2 % 3) :
    r_coord g1 = r_coord g2 ∧ a_coord g1 = a_coord g2
      ∧ r_coord g1 < 2 ∧ a_coord g1 < 2 ∧ a_coord g1 ≠ r_coord g1
      ∧ (g1 % 3 = 2 → r_coord g1 = 0 ∧ a_coord g1 = 1)
      ∧ (g1 % 3 = 1 → r_coord g1 = 1 ∧ a_coord g1 = 0) := by
  obtain ⟨p1, q1⟩ := disk_coords g1
  obtain ⟨p2, q2⟩ := disk_coords g2
  rcases (show g1 % 3 = 1 ∨ g1 % 3 = 2 by omega) with c | c
  · obtain ⟨r1, a1⟩ := q1 (by omega)
    obtain ⟨r2, a2⟩ := q2 (by omega)
    rw [r1, a1, r2, a2]
    exact ⟨rfl, rfl, by decide, by decide, by decide, fun h => absurd h (by omega),
      fun _ => ⟨rfl, rfl⟩⟩
  · obtain ⟨r1, a1⟩ := p1 c
    obtain ⟨r2, a2⟩ := p2 (by omega)
    rw [r1, a1, r2, a2]
    exact ⟨rfl, rfl, by decide, by decide, by decide, fun _ => ⟨rfl, rfl⟩,
      fun h => absurd h (by omega)⟩

/-- Witness for claim C14, amended: the side trees 2 and 5 are congruent modulo 3 and both
use radial index 0. -/
theorem C14_disk_radial_axis_by_mod_three_witness :
    (2 % 3 ≠ 0 ∧ 2 % 3 = 5 % 3)
      ∧ r_coord 2 = r_coord 5 ∧ a_coord 2 = a_coord 5
      ∧ r_coord 2 < 2 ∧ a_coord 2 < 2 ∧ a_coord 2 ≠ r_coord 2
      ∧ (2 % 3 = 2 → r_coord 2 = 0 ∧ a_coord 2 = 1)
      ∧ (2 % 3 = 1 → r_coord 2 = 1 ∧ a_coord 2 = 0) :=
  ⟨⟨by decide, by decide⟩,
    C14_disk_radial_axis_by_mod_three 2 5 (by decide) (by decide)⟩

/-- Counterexample to claim C14 as worded: the trees 2 and 4 are both side quads and have the
same parity, yet tree 2 uses reference index 0 as the radial one and tree 4 uses index 1. -/
theorem C14_counterexample :
    2 % 2 = 4 % 2 ∧ 2 % 3 ≠ 0 ∧ 4 % 3 ≠ 0 ∧ r_coord 2 = 0 ∧ r_coord 4 = 1
      ∧ r_coord 2 ≠ r_coord 4 := by
  have e2 : r_coord 2 = 0 := ((disk_coords 2).1 (by decide)).1
  have e4 : r_coord 4 = 1 := ((disk_coords 4).2 (by decide)).1
  refine ⟨by decide, by decide, by decide, e2, e4, ?_⟩
  rw [e2, e4]
  decide

end t8_geometry_quadrangulated_disk

/-- Three writes that cover a cell make its final content independent of the content the
array had before: every cell that is read afterwards was written first. -/
theorem three_writes_cover (init1 init2 : Nat → ℝ) (r t p : Nat) (a b c : ℝ) (j : Nat)
    (hcover : j = r ∨ j = t ∨ j = p) :
    writeCell (writeCell (writeCell init1 r a) t b) p c j
      = writeCell (writeCell (writeCell init2 r a) t b) p c j := by
  unfold writeCell
  by_cases hp : j = p
  · simp [hp]
  · by_cases ht : j = t
    · simp [hp, ht]
    · have hr : j = r := by tauto
      simp [hp, ht, hr]

/-- Claim C17: the axis assignment of the side trees.  For the cubed sphere the triple
(radial, theta, phi) is (1, 0, 2), (0, 1, 2), (2, 0, 1) for tree index modulo 4 equal to 1, 2,
3; no entry of a side tree is the placeholder -1, the three indices are a permutation of
{0, 1, 2} and lie inside the three-element array.  For the disk the pair (radial, angular) is
(0, 1) for tree index modulo 3 equal to 2 and (1, 0) for modulo 3 equal to 1.  The corrected
reference array is fully written before it is read: after the three writes of the code its
cells 0, 1, 2 do not depend on the uninitialised content. -/
theorem C17_axis_assignment :
    (∀ g : Nat, g % 4 = 1 →
        (t8_geometry_cubed_sphere.lookup t8_geometry_cubed_sphere.r_coord_lookup (g % 4),
         t8_geometry_cubed_sphere.lookup t8_geometry_cubed_sphere.t_coord_lookup (g % 4),
         t8_geometry_cubed_sphere.lookup t8_geometry_cubed_sphere.p_coord_lookup (g % 4))
          = (1, 0, 2))
      ∧ (∀ g : Nat, g % 4 = 2 →
        (t8_geometry_cubed_sphere.lookup t8_geometry_cubed_sphere.r_coord_lookup (g % 4),
         t8_geometry_cubed_sphere.lookup t8_geometry_cubed_sphere.t_coord_lookup (g % 4),
         t8_geometry_cubed_sphere.lookup t8_geometry_cubed_sphere.p_coord_lookup (g % 4))
          = (0, 1, 2))
      ∧ (∀ g : Nat, g % 4 = 3 →
        (t8_geometry_cubed_sphere.lookup t8_geometry_cubed_sphere.r_coord_lookup (g % 4),
         t8_geometry_cubed_sphere.lookup t8_geometry_cubed_sphere.t_coord_lookup (g % 4),
         t8_geometry_cubed_sphere.lookup t8_geometry_cubed_sphere.p_coord_lookup (g % 4))
          = (2, 0, 1))
      ∧ (∀ g : Nat, g % 4 ≠ 0 →
        t8_geometry_cubed_sphere.lookup t8_geometry_cubed_sphere.r_coord_lookup (g % 4) ≠ -1
        ∧ t8_geometry_cubed_sphere.lookup t8_geometry_cubed_sphere.t_coord_lookup (g % 4) ≠ -1
        ∧ t8_geometry_cubed_sphere.lookup t8_geometry_cubed_sphere.p_coord_lookup (g % 4) ≠ -1
        ∧ ∀ j, j < 3 →
            (j = t8_geometry_cubed_sphere.idx 0
                (t8_geometry_cubed_sphere.lookup t8_geometry_cubed_sphere.r_coord_lookup (g % 4))
              ∨ j = t8_geometry_cubed_sphere.idx 0
                (t8_geometry_cubed_sphere.lookup t8_geometry_cubed_sphere.t_coord_lookup (g % 4))
              ∨ j = t8_geometry_cubed_sphere.idx 0
                (t8_geometry_cubed_sphere.lookup t8_geometry_cubed_sphere.p_coord_lookup
                  (g % 4))))
      ∧ (∀ g : Nat, g % 4 ≠ 0 →
        t8_geometry_cubed_sphere.idx 0
            (t8_geometry_cubed_sphere.lookup t8_geometry_cubed_sphere.r_coord_lookup (g % 4)) < 3
        ∧ t8_geometry_cubed_sphere.idx 0
            (t8_geometry_cubed_sphere.lookup t8_geometry_cubed_sphere.t_coord_lookup (g % 4)) < 3
        ∧ t8_geometry_cubed_sphere.idx 0
            (t8_geometry_cubed_sphere.lookup t8_geometry_cubed_sphere.p_coord_lookup (g % 4)) < 3)
      ∧ (∀ g : Nat, g % 3 = 2 →
        (t8_geometry_quadrangulated_disk.r_coord g, t8_geometry_quadrangulated_disk.a_coord g)
          = (0, 1))
      ∧ (∀ g : Nat, g % 3 = 1 →
        (t8_geometry_quadrangulated_disk.r_coord g, t8_geometry_quadrangulated_disk.a_coord g)
          = (1, 0))
      ∧ (∀ (g : Nat) (init1 init2 : Nat → ℝ) (a b c : ℝ) (j : Nat), g % 4 ≠ 0 → j < 3 →
        writeCell (writeCell (writeCell init1
            (t8_geometry_cubed_sphere.idx 0
              (t8_geometry_cubed_sphere.lookup t8_geometry_cubed_sphere.r_coord_lookup (g % 4))) a)
            (t8_geometry_cubed_sphere.idx 0
              (t8_geometry_cubed_sphere.lookup t8_geometry_cubed_sphere.t_coord_lookup (g % 4))) b)
            (t8_geometry_cubed_sphere.idx 0
              (t8_geometry_cubed_sphere.lookup t8_geometry_cubed_sphere.p_coord_lookup (g % 4))) c j
          = writeCell (writeCell (writeCell init2
            (t8_geometry_cubed_sphere.idx 0
              (t8_geometry_cubed_sphere.lookup t8_geometry_cubed_sphere.r_coord_lookup (g % 4))) a)
            (t8_geometry_cubed_sphere.idx 0
              (t8_geometry_cubed_sphere.lookup t8_geometry_cubed_sphere.t_coord_lookup (g % 4))) b)
            (t8_geometry_cubed_sphere.idx 0
              (t8_geometry_cubed_sphere.lookup t8_geometry_cubed_sphere.p_coord_lookup (g % 4))) c j)
      ∧ (∀ (g : Nat) (init1 init2 : Nat → ℝ) (a b c : ℝ) (j : Nat), j < 3 →
        writeCell (writeCell (writeCell init1 (t8_geometry_quadrangulated_disk.r_coord g) a)
            (t8_geometry_quadrangulated_disk.a_coord g) b) 2 c j
          = writeCell (writeCell (writeCell init2 (t8_geometry_quadrangulated_disk.r_coord g) a)
            (t8_geometry_quadrangulated_disk.a_coord g) b) 2 c j) := by
  have hperm : ∀ g : Nat, g % 4 ≠ 0 → ∀ j, j < 3 →
      (j = t8_geometry_cubed_sphere.idx 0
          (t8_geometry_cubed_sphere.lookup t8_geometry_cubed_sphere.r_coord_lookup (g % 4))
        ∨ j = t8_geometry_cubed_sphere.idx 0
          (t8_geometry_cubed_sphere.lookup t8_geometry_cubed_sphere.t_coord_lookup (g % 4))
        ∨ j = t8_geometry_cubed_sphere.idx 0
          (t8_geometry_cubed_sphere.lookup t8_geometry_cubed_sphere.p_coord_lookup (g % 4))) := by
    intro g hg j hj
    obtain ⟨c1, c2, c3⟩ := cubed_sphere_coords g
    rcases (show g % 4 = 1 ∨ g % 4 = 2 ∨ g % 4 = 3 by omega) with h | h | h
    · obtain ⟨e1, e2, e3⟩ := c1 h
      rw [e1, e2, e3]
      simp only [t8_geometry_cubed_sphere.idx]
      interval_cases j <;> decide
    · obtain ⟨e1, e2, e3⟩ := c2 h
      rw [e1, e2, e3]
      simp only [t8_geometry_cubed_sphere.idx]
      interval_cases j <;> decide
    · obtain ⟨e1, e2, e3⟩ := c3 h
      rw [e1, e2, e3]
      simp only [t8_geometry_cubed_sphere.idx]
      interval_cases j <;> decide
  refine ⟨?_, ?_, ?_, ?_, ?_, ?_, ?_, ?_, ?_⟩
  · intro g h
    obtain ⟨e1, e2, e3⟩ := (cubed_sphere_coords g).1 h
    rw [e1, e2, e3]
  · intro g h
    obtain ⟨e1, e2, e3⟩ := (cubed_sphere_coords g).2.1 h
    rw [e1, e2, e3]
  · intro g h
    obtain ⟨e1, e2, e3⟩ := (cubed_sphere_coords g).2.2 h
    rw [e1, e2, e3]
  · intro g hg
    obtain ⟨c1, c2, c3⟩ := cubed_sphere_coords g
    refine ⟨?_, ?_, ?_, hperm g hg⟩ <;>
    · rcases (show g % 4 = 1 ∨ g % 4 = 2 ∨ g % 4 = 3 by omega) with h | h | h
      · obtain ⟨e1, e2, e3⟩ := c1 h
        simp [e1, e2, e3]
      · obtain ⟨e1, e2, e3⟩ := c2 h
        simp [e1, e2, e3]
      · obtain ⟨e1, e2, e3⟩ := c3 h
        simp [e1, e2, e3]
  · intro g hg
    obtain ⟨c1, c2, c3⟩ := cubed_sphere_coords g
    rcases (show g % 4 = 1 ∨ g % 4 = 2 ∨ g % 4 = 3 by omega) with h | h | h
    · obtain ⟨e1, e2, e3⟩ := c1 h
      rw [e1, e2, e3]
      decide
    · obtain ⟨e1, e2, e3⟩ := c2 h
      rw [e1, e2, e3]
      decide
    · obtain ⟨e1, e2, e3⟩ := c3 h
      rw [e1, e2, e3]
      decide
  · intro g h
    obtain ⟨e1, e2⟩ := (disk_coords g).1 h
    rw [e1, e2]
  · intro g h
    obtain ⟨e1, e2⟩ := (disk_coords g).2 (by omega)
    rw [e1, e2]
  · intro g init1 init2 a b c j hg hj
    exact three_writes_cover init1 init2 _ _ _ a b c j (hperm g hg j hj)
  · intro g init1 init2 a b c j _
    apply three_writes_cover init1 init2 _ _ _ a b c j
    obtain ⟨p, q⟩ := disk_coords g
    by_cases h : g % 3 = 2
    · obtain ⟨e1, e2⟩ := p h
      rw [e1, e2]
      omega
    · obtain ⟨e1, e2⟩ := q h
      rw [e1, e2]
      omega

end AxisFacts

/-! ## The tangents of the face frame -/

section TangentFrameFacts

/-- A non-zero vector divided by its norm has norm 1. -/
theorem t8_vec_norm_unit (v : Vec3) (h : t8_vec_norm v ≠ 0) :
    t8_vec_norm (t8_vec_ax v (1 / t8_vec_norm v)) = 1 := by
  have hn : 0 ≤ 1 / t8_vec_norm v := div_nonneg zero_le_one (t8_vec_norm_nonneg v)
  rw [t8_vec_norm_ax, abs_of_nonneg hn]
  field_simp

theorem t8_vec_dot_cross_right (n t : Vec3) : t8_vec_dot t (t8_vec_cross n t) = 0 := by
  simp only [t8_vec_dot, t8_vec_cross]
  ring

/-- Claim C20, amended.  For the quadrangulated spherical surface and the cubed spherical
shell, whose frame is computed by the same statements, for every tree whose first three
corners are not collinear (the face normal is not zero) and whose face normal is not parallel
to `(1, -1, 1)`: the frame exists, its normal is the unit face normal, each of the two
tangents has norm 1, the tangents are orthogonal to each other, and both are orthogonal to
the normal. -/
theorem C20_tangents_orthonormal (atv : Nat → ℝ) (hN : t8_vec_norm (face_normal atv) ≠ 0)
    (hdeg : ¬ ((face_normal atv).y = -(face_normal atv).x
      ∧ (face_normal atv).z = (face_normal atv).x)) :
    ∃ f, face_frame atv = some f ∧ f.normal = unit_normal atv
      ∧ t8_vec_norm f.normal = 1
      ∧ t8_vec_norm f.tangent1 = 1 ∧ t8_vec_norm f.tangent2 = 1
      ∧ t8_vec_dot f.tangent1 f.tangent2 = 0
      ∧ t8_vec_dot f.tangent1 f.normal = 0 ∧ t8_vec_dot f.tangent2 f.normal = 0 := by
  have hunit : t8_vec_dot (unit_normal atv) (unit_normal atv) = 1 := t8_vec_dot_unit _ hN
  have hdeg2 : ¬ ((unit_normal atv).y = -(unit_normal atv).x
      ∧ (unit_normal atv).z = (unit_normal atv).x) := by
    rintro ⟨h1, h2⟩
    apply hdeg
    have ha : (1 / t8_vec_norm (face_normal atv)) ≠ 0 := one_div_ne_zero hN
    simp only [unit_normal, t8_vec_ax] at h1 h2
    constructor
    · apply mul_left_cancel₀ ha
      linarith
    · apply mul_left_cancel₀ ha
      linarith
  have ht1 := tangent1_raw_ne_zero _ hunit hdeg2
  have ho1 := tangent1_raw_orthogonal _ hunit
  have ht2 : t8_vec_norm (t8_vec_cross (unit_normal atv)
      (t8_vec_axpy (unit_normal atv) ⟨(unit_normal atv).y, (unit_normal atv).z,
        -(unit_normal atv).x⟩
        (-(t8_vec_dot (unit_normal atv) ⟨(unit_normal atv).y, (unit_normal atv).z,
          -(unit_normal atv).x⟩)))) ≠ 0 := by
    rw [Ne, t8_vec_norm_eq_zero_iff, t8_vec_cross_unit_orthogonal _ _ hunit ho1,
      ← t8_vec_norm_eq_zero_iff]
    exact ht1
  have hnorm : t8_vec_normalize (t8_vec_tri_normal (vecAt atv 0) (vecAt atv 3) (vecAt atv 6))
      = some (unit_normal atv) := t8_vec_normalize_of_ne _ hN
  simp only [face_frame, hnorm, t8_vec_normalize_of_ne _ ht1, t8_vec_normalize_of_ne _ ht2,
    Option.bind_eq_bind, Option.some_bind, Option.pure_def]
  refine ⟨_, rfl, rfl, ?_, t8_vec_norm_unit _ ht1, t8_vec_norm_unit _ ht2, ?_, ?_, ?_⟩
  · exact t8_vec_norm_unit _ hN
  · rw [t8_vec_dot_ax_ax, t8_vec_dot_cross_right, mul_zero]
  · rw [t8_vec_dot_ax_left, ho1, mul_zero]
  · rw [t8_vec_dot_ax_left, t8_vec_cross_orthogonal_left, mul_zero]

/-- Witness of C20: the top face of the cube `[-1,1]^3`. -/
theorem C20_tangents_orthonormal_witness :
    (t8_vec_norm (face_normal cube_top) ≠ 0
      ∧ ¬ ((face_normal cube_top).y = -(face_normal cube_top).x
        ∧ (face_normal cube_top).z = (face_normal cube_top).x))
    ∧ ∃ f, face_frame cube_top = some f ∧ f.normal = unit_normal cube_top
      ∧ t8_vec_norm f.normal = 1
      ∧ t8_vec_norm f.tangent1 = 1 ∧ t8_vec_norm f.tangent2 = 1
      ∧ t8_vec_dot f.tangent1 f.tangent2 = 0
      ∧ t8_vec_dot f.tangent1 f.normal = 0 ∧ t8_vec_dot f.tangent2 f.normal = 0 :=
  ⟨⟨cube_top_normal_ne, cube_top_not_degenerate⟩,
    C20_tangents_orthonormal cube_top cube_top_normal_ne cube_top_not_degenerate⟩

/-- Counterexample to C20 as stated: the first three corners of `tilted_face` are not
collinear, its face normal `(-1, 1, -1)` is not zero, but the first tangent before
normalisation is the zero vector; its normalisation divides by zero, so neither geometry
has a frame: both evaluations store no value, and there are no tangents of norm 1. -/
theorem C20_counterexample :
    t8_vec_norm (face_normal tilted_face) ≠ 0
      ∧ face_normal tilted_face = ⟨-1, 1, -1⟩
      ∧ t8_vec_norm (t8_vec_axpy (unit_normal tilted_face)
          ⟨(unit_normal tilted_face).y, (unit_normal tilted_face).z,
            -(unit_normal tilted_face).x⟩
          (-(t8_vec_dot (unit_normal tilted_face)
            ⟨(unit_normal tilted_face).y, (unit_normal tilted_face).z,
              -(unit_normal tilted_face).x⟩))) = 0
      ∧ face_frame tilted_face = none
      ∧ ¬ ∃ f, face_frame tilted_face = some f ∧ t8_vec_norm f.tangent1 = 1 := by
  have hd : (face_normal tilted_face).y = -(face_normal tilted_face).x
      ∧ (face_normal tilted_face).z = (face_normal tilted_face).x := by
    rw [face_normal_tilted_face]
    norm_num
  have hnone := face_frame_none tilted_face tilted_face_normal_ne hd
  have hunit : t8_vec_dot (unit_normal tilted_face) (unit_normal tilted_face) = 1 :=
    t8_vec_dot_unit _ tilted_face_normal_ne
  have hd2 : (unit_normal tilted_face).y = -(unit_normal tilted_face).x
      ∧ (unit_normal tilted_face).z = (unit_normal tilted_face).x := by
    simp only [unit_normal, t8_vec_ax]
    rw [hd.1, hd.2]
    exact ⟨by ring, rfl⟩
  refine ⟨tilted_face_normal_ne, face_normal_tilted_face,
    tangent1_raw_eq_zero _ hunit hd2, hnone, ?_⟩
  rintro ⟨f, hf, _⟩
  rw [hnone] at hf
  exact absurd hf (by simp)

end TangentFrameFacts

/-! ## The blend of the side trees of the disk and the cubed sphere -/

section BlendFacts

theorem unit_of_dot_ne (u v : Vec3) (hu : t8_vec_norm u ≠ 0) (hv : t8_vec_norm v ≠ 0)
    (hd : t8_vec_dot u v ≠ 0) : t8_vec_dot (unit_of u) (unit_of v) ≠ 0 := by
  unfold unit_of
  rw [t8_vec_dot_ax_ax]
  exact mul_ne_zero (mul_ne_zero (one_div_ne_zero hu) (one_div_ne_zero hv)) hd

/-- The last two statements of a round of either side loop give the blend. -/
theorem axpy_axy_blend (p s : Vec3) (r_ref num den : ℝ) :
    t8_vec_axpy s (t8_vec_axy p (1.0 - r_ref)) (r_ref * (num * (1 / den)))
      = blend p s (num / den) r_ref := by
  have e1 : (1.0 : ℝ) = 1 := by norm_num
  rw [Vec3.ext_iff3]
  simp only [t8_vec_axpy, t8_vec_axy, blend, e1]
  refine ⟨?_, ?_, ?_⟩ <;> ring

theorem blend_zero (p s : Vec3) (rho : ℝ) : blend p s rho 0 = p := by
  rw [Vec3.ext_iff3]
  simp only [blend]
  refine ⟨?_, ?_, ?_⟩ <;> ring

theorem quarter_pi_mul (x : ℝ) : 0.25 * M_PI * x = M_PI / 4 * x := by
  have e : (0.25 : ℝ) = 1 / 4 := by norm_num
  rw [e]
  ring

/-- The array `corr_ref_coords` of the disk holds the corrected reference point in its
cells 0 and 1. -/
theorem disk_corr_ref_coords (gtreeid : Nat) (ref : Nat → ℝ) (j : Nat) (hj : j < 2) :
    writeCell (writeCell (writeCell (fun _ => (0 : ℝ))
        (t8_geometry_quadrangulated_disk.r_coord gtreeid)
        (ref (t8_geometry_quadrangulated_disk.r_coord gtreeid)))
        (t8_geometry_quadrangulated_disk.a_coord gtreeid)
        (tan (0.25 * M_PI * ref (t8_geometry_quadrangulated_disk.a_coord gtreeid)))) 2 0.0 j
      = disk_corrected gtreeid ref j := by
  obtain ⟨p, q⟩ := disk_coords gtreeid
  unfold disk_corrected
  by_cases h : gtreeid % 3 = 2
  · obtain ⟨er, ea⟩ := p h
    rw [er, ea, quarter_pi_mul]
    interval_cases j <;> simp [writeCell]
  · obtain ⟨er, ea⟩ := q h
    rw [er, ea, quarter_pi_mul]
    interval_cases j <;> simp [writeCell]

/-- The array `corr_ref_coords` of the cubed sphere holds the corrected reference point in
its cells 0, 1 and 2. -/
theorem cubed_sphere_corr_ref_coords (gtreeid : Nat) (hg : gtreeid % 4 ≠ 0) (ref : Nat → ℝ)
    (j : Nat) (hj : j < 3) :
    writeCell (writeCell (writeCell (fun _ => (0 : ℝ))
        (t8_geometry_cubed_sphere.idx 0
          (t8_geometry_cubed_sphere.lookup t8_geometry_cubed_sphere.r_coord_lookup
            (gtreeid % 4)))
        (ref (t8_geometry_cubed_sphere.idx 0
          (t8_geometry_cubed_sphere.lookup t8_geometry_cubed_sphere.r_coord_lookup
            (gtreeid % 4)))))
        (t8_geometry_cubed_sphere.idx 0
          (t8_geometry_cubed_sphere.lookup t8_geometry_cubed_sphere.t_coord_lookup
            (gtreeid % 4)))
        (tan (0.25 * M_PI * ref (t8_geometry_cubed_sphere.idx 0
          (t8_geometry_cubed_sphere.lookup t8_geometry_cubed_sphere.t_coord_lookup
            (gtreeid % 4))))))
        (t8_geometry_cubed_sphere.idx 0
          (t8_geometry_cubed_sphere.lookup t8_geometry_cubed_sphere.p_coord_lookup
            (gtreeid % 4)))
        (tan (0.25 * M_PI * ref (t8_geometry_cubed_sphere.idx 0
          (t8_geometry_cubed_sphere.lookup t8_geometry_cubed_sphere.p_coord_lookup
            (gtreeid % 4))))) j
      = cubed_sphere_corrected gtreeid ref j := by
  obtain ⟨c1, c2, c3⟩ := cubed_sphere_coords gtreeid
  unfold cubed_sphere_corrected
  have i0 : t8_geometry_cubed_sphere.idx 0 0 = 0 := rfl
  have i1 : t8_geometry_cubed_sphere.idx 0 1 = 1 := rfl
  have i2 : t8_geometry_cubed_sphere.idx 0 2 = 2 := rfl
  rcases (show gtreeid % 4 = 1 ∨ gtreeid % 4 = 2 ∨ gtreeid % 4 = 3 by omega) with h | h | h
  · obtain ⟨e1, e2, e3⟩ := c1 h
    rw [e1, e2, e3, i0, i1, i2, quarter_pi_mul, quarter_pi_mul]
    interval_cases j <;> simp [writeCell]
  · obtain ⟨e1, e2, e3⟩ := c2 h
    rw [e1, e2, e3, i0, i1, i2, quarter_pi_mul, quarter_pi_mul]
    interval_cases j <;> simp [writeCell]
  · obtain ⟨e1, e2, e3⟩ := c3 h
    rw [e1, e2, e3, i0, i1, i2, quarter_pi_mul, quarter_pi_mul]
    interval_cases j <;> simp [writeCell]

theorem blend_one (p s : Vec3) (rho : ℝ) : blend p s rho 1 = t8_vec_ax s rho := by
  rw [Vec3.ext_iff3]
  simp only [blend, t8_vec_ax]
  refine ⟨?_, ?_, ?_⟩ <;> ring

theorem t8_vec_norm_unit_of (v : Vec3) (h : t8_vec_norm v ≠ 0) :
    t8_vec_norm (unit_of v) = 1 := by
  have hn : 0 ≤ 1 / t8_vec_norm v := div_nonneg zero_le_one (t8_vec_norm_nonneg v)
  unfold unit_of
  rw [t8_vec_norm_ax, abs_of_nonneg hn]
  field_simp

/-- The blend has a value when the corners `V0` and `Vr` are neither zero nor orthogonal and
the interpolated corrected point `c` is not zero; the value is the one of the formula. -/
theorem side_blend_some (p V0 Vr c : Vec3) (r_ref : ℝ) (h0 : t8_vec_norm V0 ≠ 0)
    (hr : t8_vec_norm Vr ≠ 0) (hd : t8_vec_dot Vr V0 ≠ 0) (hc : t8_vec_norm c ≠ 0) :
    side_blend p V0 Vr c r_ref
      = some (blend p (unit_of c) (plane_radius p V0 Vr) r_ref) := by
  have hdd := unit_of_dot_ne _ _ hr h0 hd
  unfold unit_of at hdd
  simp only [side_blend, t8_vec_normalize_of_ne _ h0, t8_vec_normalize_of_ne _ hr,
    t8_vec_normalize_of_ne _ hc, fdiv, hdd, if_false, Option.bind_eq_bind, Option.some_bind,
    Option.pure_def]
  rfl

/-- The code of both side loops, with the locals set before the loop, against the blend in
the words of the specification: `inv` is `1.0 / (r . n)` and the radius is
`(p . n) * inv`. -/
theorem side_blend_code (p V0 Vr c : Vec3) (r_ref : ℝ) :
    (t8_vec_normalize V0).bind (fun n =>
      (t8_vec_normalize Vr).bind (fun r =>
        (fdiv 1.0 (t8_vec_dot r n)).bind (fun inv =>
          (t8_vec_normalize c).bind (fun s =>
            some (t8_vec_axpy s (t8_vec_axy p (1.0 - r_ref))
              (r_ref * (t8_vec_dot p n * inv)))))))
      = side_blend p V0 Vr c r_ref := by
  unfold side_blend
  simp only [Option.bind_eq_bind, Option.pure_def]
  cases t8_vec_normalize V0 with
  | none => rfl
  | some n =>
    cases t8_vec_normalize Vr with
    | none => rfl
    | some r =>
      simp only [Option.some_bind]
      by_cases hd : t8_vec_dot r n = 0
      · simp only [fdiv, hd, if_true, Option.none_bind]
      · simp only [fdiv, hd, if_false, Option.some_bind]
        cases t8_vec_normalize c with
        | none => rfl
        | some s =>
          simp only [Option.some_bind]
          have e1 : (1.0 : ℝ) / t8_vec_dot r n = 1 / t8_vec_dot r n := by norm_num
          rw [e1, axpy_axy_blend]

/-- One round of the side loop of the disk is the blend. -/
theorem disk_side_blend_eq (atv : Nat → ℝ) (gtreeid : Nat) (ref : Nat → ℝ) :
    (t8_geometry_quadrangulated_disk.locals atv).bind (fun l =>
        t8_geometry_quadrangulated_disk.side_point atv gtreeid l ref)
      = side_blend (bilinear (corner atv) (ref 0) (ref 1)) (corner atv 0) (corner atv 3)
          (bilinear (corner atv) (disk_corrected gtreeid ref 0) (disk_corrected gtreeid ref 1))
          (ref (t8_geometry_quadrangulated_disk.r_coord gtreeid)) := by
  rw [← side_blend_code]
  simp only [t8_geometry_quadrangulated_disk.locals,
    t8_geometry_quadrangulated_disk.side_point, interpolation_bilinear, t8_vec_copy,
    Option.bind_eq_bind, Option.pure_def, Option.bind_assoc, Option.some_bind]
  rw [disk_corr_ref_coords gtreeid ref 0 (by decide),
    disk_corr_ref_coords gtreeid ref 1 (by decide)]
  rfl

/-- One round of the side loop of the cubed sphere is the blend. -/
theorem cubed_sphere_side_blend_eq (atv : Nat → ℝ) (gtreeid : Nat) (hg : gtreeid % 4 ≠ 0)
    (ref : Nat → ℝ) :
    (t8_geometry_cubed_sphere.locals atv).bind (fun l =>
        t8_geometry_cubed_sphere.side_point atv gtreeid l ref)
      = side_blend (trilinear (corner atv) (ref 0) (ref 1) (ref 2)) (corner atv 0)
          (corner atv 7)
          (trilinear (corner atv) (cubed_sphere_corrected gtreeid ref 0)
            (cubed_sphere_corrected gtreeid ref 1) (cubed_sphere_corrected gtreeid ref 2))
          (ref (t8_geometry_cubed_sphere.idx 0
            (t8_geometry_cubed_sphere.lookup t8_geometry_cubed_sphere.r_coord_lookup
              (gtreeid % 4)))) := by
  rw [← side_blend_code]
  simp only [t8_geometry_cubed_sphere.locals,
    t8_geometry_cubed_sphere.side_point, interpolation_trilinear, t8_vec_copy,
    Option.bind_eq_bind, Option.pure_def, Option.bind_assoc, Option.some_bind]
  rw [cubed_sphere_corr_ref_coords gtreeid hg ref 0 (by decide),
    cubed_sphere_corr_ref_coords gtreeid hg ref 1 (by decide),
    cubed_sphere_corr_ref_coords gtreeid hg ref 2 (by decide)]
  rfl

/-- Claim C15.  For side quads of the quadrangulated disk (`gtreeid mod 3` not 0) and every
reference point of a batch, with radial coordinate `r_ref` and angular coordinate `a_ref`:
the output equals `(1 - r_ref) * p + r_ref * rho * s`, where `p` is the bilinear
interpolation of the corners at the uncorrected reference point, `rho = (p . n) / (r . n)`
with `n = V0 / |V0|` and `r = V3 / |V3|`, and `s` is the normalised bilinear interpolation at
the corrected point (radial coordinate unchanged, angular coordinate replaced by
`tan (pi/4 * a_ref)`); the output has a value exactly when `n`, `r`, `rho` and `s` have.
They have when `V0` and `V3` are neither zero nor orthogonal to each other and the
interpolation at the corrected point is not zero; then the output is that vector, and at
`r_ref = 0` it is the flat point `p`. -/
theorem C15_disk_side_blend (atv : Nat → ℝ) (gtreeid : Nat) (ref_coords : Nat → ℝ)
    (num_coords : Nat) (out_coords : Nat → Option ℝ) (i : Nat) (hi : i < num_coords)
    (hg : gtreeid % 3 ≠ 0) :
    readVec (t8_geometry_quadrangulated_disk.t8_geom_evaluate atv gtreeid ref_coords
            num_coords out_coords) (3 * i)
      = side_blend (bilinear (corner atv) (ref_coords (2 * i)) (ref_coords (2 * i + 1)))
          (corner atv 0) (corner atv 3)
          (bilinear (corner atv)
            (disk_corrected gtreeid (shiftBuf ref_coords (2 * i)) 0)
            (disk_corrected gtreeid (shiftBuf ref_coords (2 * i)) 1))
          (ref_coords (2 * i + t8_geometry_quadrangulated_disk.r_coord gtreeid))
      ∧ (t8_vec_norm (corner atv 0) ≠ 0 → t8_vec_norm (corner atv 3) ≠ 0 →
        t8_vec_dot (corner atv 3) (corner atv 0) ≠ 0 →
        t8_vec_norm (bilinear (corner atv)
            (disk_corrected gtreeid (shiftBuf ref_coords (2 * i)) 0)
            (disk_corrected gtreeid (shiftBuf ref_coords (2 * i)) 1)) ≠ 0 →
        readVec (t8_geometry_quadrangulated_disk.t8_geom_evaluate atv gtreeid ref_coords
            num_coords out_coords) (3 * i)
          = some (blend (bilinear (corner atv) (ref_coords (2 * i)) (ref_coords (2 * i + 1)))
              (unit_of (bilinear (corner atv)
            (disk_corrected gtreeid (shiftBuf ref_coords (2 * i)) 0)
            (disk_corrected gtreeid (shiftBuf ref_coords (2 * i)) 1)))
              (plane_radius (bilinear (corner atv) (ref_coords (2 * i)) (ref_coords (2 * i + 1)))
                (corner atv 0) (corner atv 3))
              (ref_coords (2 * i + t8_geometry_quadrangulated_disk.r_coord gtreeid)))
        ∧ ((ref_coords (2 * i + t8_geometry_quadrangulated_disk.r_coord gtreeid)) = 0 →
          readVec (t8_geometry_quadrangulated_disk.t8_geom_evaluate atv gtreeid ref_coords
            num_coords out_coords) (3 * i)
            = some (bilinear (corner atv) (ref_coords (2 * i)) (ref_coords (2 * i + 1))))) := by
  have key : readVec (t8_geometry_quadrangulated_disk.t8_geom_evaluate atv gtreeid ref_coords
            num_coords out_coords) (3 * i)
      = side_blend (bilinear (corner atv) (ref_coords (2 * i)) (ref_coords (2 * i + 1)))
          (corner atv 0) (corner atv 3)
          (bilinear (corner atv)
            (disk_corrected gtreeid (shiftBuf ref_coords (2 * i)) 0)
            (disk_corrected gtreeid (shiftBuf ref_coords (2 * i)) 1))
          (ref_coords (2 * i + t8_geometry_quadrangulated_disk.r_coord gtreeid)) := by
    rw [disk_read atv gtreeid ref_coords num_coords out_coords i hi, if_neg hg,
      disk_side_blend_eq]
    rfl
  refine ⟨key, fun h0 h3 hd hc => ?_⟩
  have hv := side_blend_some (bilinear (corner atv) (ref_coords (2 * i)) (ref_coords (2 * i + 1)))
    (corner atv 0) (corner atv 3) _ (ref_coords (2 * i + t8_geometry_quadrangulated_disk.r_coord gtreeid)) h0 h3 hd hc
  refine ⟨key.trans hv, fun hr => ?_⟩
  rw [key, hv, hr, blend_zero]

/-- Claim C18.  For side hexahedra of the cubed sphere (`gtreeid mod 4` not 0) and every
reference point of a batch, with radial coordinate `r_ref`: the output equals
`(1 - r_ref) * p + r_ref * rho * s`, where `p` is the trilinear interpolation at the
uncorrected reference point, `rho = (p . n) / (r . n)` with `n = V0 / |V0|` and
`r = V7 / |V7|`, and `s` is the normalised trilinear interpolation at the point whose two
angular coordinates are replaced by `tan (pi/4 * coordinate)`; the output has a value exactly
when `n`, `r`, `rho` and `s` have.  They have when `V0` and `V7` are neither zero nor
orthogonal to each other and the interpolation at the corrected point is not zero; then the
output is that vector, at `r_ref = 0` it is the flat trilinear point `p`, and at `r_ref = 1`
it has norm `|rho|`. -/
theorem C18_cubed_sphere_side_blend (atv : Nat → ℝ) (gtreeid : Nat) (ref_coords : Nat → ℝ)
    (num_coords : Nat) (out_coords : Nat → Option ℝ) (i : Nat) (hi : i < num_coords)
    (hg : gtreeid % 4 ≠ 0) :
    readVec (t8_geometry_cubed_sphere.t8_geom_evaluate atv gtreeid ref_coords num_coords
            out_coords) (3 * i)
      = side_blend (trilinear (corner atv) (ref_coords (3 * i)) (ref_coords (3 * i + 1))
            (ref_coords (3 * i + 2)))
          (corner atv 0) (corner atv 7)
          (trilinear (corner atv)
            (cubed_sphere_corrected gtreeid (shiftBuf ref_coords (3 * i)) 0)
            (cubed_sphere_corrected gtreeid (shiftBuf ref_coords (3 * i)) 1)
            (cubed_sphere_corrected gtreeid (shiftBuf ref_coords (3 * i)) 2))
          (ref_coords (3 * i + t8_geometry_cubed_sphere.idx 0
            (t8_geometry_cubed_sphere.lookup t8_geometry_cubed_sphere.r_coord_lookup
              (gtreeid % 4))))
      ∧ (t8_vec_norm (corner atv 0) ≠ 0 → t8_vec_norm (corner atv 7) ≠ 0 →
        t8_vec_dot (corner atv 7) (corner atv 0) ≠ 0 →
        t8_vec_norm (trilinear (corner atv)
            (cubed_sphere_corrected gtreeid (shiftBuf ref_coords (3 * i)) 0)
            (cubed_sphere_corrected gtreeid (shiftBuf ref_coords (3 * i)) 1)
            (cubed_sphere_corrected gtreeid (shiftBuf ref_coords (3 * i)) 2)) ≠ 0 →
        readVec (t8_geometry_cubed_sphere.t8_geom_evaluate atv gtreeid ref_coords num_coords
            out_coords) (3 * i)
          = some (blend (trilinear (corner atv) (ref_coords (3 * i)) (ref_coords (3 * i + 1))
            (ref_coords (3 * i + 2)))
              (unit_of (trilinear (corner atv)
            (cubed_sphere_corrected gtreeid (shiftBuf ref_coords (3 * i)) 0)
            (cubed_sphere_corrected gtreeid (shiftBuf ref_coords (3 * i)) 1)
            (cubed_sphere_corrected gtreeid (shiftBuf ref_coords (3 * i)) 2)))
              (plane_radius (trilinear (corner atv) (ref_coords (3 * i)) (ref_coords (3 * i + 1))
            (ref_coords (3 * i + 2)))
                (corner atv 0) (corner atv 7))
              (ref_coords (3 * i + t8_geometry_cubed_sphere.idx 0
            (t8_geometry_cubed_sphere.lookup t8_geometry_cubed_sphere.r_coord_lookup
              (gtreeid % 4)))))
        ∧ ((ref_coords (3 * i + t8_geometry_cubed_sphere.idx 0
            (t8_geometry_cubed_sphere.lookup t8_geometry_cubed_sphere.r_coord_lookup
              (gtreeid % 4)))) = 0 →
          readVec (t8_geometry_cubed_sphere.t8_geom_evaluate atv gtreeid ref_coords num_coords
            out_coords) (3 * i)
            = some (trilinear (corner atv) (ref_coords (3 * i)) (ref_coords (3 * i + 1))
            (ref_coords (3 * i + 2))))
        ∧ ((ref_coords (3 * i + t8_geometry_cubed_sphere.idx 0
            (t8_geometry_cubed_sphere.lookup t8_geometry_cubed_sphere.r_coord_lookup
              (gtreeid % 4)))) = 1 →
          ∃ v, readVec (t8_geometry_cubed_sphere.t8_geom_evaluate atv gtreeid ref_coords num_coords
            out_coords) (3 * i) = some v
            ∧ t8_vec_norm v = |plane_radius (trilinear (corner atv) (ref_coords (3 * i)) (ref_coords (3 * i + 1))
            (ref_coords (3 * i + 2)))
                (corner atv 0) (corner atv 7)|)) := by
  have key : readVec (t8_geometry_cubed_sphere.t8_geom_evaluate atv gtreeid ref_coords num_coords
            out_coords) (3 * i)
      = side_blend (trilinear (corner atv) (ref_coords (3 * i)) (ref_coords (3 * i + 1))
            (ref_coords (3 * i + 2)))
          (corner atv 0) (corner atv 7)
          (trilinear (corner atv)
            (cubed_sphere_corrected gtreeid (shiftBuf ref_coords (3 * i)) 0)
            (cubed_sphere_corrected gtreeid (shiftBuf ref_coords (3 * i)) 1)
            (cubed_sphere_corrected gtreeid (shiftBuf ref_coords (3 * i)) 2))
          (ref_coords (3 * i + t8_geometry_cubed_sphere.idx 0
            (t8_geometry_cubed_sphere.lookup t8_geometry_cubed_sphere.r_coord_lookup
              (gtreeid % 4)))) := by
    rw [cubed_sphere_read atv gtreeid ref_coords num_coords out_coords i hi, if_neg hg,
      cubed_sphere_side_blend_eq atv gtreeid hg]
    rfl
  refine ⟨key, fun h0 h7 hd hc => ?_⟩
  have hv := side_blend_some (trilinear (corner atv) (ref_coords (3 * i)) (ref_coords (3 * i + 1))
            (ref_coords (3 * i + 2)))
    (corner atv 0) (corner atv 7) _ (ref_coords (3 * i + t8_geometry_cubed_sphere.idx 0
            (t8_geometry_cubed_sphere.lookup t8_geometry_cubed_sphere.r_coord_lookup
              (gtreeid % 4)))) h0 h7 hd hc
  refine ⟨key.trans hv, fun hr => ?_, fun hr => ?_⟩
  · rw [key, hv, hr, blend_zero]
  · refine ⟨_, key.trans hv, ?_⟩
    rw [hr, blend_one, t8_vec_norm_ax, t8_vec_norm_unit_of _ hc, mul_one]

theorem tan_at_zero : tan 0 = 0 := by
  simp [tan]

theorem disk_side_corners :
    corner disk_side 0 = ⟨1, 0, 0⟩ ∧ corner disk_side 1 = ⟨2, 0, 0⟩
      ∧ corner disk_side 2 = ⟨1, 1, 0⟩ ∧ corner disk_side 3 = ⟨2, 2, 0⟩ := by
  simp [corner, vecAt, disk_side, arrayOf]

theorem disk_side_ok :
    t8_vec_norm (corner disk_side 0) ≠ 0 ∧ t8_vec_norm (corner disk_side 3) ≠ 0
      ∧ t8_vec_dot (corner disk_side 3) (corner disk_side 0) ≠ 0
      ∧ t8_vec_norm (bilinear (corner disk_side)
          (disk_corrected 1 (shiftBuf (arrayOf [0, 1 / 2]) (2 * 0)) 0)
          (disk_corrected 1 (shiftBuf (arrayOf [0, 1 / 2]) (2 * 0)) 1)) ≠ 0 := by
  obtain ⟨c0, c1, c2, c3⟩ := disk_side_corners
  have hd : t8_vec_dot (corner disk_side 3) (corner disk_side 0) ≠ 0 := by
    rw [c0, c3]
    norm_num [t8_vec_dot]
  have ha : t8_geometry_quadrangulated_disk.a_coord 1 = 0 := ((disk_coords 1).2 (by decide)).2
  have x0 : disk_corrected 1 (shiftBuf (arrayOf [0, 1 / 2]) (2 * 0)) 0 = 0 := by
    simp [disk_corrected, ha, shiftBuf, arrayOf, tan_at_zero]
  have x1 : disk_corrected 1 (shiftBuf (arrayOf [0, 1 / 2]) (2 * 0)) 1 = 1 / 2 := by
    simp [disk_corrected, ha, shiftBuf, arrayOf]
  refine ⟨?_, t8_vec_norm_ne_zero_of_dot _ _ hd, hd, ?_⟩
  · apply t8_vec_norm_ne_zero_of_dot_self
    rw [c0]
    norm_num [t8_vec_dot]
  · rw [x0, x1]
    apply t8_vec_norm_ne_zero_of_dot _ ⟨1, 0, 0⟩
    simp only [bilinear, c0, c1, c2, c3, t8_vec_dot]
    norm_num

/-- Witness of C15: the side quad `disk_side` as tree 1, at the reference point `(0, 1/2)`;
its corners 0 and 3 are neither zero nor orthogonal, the interpolation at the corrected point
is not zero, and the output is the blend. -/
theorem C15_disk_side_blend_witness :
    (0 < 1 ∧ 1 % 3 ≠ 0
      ∧ t8_vec_norm (corner disk_side 0) ≠ 0 ∧ t8_vec_norm (corner disk_side 3) ≠ 0
      ∧ t8_vec_dot (corner disk_side 3) (corner disk_side 0) ≠ 0
      ∧ t8_vec_norm (bilinear (corner disk_side)
          (disk_corrected 1 (shiftBuf (arrayOf [0, 1 / 2]) (2 * 0)) 0)
          (disk_corrected 1 (shiftBuf (arrayOf [0, 1 / 2]) (2 * 0)) 1)) ≠ 0)
    ∧ readVec (t8_geometry_quadrangulated_disk.t8_geom_evaluate disk_side 1
          (arrayOf [0, 1 / 2]) 1 (fun _ => none)) (3 * 0)
        = some (blend
            (bilinear (corner disk_side) (arrayOf [0, 1 / 2] (2 * 0))
              (arrayOf [0, 1 / 2] (2 * 0 + 1)))
            (unit_of (bilinear (corner disk_side)
              (disk_corrected 1 (shiftBuf (arrayOf [0, 1 / 2]) (2 * 0)) 0)
              (disk_corrected 1 (shiftBuf (arrayOf [0, 1 / 2]) (2 * 0)) 1)))
            (plane_radius
              (bilinear (corner disk_side) (arrayOf [0, 1 / 2] (2 * 0))
                (arrayOf [0, 1 / 2] (2 * 0 + 1)))
              (corner disk_side 0) (corner disk_side 3))
            (arrayOf [0, 1 / 2] (2 * 0 + t8_geometry_quadrangulated_disk.r_coord 1))) :=
  ⟨⟨Nat.zero_lt_one, by decide, disk_side_ok.1, disk_side_ok.2.1, disk_side_ok.2.2.1,
      disk_side_ok.2.2.2⟩,
    ((C15_disk_side_blend disk_side 1 (arrayOf [0, 1 / 2]) 1 (fun _ => none) 0
      Nat.zero_lt_one (by decide)).2 disk_side_ok.1 disk_side_ok.2.1 disk_side_ok.2.2.1
      disk_side_ok.2.2.2).1⟩

theorem cube_top_corners :
    corner cube_top 0 = ⟨-1, -1, 1⟩ ∧ corner cube_top 1 = ⟨1, -1, 1⟩
      ∧ corner cube_top 2 = ⟨-1, 1, 1⟩ ∧ corner cube_top 3 = ⟨1, 1, 1⟩
      ∧ corner cube_top 4 = ⟨-2, -2, 2⟩ ∧ corner cube_top 5 = ⟨2, -2, 2⟩
      ∧ corner cube_top 6 = ⟨-2, 2, 2⟩ ∧ corner cube_top 7 = ⟨2, 2, 2⟩ := by
  simp [corner, vecAt, cube_top, arrayOf]

theorem cube_top_side_ok :
    t8_vec_norm (corner cube_top 0) ≠ 0 ∧ t8_vec_norm (corner cube_top 7) ≠ 0
      ∧ t8_vec_dot (corner cube_top 7) (corner cube_top 0) ≠ 0
      ∧ t8_vec_norm (trilinear (corner cube_top)
          (cubed_sphere_corrected 1 (shiftBuf (arrayOf [0, 1 / 2, 0]) (3 * 0)) 0)
          (cubed_sphere_corrected 1 (shiftBuf (arrayOf [0, 1 / 2, 0]) (3 * 0)) 1)
          (cubed_sphere_corrected 1 (shiftBuf (arrayOf [0, 1 / 2, 0]) (3 * 0)) 2)) ≠ 0 := by
  obtain ⟨c0, c1, c2, c3, c4, c5, c6, c7⟩ := cube_top_corners
  have hd : t8_vec_dot (corner cube_top 7) (corner cube_top 0) ≠ 0 := by
    rw [c0, c7]
    norm_num [t8_vec_dot]
  have hr : t8_geometry_cubed_sphere.idx 0
      (t8_geometry_cubed_sphere.lookup t8_geometry_cubed_sphere.r_coord_lookup (1 % 4)) = 1 :=
    rfl
  have x0 : cubed_sphere_corrected 1 (shiftBuf (arrayOf [0, 1 / 2, 0]) (3 * 0)) 0 = 0 := by
    simp [cubed_sphere_corrected, hr, shiftBuf, arrayOf, tan_at_zero]
  have x1 : cubed_sphere_corrected 1 (shiftBuf (arrayOf [0, 1 / 2, 0]) (3 * 0)) 1 = 1 / 2 := by
    simp [cubed_sphere_corrected, hr, shiftBuf, arrayOf]
  have x2 : cubed_sphere_corrected 1 (shiftBuf (arrayOf [0, 1 / 2, 0]) (3 * 0)) 2 = 0 := by
    simp [cubed_sphere_corrected, hr, shiftBuf, arrayOf, tan_at_zero]
  refine ⟨?_, t8_vec_norm_ne_zero_of_dot _ _ hd, hd, ?_⟩
  · apply t8_vec_norm_ne_zero_of_dot_self
    rw [c0]
    norm_num [t8_vec_dot]
  · rw [x0, x1, x2]
    apply t8_vec_norm_ne_zero_of_dot _ ⟨0, 0, 1⟩
    simp only [trilinear, c0, c1, c2, c3, c4, c5, c6, c7, t8_vec_dot]
    norm_num

/-- Witness of C18: the hexahedron `cube_top` as tree 1, at the reference point
`(0, 1/2, 0)`; its corners 0 and 7 are neither zero nor orthogonal, the interpolation at the
corrected point is not zero, and the output is the blend. -/
theorem C18_cubed_sphere_side_blend_witness :
    (0 < 1 ∧ 1 % 4 ≠ 0
      ∧ t8_vec_norm (corner cube_top 0) ≠ 0 ∧ t8_vec_norm (corner cube_top 7) ≠ 0
      ∧ t8_vec_dot (corner cube_top 7) (corner cube_top 0) ≠ 0
      ∧ t8_vec_norm (trilinear (corner cube_top)
          (cubed_sphere_corrected 1 (shiftBuf (arrayOf [0, 1 / 2, 0]) (3 * 0)) 0)
          (cubed_sphere_corrected 1 (shiftBuf (arrayOf [0, 1 / 2, 0]) (3 * 0)) 1)
          (cubed_sphere_corrected 1 (shiftBuf (arrayOf [0, 1 / 2, 0]) (3 * 0)) 2)) ≠ 0)
    ∧ readVec (t8_geometry_cubed_sphere.t8_geom_evaluate cube_top 1 (arrayOf [0, 1 / 2, 0]) 1
          (fun _ => none)) (3 * 0)
        = some (blend
            (trilinear (corner cube_top) (arrayOf [0, 1 / 2, 0] (3 * 0))
              (arrayOf [0, 1 / 2, 0] (3 * 0 + 1)) (arrayOf [0, 1 / 2, 0] (3 * 0 + 2)))
            (unit_of (trilinear (corner cube_top)
              (cubed_sphere_corrected 1 (shiftBuf (arrayOf [0, 1 / 2, 0]) (3 * 0)) 0)
              (cubed_sphere_corrected 1 (shiftBuf (arrayOf [0, 1 / 2, 0]) (3 * 0)) 1)
              (cubed_sphere_corrected 1 (shiftBuf (arrayOf [0, 1 / 2, 0]) (3 * 0)) 2)))
            (plane_radius
              (trilinear (corner cube_top) (arrayOf [0, 1 / 2, 0] (3 * 0))
                (arrayOf [0, 1 / 2, 0] (3 * 0 + 1)) (arrayOf [0, 1 / 2, 0] (3 * 0 + 2)))
              (corner cube_top 0) (corner cube_top 7))
            (arrayOf [0, 1 / 2, 0] (3 * 0 + t8_geometry_cubed_sphere.idx 0
              (t8_geometry_cubed_sphere.lookup t8_geometry_cubed_sphere.r_coord_lookup
                (1 % 4))))) :=
  ⟨⟨Nat.zero_lt_one, by decide, cube_top_side_ok.1, cube_top_side_ok.2.1,
      cube_top_side_ok.2.2.1, cube_top_side_ok.2.2.2⟩,
    ((C18_cubed_sphere_side_blend cube_top 1 (arrayOf [0, 1 / 2, 0]) 1 (fun _ => none) 0
      Nat.zero_lt_one (by decide)).2 cube_top_side_ok.1 cube_top_side_ok.2.1
      cube_top_side_ok.2.2.1 cube_top_side_ok.2.2.2).1⟩

end BlendFacts

/-! ## The cubed spherical shell as a stretched quadrangulated spherical surface -/

section ShellSurfaceFacts

/-- The frame reads the first three corners only. -/
theorem face_frame_congr (atv atvq : Nat → ℝ) (hq : ∀ j, j < 12 → atvq j = atv j) :
    face_frame atvq = face_frame atv := by
  have e0 : vecAt atvq 0 = vecAt atv 0 := by
    simp only [vecAt]
    rw [hq _ (by omega), hq _ (by omega), hq _ (by omega)]
  have e3 : vecAt atvq 3 = vecAt atv 3 := by
    simp only [vecAt]
    rw [hq _ (by omega), hq _ (by omega), hq _ (by omega)]
  have e6 : vecAt atvq 6 = vecAt atv 6 := by
    simp only [vecAt]
    rw [hq _ (by omega), hq _ (by omega), hq _ (by omega)]
  simp only [face_frame, e0, e3, e6]

/-- The bilinear interpolation reads the first four corners and the first two reference
coordinates only. -/
theorem interpolation_dim2_congr (ref refq atv atvq : Nat → ℝ) (h0 : refq 0 = ref 0)
    (h1 : refq 1 = ref 1) (hq : ∀ j, j < 12 → atvq j = atv j) :
    t8_geom_linear_interpolation refq atvq 3 2 = t8_geom_linear_interpolation ref atv 3 2 := by
  have hc : ∀ c, c < 4 → corner atvq c = corner atv c := by
    intro c hc
    simp only [corner, vecAt]
    rw [hq _ (by omega), hq _ (by omega), hq _ (by omega)]
  rw [interpolation_bilinear, interpolation_bilinear, h0, h1]
  simp only [bilinear, hc 0 (by decide), hc 1 (by decide), hc 2 (by decide), hc 3 (by decide)]

theorem face_out_pos_congr (ref refq atv atvq : Nat → ℝ) (f : FaceFrame) (h0 : refq 0 = ref 0)
    (h1 : refq 1 = ref 1) (hq : ∀ j, j < 12 → atvq j = atv j) :
    face_out_pos atvq f refq = face_out_pos atv f ref := by
  simp only [face_out_pos, interpolation_dim2_congr ref refq atv atvq h0 h1 hq]

/-- What the frame holds when it exists. -/
theorem face_frame_eq_some (atv : Nat → ℝ) (f : FaceFrame)
    (hN : t8_vec_norm (face_normal atv) ≠ 0) (hf : face_frame atv = some f) :
    f.normal = unit_normal atv ∧ f.R = |t8_vec_dot (vecAt atv 0) (unit_normal atv)|
      ∧ f.Good := by
  by_cases hdeg : (face_normal atv).y = -(face_normal atv).x
      ∧ (face_normal atv).z = (face_normal atv).x
  · rw [face_frame_none atv hN hdeg] at hf
    exact absurd hf (by simp)
  · obtain ⟨g, hg, h1, h2, h3⟩ := face_frame_some atv hN hdeg
    rw [hf] at hg
    have e : f = g := Option.some.inj hg
    rw [e]
    exact ⟨h1, h2, h3⟩

/-- A positive inner radius needs a face normal that is not zero. -/
theorem face_normal_ne_of_inner (atv : Nat → ℝ) (h : 0 < inner_radius atv) :
    t8_vec_norm (face_normal atv) ≠ 0 := by
  intro h0
  have hu : unit_normal atv = ⟨0, 0, 0⟩ := by
    rw [Vec3.ext_iff3]
    simp [unit_normal, t8_vec_ax, h0]
  have : inner_radius atv = 0 := by
    simp [inner_radius, hu, t8_vec_dot]
  rw [this] at h
  exact lt_irrefl _ h

theorem t8_vec_ax_ax (v : Vec3) (a b : ℝ) : t8_vec_ax (t8_vec_ax v a) b = t8_vec_ax v (a * b) := by
  rw [Vec3.ext_iff3]
  simp only [t8_vec_ax]
  refine ⟨?_, ?_, ?_⟩ <;> ring

/-- Rescaling to the length `len` is rescaling to the length `len0` followed by the stretch
with the factor `len / len0`. -/
theorem t8_vec_rescale_stretch (p : Vec3) (len len0 : ℝ) (h0 : len0 ≠ 0) :
    t8_vec_rescale p len
      = (t8_vec_rescale p len0).map (fun v => t8_vec_ax v (len / len0)) := by
  by_cases hp : t8_vec_norm p = 0
  · rw [t8_vec_rescale_of_eq p len hp, t8_vec_rescale_of_eq p len0 hp]
    rfl
  · simp only [t8_vec_rescale, t8_vec_normalize_of_ne p hp, Option.map_some', t8_vec_ax_ax]
    congr 2
    field_simp
    ring

/-- Claim C19.  The cubed spherical shell is the quadrangulated spherical surface of its
bottom face, stretched radially.  For every hex tree with inner radius
`inner = |V0 . n| * _SQRT3 > 0`, every quad tree made of the first four corners of the hex,
and every reference point `(x, y, z)` of a batch: the output of the shell is the output of
the surface at `(x, y)` multiplied by `(inner + z * thickness) / inner`, both outputs having
a value or both having none; at `z = 0` both outputs coincide; and when the face normal is
not parallel to `(1, -1, 1)` both outputs have a value. -/
theorem C19_cubed_shell_is_stretched_surface (atv atvq : Nat → ℝ) (gtreeid gtreeidq : Nat)
    (ref_coords ref_coords_q : Nat → ℝ) (num_coords : Nat)
    (out_coords out_coords_q : Nat → Option ℝ)
    (i : Nat) (hi : i < num_coords)
    (hq : ∀ j, j < 12 → atvq j = atv j)
    (hx : ref_coords_q (2 * i) = ref_coords (3 * i))
    (hy : ref_coords_q (2 * i + 1) = ref_coords (3 * i + 1))
    (hinner : 0 < inner_radius atv) :
    readVec (t8_geometry_cubed_spherical_shell.t8_geom_evaluate atv gtreeid ref_coords
        num_coords out_coords) (3 * i)
      = (readVec (t8_geometry_quadrangulated_spherical_surface.t8_geom_evaluate atvq gtreeidq
          ref_coords_q num_coords out_coords_q) (3 * i)).map
          (fun v => t8_vec_ax v
            ((inner_radius atv
                + ref_coords (3 * i + 2) * (outer_radius atv - inner_radius atv))
              / inner_radius atv))
      ∧ (ref_coords (3 * i + 2) = 0 →
        readVec (t8_geometry_cubed_spherical_shell.t8_geom_evaluate atv gtreeid ref_coords
            num_coords out_coords) (3 * i)
          = readVec (t8_geometry_quadrangulated_spherical_surface.t8_geom_evaluate atvq
              gtreeidq ref_coords_q num_coords out_coords_q) (3 * i))
      ∧ (¬ ((face_normal atv).y = -(face_normal atv).x
            ∧ (face_normal atv).z = (face_normal atv).x) →
        ∃ v, readVec (t8_geometry_quadrangulated_spherical_surface.t8_geom_evaluate atvq
              gtreeidq ref_coords_q num_coords out_coords_q) (3 * i) = some v
          ∧ t8_vec_norm v = inner_radius atv) := by
  have hN := face_normal_ne_of_inner atv hinner
  have hne : inner_radius atv ≠ 0 := ne_of_gt hinner
  have hshell := t8_geometry_cubed_spherical_shell.cubed_shell_read atv gtreeid ref_coords
    num_coords out_coords i hi
  have hsurf := t8_geometry_quadrangulated_spherical_surface.quad_sphere_read atvq gtreeidq
    ref_coords_q num_coords out_coords_q i hi
  rw [face_frame_congr atv atvq hq] at hsurf
  have hpos : ∀ f, face_out_pos atvq f (shiftBuf ref_coords_q (2 * i))
      = face_out_pos atv f (shiftBuf ref_coords (3 * i)) := by
    intro f
    exact face_out_pos_congr _ _ atv atvq f hx hy hq
  have key : readVec (t8_geometry_cubed_spherical_shell.t8_geom_evaluate atv gtreeid ref_coords
        num_coords out_coords) (3 * i)
      = (readVec (t8_geometry_quadrangulated_spherical_surface.t8_geom_evaluate atvq gtreeidq
          ref_coords_q num_coords out_coords_q) (3 * i)).map
          (fun v => t8_vec_ax v
            ((inner_radius atv
                + ref_coords (3 * i + 2) * (outer_radius atv - inner_radius atv))
              / inner_radius atv)) := by
    rw [hshell, hsurf]
    cases hf : face_frame atv with
    | none => rfl
    | some f =>
      obtain ⟨hfn, hfR, _⟩ := face_frame_eq_some atv f hN hf
      simp only [Option.some_bind, t8_geometry_cubed_spherical_shell.point,
        t8_geometry_quadrangulated_spherical_surface.point, hpos, Option.bind_eq_bind]
      have hlen : f.R * _SQRT3 + shiftBuf ref_coords (3 * i) 2
            * (|t8_vec_dot (vecAt atv (4 * 3)) f.normal| * _SQRT3 - f.R * _SQRT3)
          = inner_radius atv
            + ref_coords (3 * i + 2) * (outer_radius atv - inner_radius atv) := by
        rw [hfR, hfn]
        rfl
      have hin : f.R * _SQRT3 = inner_radius atv := by
        rw [hfR]
        rfl
      rw [hlen, hin]
      cases hp : face_out_pos atv f (shiftBuf ref_coords (3 * i)) with
      | none => rfl
      | some p =>
        simp only [Option.some_bind]
        exact t8_vec_rescale_stretch p _ _ hne
  refine ⟨key, ?_, ?_⟩
  · intro hz
    rw [key, hz]
    have e : (inner_radius atv + 0 * (outer_radius atv - inner_radius atv)) / inner_radius atv
        = 1 := by
      field_simp
    rw [e]
    cases readVec (t8_geometry_quadrangulated_spherical_surface.t8_geom_evaluate atvq
        gtreeidq ref_coords_q num_coords out_coords_q) (3 * i) with
    | none => rfl
    | some v =>
      simp only [Option.map_some']
      congr 1
      rw [Vec3.ext_iff3]
      simp [t8_vec_ax]
  · intro hdeg
    obtain ⟨f, hf, _, hfR, hgood⟩ := face_frame_some atv hN hdeg
    have hin : f.R * _SQRT3 = inner_radius atv := by
      rw [hfR]
      rfl
    have hR2 : f.R ≠ 0 := by
      intro h0
      rw [h0, zero_mul] at hin
      exact hne hin.symm
    obtain ⟨p, hp, hpn⟩ := face_out_pos_some atv f (shiftBuf ref_coords (3 * i)) hgood hR2
    obtain ⟨w, hw, hwn⟩ := t8_vec_rescale_norm p (f.R * _SQRT3) hpn
    refine ⟨w, ?_, ?_⟩
    · rw [hsurf, hf]
      simp only [Option.some_bind, t8_geometry_quadrangulated_spherical_surface.point, hpos,
        hp, Option.bind_eq_bind]
      exact hw
    · rw [hwn, hin]
      exact abs_of_pos hinner

/-- Witness of C19: the hexahedron `cube_top` and the quad of its first four corners, at the
reference point `(0, 0, 1/2)`. -/
theorem C19_cubed_shell_is_stretched_surface_witness :
    (0 < 1 ∧ (∀ j, j < 12 → cube_top j = cube_top j)
      ∧ arrayOf [0, 0] (2 * 0) = arrayOf [0, 0, 1 / 2] (3 * 0)
      ∧ arrayOf [0, 0] (2 * 0 + 1) = arrayOf [0, 0, 1 / 2] (3 * 0 + 1)
      ∧ 0 < inner_radius cube_top)
    ∧ readVec (t8_geometry_cubed_spherical_shell.t8_geom_evaluate cube_top 0
          (arrayOf [0, 0, 1 / 2]) 1 (fun _ => none)) (3 * 0)
        = (readVec (t8_geometry_quadrangulated_spherical_surface.t8_geom_evaluate cube_top 0
            (arrayOf [0, 0]) 1 (fun _ => none)) (3 * 0)).map
            (fun v => t8_vec_ax v
              ((inner_radius cube_top
                  + arrayOf [0, 0, 1 / 2] (3 * 0 + 2)
                    * (outer_radius cube_top - inner_radius cube_top))
                / inner_radius cube_top)) :=
  ⟨⟨Nat.zero_lt_one, fun _ _ => rfl, by simp [arrayOf], by simp [arrayOf],
      mul_pos cube_top_R_pos _SQRT3_pos⟩,
    (C19_cubed_shell_is_stretched_surface cube_top cube_top 0 0 (arrayOf [0, 0, 1 / 2])
      (arrayOf [0, 0]) 1 (fun _ => none) (fun _ => none) 0 Nat.zero_lt_one (fun _ _ => rfl)
      (by simp [arrayOf]) (by simp [arrayOf]) (mul_pos cube_top_R_pos _SQRT3_pos)).1⟩

end ShellSurfaceFacts

/-! ## The box test and the tolerance -/

section ToleranceFacts

variable {α : Type} [LinearOrderedField α]

/-- Claim C26.  Membership is monotone in the tolerance.  For
`t8_geom_point_batch_inside_element` of the axis-aligned linear geometry, for every element,
every point `i` of a batch and all tolerances `t <= t2`: if the point is reported inside with
tolerance `t`, it is reported inside with tolerance `t2`, whatever the batch length and the
previous content of `is_inside` in the second call are; and with tolerance 0 the point is
reported inside exactly when it lies in the closed box `[v_min, v_max]`, boundary points
included. -/
theorem C26_inside_monotone_in_tolerance (ec : Nat → Nat → α) (points : Nat → α)
    (num_points num_points2 : Int) (is_inside is_inside2 : Nat → Int) (t t2 : α) (i : Nat)
    (hi : (i : Int) < num_points) (hi2 : (i : Int) < num_points2) (ht : t ≤ t2) :
    (t8_geometry_linear_axis_aligned.t8_geom_point_batch_inside_element ec points num_points
          is_inside t i = 1 →
        t8_geometry_linear_axis_aligned.t8_geom_point_batch_inside_element ec points
          num_points2 is_inside2 t2 i = 1)
      ∧ (t8_geometry_linear_axis_aligned.t8_geom_point_batch_inside_element ec points num_points
          is_inside t i ≠ 0 →
        t8_geometry_linear_axis_aligned.t8_geom_point_batch_inside_element ec points
          num_points2 is_inside2 t2 i ≠ 0)
      ∧ (t8_geometry_linear_axis_aligned.t8_geom_point_batch_inside_element ec points num_points
          is_inside 0 i = 1 ↔
        ∀ k, k < 3 → ec 0 k ≤ points (3 * i + k) ∧ points (3 * i + k) ≤ ec 1 k)
      ∧ ((∀ k, k < 3 → points (3 * i + k) = ec 0 k ∨ points (3 * i + k) = ec 1 k) →
        (∀ k, k < 3 → ec 0 k ≤ ec 1 k) →
        t8_geometry_linear_axis_aligned.t8_geom_point_batch_inside_element ec points num_points
          is_inside 0 i = 1) := by
  have hiff := t8_geometry_linear_axis_aligned.inside_value_ne_zero_iff (ec 0) (ec 1) points
  have hmono : t8_geometry_linear_axis_aligned.inside_value (ec 0) (ec 1) points t i ≠ 0 →
      t8_geometry_linear_axis_aligned.inside_value (ec 0) (ec 1) points t2 i ≠ 0 := by
    intro h
    rw [hiff] at h ⊢
    intro k hk
    obtain ⟨h1, h2⟩ := h k hk
    exact ⟨le_trans (sub_le_sub_left ht _) h1, le_trans h2 (add_le_add_left ht _)⟩
  have hzero : t8_geometry_linear_axis_aligned.inside_value (ec 0) (ec 1) points 0 i = 1 ↔
      ∀ k, k < 3 → ec 0 k ≤ points (3 * i + k) ∧ points (3 * i + k) ≤ ec 1 k := by
    rw [t8_geometry_linear_axis_aligned.inside_value_eq_one_iff, hiff]
    simp only [sub_zero, add_zero]
  rw [t8_geometry_linear_axis_aligned.batch_inside_cell ec points num_points is_inside t i hi,
    t8_geometry_linear_axis_aligned.batch_inside_cell ec points num_points2 is_inside2 t2 i hi2,
    t8_geometry_linear_axis_aligned.batch_inside_cell ec points num_points is_inside 0 i hi]
  refine ⟨?_, hmono, hzero, ?_⟩
  · rw [t8_geometry_linear_axis_aligned.inside_value_eq_one_iff,
      t8_geometry_linear_axis_aligned.inside_value_eq_one_iff]
    exact hmono
  · intro hb hle
    rw [hzero]
    intro k hk
    rcases hb k hk with h | h
    · rw [h]
      exact ⟨le_refl _, hle k hk⟩
    · rw [h]
      exact ⟨hle k hk, le_refl _⟩

end ToleranceFacts

/-- Witness of C26: in the unit cube `[0,1]^3` the corner point `(1, 1, 1)` is reported inside
with tolerance 0 and with tolerance 1. -/
theorem C26_inside_monotone_in_tolerance_witness :
    (((0 : Nat) : Int) < 1 ∧ ((0 : Nat) : Int) < 1 ∧ (0 : ℚ) ≤ 1)
      ∧ t8_geometry_linear_axis_aligned.t8_geom_point_batch_inside_element
          (fun c _ => (c : ℚ)) (fun _ => (1 : ℚ)) 1 (fun _ => 0) 0 0 = 1
      ∧ t8_geometry_linear_axis_aligned.t8_geom_point_batch_inside_element
          (fun c _ => (c : ℚ)) (fun _ => (1 : ℚ)) 1 (fun _ => 0) 1 0 = 1 :=
  have h := C26_inside_monotone_in_tolerance (fun c _ => (c : ℚ)) (fun _ => (1 : ℚ)) 1 1
    (fun _ => 0) (fun _ => 0) 0 1 0 (by decide) (by decide) (by norm_num)
  have h0 : t8_geometry_linear_axis_aligned.t8_geom_point_batch_inside_element
      (fun c _ => (c : ℚ)) (fun _ => (1 : ℚ)) 1 (fun _ => 0) 0 0 = 1 :=
    h.2.2.1.mpr (fun _ _ => by norm_num)
  ⟨⟨by decide, by decide, by norm_num⟩, h0, h.1 h0⟩

/-! ## The adaptation callbacks of the example -/

section CallbackFacts

/-- The loop returns -1 exactly when the element is one of a family and one of the remaining
midpoints is closer than `radius + with_ring`; otherwise it returns 0. -/
theorem coarse_loop_spec (d : t8_adapt_data) (c : Vec3) (n : Int) (todo i : Nat) :
    (coarse_loop d c n todo i = -1 ↔
        n > 1 ∧ ∃ j, i ≤ j ∧ j < i + todo
          ∧ t8_vec_dist (d.midpoint j) c < d.radius + d.with_ring)
      ∧ (coarse_loop d c n todo i = -1 ∨ coarse_loop d c n todo i = 0) := by
  induction todo generalizing i with
  | zero =>
    have e : coarse_loop d c n 0 i = 0 := rfl
    rw [e]
    refine ⟨⟨fun h => absurd h (by decide), ?_⟩, Or.inr rfl⟩
    rintro ⟨_, j, h1, h2, _⟩
    omega
  | succ todo ih =>
    have e : coarse_loop d c n (todo + 1) i
        = if n > 1 ∧ t8_vec_dist (d.midpoint i) c < d.radius + d.with_ring then -1
          else coarse_loop d c n todo (i + 1) := rfl
    rw [e]
    by_cases hc : n > 1 ∧ t8_vec_dist (d.midpoint i) c < d.radius + d.with_ring
    · rw [if_pos hc]
      exact ⟨⟨fun _ => ⟨hc.1, i, le_refl _, by omega, hc.2⟩, fun _ => rfl⟩, Or.inl rfl⟩
    · rw [if_neg hc]
      obtain ⟨h1, h2⟩ := ih (i + 1)
      refine ⟨?_, h2⟩
      rw [h1]
      constructor
      · rintro ⟨hn, j, hj1, hj2, hj3⟩
        exact ⟨hn, j, by omega, by omega, hj3⟩
      · rintro ⟨hn, j, hj1, hj2, hj3⟩
        refine ⟨hn, j, ?_, by omega, hj3⟩
        rcases Nat.eq_or_lt_of_le hj1 with e | e
        · rw [← e] at hj3
          exact absurd ⟨hn, hj3⟩ hc
        · exact e

/-- Claim C27.  The adaptation callbacks of the example respect the family rule.
`t8_adapt_callback_coarse` returns -1 if and only if `num_elements > 1` and the element
centroid is at distance strictly less than `radius + with_ring` from at least one of the six
midpoints, and 0 otherwise; `t8_adapt_callback_coarse_all` returns -1 if and only if
`num_elements > 1`, and 0 otherwise; so neither requests coarsening (-1) for a single
element that is not part of a family. -/
theorem C27_coarse_callbacks_family_rule (adapt_data : t8_adapt_data) (element_centroid : Vec3)
    (num_elements : Int) :
    (t8_adapt_callback_coarse adapt_data element_centroid num_elements = -1 ↔
        num_elements > 1 ∧ ∃ j, j < 6
          ∧ t8_vec_dist (adapt_data.midpoint j) element_centroid
            < adapt_data.radius + adapt_data.with_ring)
      ∧ (t8_adapt_callback_coarse adapt_data element_centroid num_elements = 0 ↔
        ¬ (num_elements > 1 ∧ ∃ j, j < 6
          ∧ t8_vec_dist (adapt_data.midpoint j) element_centroid
            < adapt_data.radius + adapt_data.with_ring))
      ∧ (t8_adapt_callback_coarse_all num_elements = -1 ↔ num_elements > 1)
      ∧ (t8_adapt_callback_coarse_all num_elements = 0 ↔ ¬ num_elements > 1)
      ∧ (num_elements ≤ 1 →
        t8_adapt_callback_coarse adapt_data element_centroid num_elements = 0
          ∧ t8_adapt_callback_coarse_all num_elements = 0) := by
  obtain ⟨h1, h2⟩ := coarse_loop_spec adapt_data element_centroid num_elements 6 0
  have e1 : (t8_adapt_callback_coarse adapt_data element_centroid num_elements = -1 ↔
      num_elements > 1 ∧ ∃ j, j < 6
        ∧ t8_vec_dist (adapt_data.midpoint j) element_centroid
          < adapt_data.radius + adapt_data.with_ring) := by
    unfold t8_adapt_callback_coarse
    rw [h1]
    constructor
    · rintro ⟨hn, j, _, hj2, hj3⟩
      exact ⟨hn, j, by omega, hj3⟩
    · rintro ⟨hn, j, hj2, hj3⟩
      exact ⟨hn, j, Nat.zero_le _, by omega, hj3⟩
  have e2 : (t8_adapt_callback_coarse adapt_data element_centroid num_elements = 0 ↔
      ¬ (num_elements > 1 ∧ ∃ j, j < 6
        ∧ t8_vec_dist (adapt_data.midpoint j) element_centroid
          < adapt_data.radius + adapt_data.with_ring)) := by
    rw [← e1]
    unfold t8_adapt_callback_coarse
    rcases h2 with h | h
    · rw [h]
      simp
    · rw [h]
      simp
  have e3 : (t8_adapt_callback_coarse_all num_elements = -1 ↔ num_elements > 1) := by
    unfold t8_adapt_callback_coarse_all
    split_ifs with h <;> simp [h]
  have e4 : (t8_adapt_callback_coarse_all num_elements = 0 ↔ ¬ num_elements > 1) := by
    unfold t8_adapt_callback_coarse_all
    split_ifs with h <;> simp [h]
  refine ⟨e1, e2, e3, e4, ?_⟩
  intro hn
  have hnot : ¬ num_elements > 1 := by omega
  exact ⟨e2.mpr (fun h => hnot h.1), e4.mpr hnot⟩

end CallbackFacts

/-! ## Corners and the average of the triangulated spherical surface -/

section TriCornerFacts

/-- At a corner of the reference triangle the three position vectors are the corner of the
tree. -/
theorem sub_mapping_raw_at_corner (atv : Nat → ℝ) (ref : Nat → ℝ) (c : Nat) (hc : c < 3)
    (hx : ref 0 = (ref_corner c).1) (hy : ref 1 = (ref_corner c).2) (k : Nat) (hk : k < 3) :
    sub_mapping_raw atv k ref = corner atv c := by
  have ev0 : ∀ Va Vb : Vec3, edge_vector Va Vb 0 = Va := by
    intro Va Vb
    rw [Vec3.ext_iff3]
    simp only [edge_vector, tri_corr_zero]
    refine ⟨?_, ?_, ?_⟩ <;> ring
  have ev1 : ∀ Va Vb : Vec3, edge_vector Va Vb 1 = Vb := by
    intro Va Vb
    rw [Vec3.ext_iff3]
    simp only [edge_vector, tri_corr_one]
    refine ⟨?_, ?_, ?_⟩ <;> ring
  interval_cases c
  · have h := sub_mapping_raw_on_edge atv ref 0 0 k hk
      (by rw [hx, ((edge_ref_cells 0 0).1 rfl).1]; rfl)
      (by rw [hy, ((edge_ref_cells 0 0).1 rfl).2]; rfl)
    rw [h, ev0]
    rfl
  · have h := sub_mapping_raw_on_edge atv ref 0 1 k hk
      (by rw [hx, ((edge_ref_cells 0 1).1 rfl).1]; rfl)
      (by rw [hy, ((edge_ref_cells 0 1).1 rfl).2]; rfl)
    rw [h, ev1]
    rfl
  · have h := sub_mapping_raw_on_edge atv ref 1 1 k hk
      (by rw [hx, ((edge_ref_cells 1 1).2.1 rfl).1]; rfl)
      (by rw [hy, ((edge_ref_cells 1 1).2.1 rfl).2]; rfl)
    rw [h, ev1]
    rfl

theorem t8_vec_rescale_of_ne (v : Vec3) (len : ℝ) (h : t8_vec_norm v ≠ 0) :
    t8_vec_rescale v len = some (t8_vec_ax (unit_of v) len) := by
  simp only [t8_vec_rescale, t8_vec_normalize_of_ne v h, Option.map_some']
  rfl

theorem t8_vec_ax_unit_of_norm (v : Vec3) (h : t8_vec_norm v ≠ 0) :
    t8_vec_ax (unit_of v) (t8_vec_norm v) = v := by
  rw [Vec3.ext_iff3]
  simp only [unit_of, t8_vec_ax]
  refine ⟨?_, ?_, ?_⟩ <;> field_simp

/-- The content of the output cells is one third of the sum of the three projections. -/
theorem average3_third (p0 p1 p2 : Vec3) :
    average3 p0 p1 p2
      = ⟨(p0.x + p1.x + p2.x) / 3, (p0.y + p1.y + p2.y) / 3, (p0.z + p1.z + p2.z) / 3⟩ := by
  rw [Vec3.ext_iff3]
  simp only [average3]
  refine ⟨?_, ?_, ?_⟩ <;> norm_num <;> ring

/-- The average of three vectors of norm `R` has norm `R` only if the three vectors are the
same. -/
theorem average3_norm_eq_iff (p0 p1 p2 : Vec3) (R : ℝ) (h0 : t8_vec_norm p0 = R)
    (h1 : t8_vec_norm p1 = R) (h2 : t8_vec_norm p2 = R) :
    t8_vec_norm (average3 p0 p1 p2) = R ↔ p0 = p1 ∧ p1 = p2 := by
  constructor
  · intro h
    have e0 := t8_vec_norm_mul_self p0
    have e1 := t8_vec_norm_mul_self p1
    have e2 := t8_vec_norm_mul_self p2
    have e := t8_vec_norm_mul_self (average3 p0 p1 p2)
    rw [h0] at e0
    rw [h1] at e1
    rw [h2] at e2
    rw [h, average3_third] at e
    simp only [t8_vec_dot] at e0 e1 e2 e
    have hsum : (p0.x - p1.x) ^ 2 + (p0.y - p1.y) ^ 2 + (p0.z - p1.z) ^ 2
        + ((p1.x - p2.x) ^ 2 + (p1.y - p2.y) ^ 2 + (p1.z - p2.z) ^ 2)
        + ((p0.x - p2.x) ^ 2 + (p0.y - p2.y) ^ 2 + (p0.z - p2.z) ^ 2) = 0 := by
      linear_combination (-3) * e0 - 3 * e1 - 3 * e2 + 9 * e
    have a1 := sq_nonneg (p0.x - p1.x)
    have a2 := sq_nonneg (p0.y - p1.y)
    have a3 := sq_nonneg (p0.z - p1.z)
    have a4 := sq_nonneg (p1.x - p2.x)
    have a5 := sq_nonneg (p1.y - p2.y)
    have a6 := sq_nonneg (p1.z - p2.z)
    have a7 := sq_nonneg (p0.x - p2.x)
    have a8 := sq_nonneg (p0.y - p2.y)
    have a9 := sq_nonneg (p0.z - p2.z)
    have hx01 : p0.x - p1.x = 0 :=
      pow_eq_zero_iff (two_ne_zero) |>.mp (le_antisymm (by linarith) a1)
    have hy01 : p0.y - p1.y = 0 :=
      pow_eq_zero_iff (two_ne_zero) |>.mp (le_antisymm (by linarith) a2)
    have hz01 : p0.z - p1.z = 0 :=
      pow_eq_zero_iff (two_ne_zero) |>.mp (le_antisymm (by linarith) a3)
    have hx12 : p1.x - p2.x = 0 :=
      pow_eq_zero_iff (two_ne_zero) |>.mp (le_antisymm (by linarith) a4)
    have hy12 : p1.y - p2.y = 0 :=
      pow_eq_zero_iff (two_ne_zero) |>.mp (le_antisymm (by linarith) a5)
    have hz12 : p1.z - p2.z = 0 :=
      pow_eq_zero_iff (two_ne_zero) |>.mp (le_antisymm (by linarith) a6)
    constructor
    · rw [Vec3.ext_iff3]
      exact ⟨by linarith, by linarith, by linarith⟩
    · rw [Vec3.ext_iff3]
      exact ⟨by linarith, by linarith, by linarith⟩
  · rintro ⟨e01, e12⟩
    rw [← e12, ← e01, average3_same]
    exact h0

theorem octahedron_face_corners :
    corner octahedron_face 0 = ⟨1, 0, 0⟩ ∧ corner octahedron_face 1 = ⟨0, 1, 0⟩
      ∧ corner octahedron_face 2 = ⟨0, 0, 1⟩ := by
  simp [corner, vecAt, octahedron_face, arrayOf]

end TriCornerFacts

namespace t8_geometry_triangulated_spherical_surface

/-- Claim C22.  The triangulated spherical surface interpolates its corners.  For every
triangle tree and every point `i` of a batch whose reference point, read at
`ref_coords[3i]`, `ref_coords[3i+1]`, is the corner number `c` of the reference triangle
(`(0,0)`, `(1,0)`, `(1,1)`), with the corner `Vc` of the tree not zero: all three
sub-mappings give `Vc` rescaled to the length `|V0|`, the output is that vector, its norm is
`|V0|`, and when `|Vc| = |V0|` the output is the corner `Vc` itself. -/
theorem C22_tri_sphere_interpolates_corners (atv : Nat → ℝ) (gtreeid : Nat)
    (ref_coords : Nat → ℝ) (num_coords : Nat) (out_coords : Nat → Option ℝ) (i c : Nat)
    (hi : i < num_coords) (hc : c < 3) (hV : t8_vec_norm (corner atv c) ≠ 0)
    (hx : ref_coords (3 * i) = (ref_corner c).1)
    (hy : ref_coords (3 * i + 1) = (ref_corner c).2) :
    (∀ k, k < 3 →
        sub_mapping atv k (shiftBuf ref_coords (3 * i))
          = some (t8_vec_ax (unit_of (corner atv c)) (t8_vec_norm (corner atv 0))))
      ∧ readVec (t8_geom_evaluate atv gtreeid ref_coords num_coords out_coords) (3 * i)
          = some (t8_vec_ax (unit_of (corner atv c)) (t8_vec_norm (corner atv 0)))
      ∧ t8_vec_norm (t8_vec_ax (unit_of (corner atv c)) (t8_vec_norm (corner atv 0)))
          = t8_vec_norm (corner atv 0)
      ∧ (t8_vec_norm (corner atv c) = t8_vec_norm (corner atv 0) →
        readVec (t8_geom_evaluate atv gtreeid ref_coords num_coords out_coords) (3 * i)
          = some (corner atv c)) := by
  have hsub : ∀ k, k < 3 →
      sub_mapping atv k (shiftBuf ref_coords (3 * i))
        = some (t8_vec_ax (unit_of (corner atv c)) (t8_vec_norm (corner atv 0))) := by
    intro k hk
    unfold sub_mapping
    rw [sub_mapping_raw_at_corner atv (shiftBuf ref_coords (3 * i)) c hc hx hy k hk,
      t8_vec_rescale_of_ne _ _ hV]
    rfl
  have hread := tri_read_same atv ref_coords num_coords out_coords i hi _ hsub
  refine ⟨hsub, hread, ?_, ?_⟩
  · rw [t8_vec_norm_ax, t8_vec_norm_unit_of _ hV, mul_one]
    exact abs_of_nonneg (t8_vec_norm_nonneg _)
  · intro hn
    have h2 : readVec (t8_geom_evaluate atv gtreeid ref_coords num_coords out_coords) (3 * i)
        = some (t8_vec_ax (unit_of (corner atv c)) (t8_vec_norm (corner atv 0))) := hread
    rw [h2, ← hn, t8_vec_ax_unit_of_norm _ hV]

/-- Witness of C22: the octahedron face at the reference corner `(1, 0)`, which is mapped to
the corner `(0, 1, 0)` of the tree. -/
theorem C22_tri_sphere_interpolates_corners_witness :
    (0 < 1 ∧ 1 < 3 ∧ t8_vec_norm (corner octahedron_face 1) ≠ 0
      ∧ arrayOf [1, 0] (3 * 0) = (ref_corner 1).1
      ∧ arrayOf [1, 0] (3 * 0 + 1) = (ref_corner 1).2
      ∧ t8_vec_norm (corner octahedron_face 1) = t8_vec_norm (corner octahedron_face 0))
    ∧ readVec (t8_geom_evaluate octahedron_face 0 (arrayOf [1, 0]) 1 (fun _ => none)) (3 * 0)
        = some (corner octahedron_face 1) :=
  have hV : t8_vec_norm (corner octahedron_face 1) ≠ 0 := by
    rw [octahedron_face_corners.2.1, norm_e2]
    exact one_ne_zero
  have hx : arrayOf [1, 0] (3 * 0) = (ref_corner 1).1 := by simp [arrayOf, ref_corner]
  have hy : arrayOf [1, 0] (3 * 0 + 1) = (ref_corner 1).2 := by simp [arrayOf, ref_corner]
  have hn : t8_vec_norm (corner octahedron_face 1) = t8_vec_norm (corner octahedron_face 0) := by
    rw [octahedron_face_corners.2.1, norm_e2]
    exact octa_norm_first.symm
  ⟨⟨Nat.zero_lt_one, by decide, hV, hx, hy, hn⟩,
    (C22_tri_sphere_interpolates_corners octahedron_face 0 (arrayOf [1, 0]) 1 (fun _ => none)
      0 1 Nat.zero_lt_one (by decide) hV hx hy).2.2.2 hn⟩

/-- Claim C23.  For the triangulated spherical surface, for every triangle tree and every
point `i` of a batch at which the three corner-anchored position vectors are not zero: the
three sphere projections exist and have norm `|V0|`; the output is one third of their sum,
whatever the output buffer held before; its norm is at most `|V0|`, and it equals `|V0|`
exactly when the three projections coincide. -/
theorem C23_tri_sphere_third_of_sum (atv : Nat → ℝ) (gtreeid : Nat) (ref_coords : Nat → ℝ)
    (num_coords : Nat) (i : Nat) (hi : i < num_coords)
    (h0 : t8_vec_norm (sub_mapping_raw atv 0 (shiftBuf ref_coords (3 * i))) ≠ 0)
    (h1 : t8_vec_norm (sub_mapping_raw atv 1 (shiftBuf ref_coords (3 * i))) ≠ 0)
    (h2 : t8_vec_norm (sub_mapping_raw atv 2 (shiftBuf ref_coords (3 * i))) ≠ 0) :
    ∃ p0 p1 p2 : Vec3,
      sub_mapping atv 0 (shiftBuf ref_coords (3 * i)) = some p0
      ∧ sub_mapping atv 1 (shiftBuf ref_coords (3 * i)) = some p1
      ∧ sub_mapping atv 2 (shiftBuf ref_coords (3 * i)) = some p2
      ∧ t8_vec_norm p0 = t8_vec_norm (corner atv 0)
      ∧ t8_vec_norm p1 = t8_vec_norm (corner atv 0)
      ∧ t8_vec_norm p2 = t8_vec_norm (corner atv 0)
      ∧ (∀ out_coords : Nat → Option ℝ,
          readVec (t8_geom_evaluate atv gtreeid ref_coords num_coords out_coords) (3 * i)
            = some ⟨(p0.x + p1.x + p2.x) / 3, (p0.y + p1.y + p2.y) / 3,
                (p0.z + p1.z + p2.z) / 3⟩)
      ∧ t8_vec_norm ⟨(p0.x + p1.x + p2.x) / 3, (p0.y + p1.y + p2.y) / 3,
            (p0.z + p1.z + p2.z) / 3⟩ ≤ t8_vec_norm (corner atv 0)
      ∧ (t8_vec_norm ⟨(p0.x + p1.x + p2.x) / 3, (p0.y + p1.y + p2.y) / 3,
            (p0.z + p1.z + p2.z) / 3⟩ = t8_vec_norm (corner atv 0)
          ↔ p0 = p1 ∧ p1 = p2) := by
  obtain ⟨p0, hp0, hn0⟩ := sub_mapping_some atv 0 _ h0
  obtain ⟨p1, hp1, hn1⟩ := sub_mapping_some atv 1 _ h1
  obtain ⟨p2, hp2, hn2⟩ := sub_mapping_some atv 2 _ h2
  refine ⟨p0, p1, p2, hp0, hp1, hp2, hn0, hn1, hn2, ?_, ?_, ?_⟩
  · intro out_coords
    rw [← average3_third]
    exact tri_read_some atv ref_coords num_coords out_coords i hi p0 p1 p2 hp0 hp1 hp2
  · rw [← average3_third]
    exact average3_norm_le p0 p1 p2 _ hn0 hn1 hn2
  · rw [← average3_third]
    exact average3_norm_eq_iff p0 p1 p2 _ hn0 hn1 hn2

/-- Witness of C23: the octahedron face at the reference point `(1, 0)`. -/
theorem C23_tri_sphere_third_of_sum_witness :
    (0 < 1
      ∧ t8_vec_norm (sub_mapping_raw octahedron_face 0 (shiftBuf (arrayOf [1, 0]) (3 * 0))) ≠ 0
      ∧ t8_vec_norm (sub_mapping_raw octahedron_face 1 (shiftBuf (arrayOf [1, 0]) (3 * 0))) ≠ 0
      ∧ t8_vec_norm (sub_mapping_raw octahedron_face 2 (shiftBuf (arrayOf [1, 0]) (3 * 0))) ≠ 0)
    ∧ ∃ p0 p1 p2 : Vec3,
      sub_mapping octahedron_face 0 (shiftBuf (arrayOf [1, 0]) (3 * 0)) = some p0
      ∧ sub_mapping octahedron_face 1 (shiftBuf (arrayOf [1, 0]) (3 * 0)) = some p1
      ∧ sub_mapping octahedron_face 2 (shiftBuf (arrayOf [1, 0]) (3 * 0)) = some p2
      ∧ t8_vec_norm p0 = t8_vec_norm (corner octahedron_face 0)
      ∧ t8_vec_norm p1 = t8_vec_norm (corner octahedron_face 0)
      ∧ t8_vec_norm p2 = t8_vec_norm (corner octahedron_face 0)
      ∧ (∀ out_coords : Nat → Option ℝ,
          readVec (t8_geom_evaluate octahedron_face 0 (arrayOf [1, 0]) 1 out_coords) (3 * 0)
            = some ⟨(p0.x + p1.x + p2.x) / 3, (p0.y + p1.y + p2.y) / 3,
                (p0.z + p1.z + p2.z) / 3⟩)
      ∧ t8_vec_norm ⟨(p0.x + p1.x + p2.x) / 3, (p0.y + p1.y + p2.y) / 3,
            (p0.z + p1.z + p2.z) / 3⟩ ≤ t8_vec_norm (corner octahedron_face 0)
      ∧ (t8_vec_norm ⟨(p0.x + p1.x + p2.x) / 3, (p0.y + p1.y + p2.y) / 3,
            (p0.z + p1.z + p2.z) / 3⟩ = t8_vec_norm (corner octahedron_face 0)
          ↔ p0 = p1 ∧ p1 = p2) :=
  have hr : ∀ k, k < 3 →
      t8_vec_norm (sub_mapping_raw octahedron_face k (shiftBuf (arrayOf [1, 0]) (3 * 0))) ≠ 0 :=
    fun k hk => by
      rw [octa_raw_one_zero _ (by simp [shiftBuf, arrayOf]) (by simp [shiftBuf, arrayOf]) k hk,
        norm_e2]
      exact one_ne_zero
  ⟨⟨Nat.zero_lt_one, hr 0 (by decide), hr 1 (by decide), hr 2 (by decide)⟩,
    C23_tri_sphere_third_of_sum octahedron_face 0 (arrayOf [1, 0]) 1 0 Nat.zero_lt_one
      (hr 0 (by decide)) (hr 1 (by decide)) (hr 2 (by decide))⟩

end t8_geometry_triangulated_spherical_surface

/-! ## The radius and the radial origin of a cube face -/

section RadialOriginFacts

/-- The radius `R` and the radial origin of the cube-face geometries. -/
theorem face_R_origin_some (atv : Nat → ℝ) (hN : t8_vec_norm (face_normal atv) ≠ 0) :
    face_R atv = some |t8_vec_dot (corner atv 0) (unit_normal atv)|
      ∧ face_origin atv
        = some (t8_vec_axy (unit_normal atv) |t8_vec_dot (corner atv 0) (unit_normal atv)|) := by
  have hnorm : t8_vec_normalize (t8_vec_tri_normal (vecAt atv 0) (vecAt atv 3) (vecAt atv 6))
      = some (unit_normal atv) := t8_vec_normalize_of_ne _ hN
  constructor
  · simp only [face_R, hnorm, Option.bind_eq_bind, Option.some_bind, Option.pure_def]
    rfl
  · simp only [face_origin, hnorm, Option.bind_eq_bind, Option.some_bind, Option.pure_def]
    rfl

/-- The component of `R * n - V0` along the unit normal `n` is `R - V0 . n`. -/
theorem radial_origin_offset (n V0 : Vec3) (R : ℝ) (hn : t8_vec_dot n n = 1) :
    t8_vec_dot (t8_vec_diff (t8_vec_axy n R) V0) n = R - t8_vec_dot V0 n := by
  simp only [t8_vec_dot, t8_vec_diff, t8_vec_axy] at hn ⊢
  linear_combination R * hn

/-- Every point of the plane through `V0` with unit normal `n` is at least as far from the
coordinate origin as `(V0 . n) * n`. -/
theorem foot_is_nearest (n V0 q : Vec3) (hn : t8_vec_dot n n = 1)
    (hq : t8_vec_dot (t8_vec_diff q V0) n = 0) :
    t8_vec_norm (t8_vec_axy n (t8_vec_dot V0 n)) ≤ t8_vec_norm q := by
  have hqn : t8_vec_dot q n = t8_vec_dot V0 n := by
    simp only [t8_vec_dot, t8_vec_diff] at hq ⊢
    linarith
  have h1 : t8_vec_dot (t8_vec_axy n (t8_vec_dot V0 n)) (t8_vec_axy n (t8_vec_dot V0 n))
      = t8_vec_dot q n * t8_vec_dot q n := by
    rw [hqn]
    simp only [t8_vec_dot, t8_vec_axy] at hn ⊢
    linear_combination
      (V0.x * n.x + V0.y * n.y + V0.z * n.z) * (V0.x * n.x + V0.y * n.y + V0.z * n.z) * hn
  unfold t8_vec_norm
  apply Real.sqrt_le_sqrt
  rw [h1]
  simp only [t8_vec_dot] at hn ⊢
  nlinarith [sq_nonneg (q.x * n.y - q.y * n.x), sq_nonneg (q.y * n.z - q.z * n.y),
    sq_nonneg (q.z * n.x - q.x * n.z)]

theorem face_normal_flipped_top : face_normal flipped_top = ⟨0, 0, -4⟩ := by
  simp only [face_normal, t8_vec_tri_normal, t8_vec_cross, t8_vec_diff, vecAt, flipped_top,
    arrayOf, List.getD_cons_zero, List.getD_cons_succ]
  norm_num

theorem flipped_top_normal_ne : t8_vec_norm (face_normal flipped_top) ≠ 0 := by
  apply t8_vec_norm_ne_zero_of_dot_self
  rw [face_normal_flipped_top]
  norm_num [t8_vec_dot]

theorem flipped_top_dot_neg :
    t8_vec_dot (corner flipped_top 0) (unit_normal flipped_top) < 0 := by
  have hpos : 0 < t8_vec_norm (face_normal flipped_top) :=
    lt_of_le_of_ne (t8_vec_norm_nonneg _) (Ne.symm flipped_top_normal_ne)
  have hc : corner flipped_top 0 = ⟨-1, -1, 1⟩ := by
    simp [corner, vecAt, flipped_top, arrayOf]
  rw [t8_vec_dot_unit_normal, face_normal_flipped_top, hc]
  have e : t8_vec_dot (⟨-1, -1, 1⟩ : Vec3) ⟨0, 0, -4⟩ = -4 := by
    norm_num [t8_vec_dot]
  rw [e]
  have : 0 < 1 / t8_vec_norm (face_normal flipped_top) := one_div_pos.mpr hpos
  rw [face_normal_flipped_top] at this
  linarith

theorem cube_top_dot_pos : 0 < t8_vec_dot (corner cube_top 0) (unit_normal cube_top) := by
  have hpos : 0 < t8_vec_norm (face_normal cube_top) :=
    lt_of_le_of_ne (t8_vec_norm_nonneg _) (Ne.symm cube_top_normal_ne)
  rw [t8_vec_dot_unit_normal, face_normal_cube_top, corner_zero_cube_top]
  have e : t8_vec_dot (⟨-1, -1, 1⟩ : Vec3) ⟨0, 0, 4⟩ = 4 := by
    norm_num [t8_vec_dot]
  rw [e]
  have : 0 < 1 / t8_vec_norm (face_normal cube_top) := one_div_pos.mpr hpos
  rw [face_normal_cube_top] at this
  linarith

/-- Claim C21, amended.  In the quadrangulated spherical surface (and, by the same
statements, the cubed spherical shell), for every tree with non-collinear first three
corners: `R` is the absolute value `|V0 . n|`, the distance of the face plane from the
coordinate origin, and the radial origin is `R * n`, `n` the unit face normal.  When
`V0 . n >= 0` (the normal points away from the coordinate origin), `R` is the signed
distance `V0 . n` and `R * n` is the foot of the perpendicular from the coordinate origin
onto the face plane: it lies in the plane through `V0` with normal `n`, and no point of that
plane is nearer to the coordinate origin.  When `V0 . n < 0`, `R` is not `V0 . n` and `R * n`
does not lie in that plane.  A frame that exists has this `R` and this origin. -/
theorem C21_radial_origin (atv : Nat → ℝ) (hN : t8_vec_norm (face_normal atv) ≠ 0) :
    face_R atv = some |t8_vec_dot (corner atv 0) (unit_normal atv)|
      ∧ face_origin atv
        = some (t8_vec_axy (unit_normal atv) |t8_vec_dot (corner atv 0) (unit_normal atv)|)
      ∧ (∀ f, face_frame atv = some f →
          some f.R = face_R atv ∧ some f.origin = face_origin atv
            ∧ f.normal = unit_normal atv)
      ∧ (0 ≤ t8_vec_dot (corner atv 0) (unit_normal atv) →
          face_R atv = some (t8_vec_dot (corner atv 0) (unit_normal atv))
          ∧ face_origin atv
            = some (t8_vec_axy (unit_normal atv)
                (t8_vec_dot (corner atv 0) (unit_normal atv)))
          ∧ t8_vec_dot
              (t8_vec_diff
                (t8_vec_axy (unit_normal atv) (t8_vec_dot (corner atv 0) (unit_normal atv)))
                (corner atv 0))
              (unit_normal atv) = 0
          ∧ ∀ q : Vec3, t8_vec_dot (t8_vec_diff q (corner atv 0)) (unit_normal atv) = 0 →
              t8_vec_norm
                  (t8_vec_axy (unit_normal atv) (t8_vec_dot (corner atv 0) (unit_normal atv)))
                ≤ t8_vec_norm q)
      ∧ (t8_vec_dot (corner atv 0) (unit_normal atv) < 0 →
          face_R atv ≠ some (t8_vec_dot (corner atv 0) (unit_normal atv))
          ∧ t8_vec_dot
              (t8_vec_diff
                (t8_vec_axy (unit_normal atv) |t8_vec_dot (corner atv 0) (unit_normal atv)|)
                (corner atv 0))
              (unit_normal atv) ≠ 0) := by
  have hunit : t8_vec_dot (unit_normal atv) (unit_normal atv) = 1 := t8_vec_dot_unit _ hN
  obtain ⟨hR, hO⟩ := face_R_origin_some atv hN
  refine ⟨hR, hO, ?_, ?_, ?_⟩
  · intro f hf
    obtain ⟨h1, h2, h3⟩ := face_frame_eq_some atv f hN hf
    have h2b : f.R = |t8_vec_dot (corner atv 0) (unit_normal atv)| := h2
    rw [hR, hO, h3.2.2.2, h1, h2b]
    exact ⟨rfl, rfl, rfl⟩
  · intro hpos
    rw [hR, hO, abs_of_nonneg hpos]
    refine ⟨rfl, rfl, ?_, ?_⟩
    · rw [radial_origin_offset _ _ _ hunit, sub_self]
    · intro q hq
      exact foot_is_nearest _ _ q hunit hq
  · intro hneg
    rw [hR, radial_origin_offset _ _ _ hunit, abs_of_neg hneg]
    constructor
    · intro h
      have := Option.some.inj h
      linarith
    · intro h
      linarith

/-- Witness of C21: the top face of the cube `[-1,1]^3`, whose normal points away from the
coordinate origin; there `R` is `V0 . n`. -/
theorem C21_radial_origin_witness :
    (t8_vec_norm (face_normal cube_top) ≠ 0
      ∧ 0 ≤ t8_vec_dot (corner cube_top 0) (unit_normal cube_top))
    ∧ face_R cube_top = some (t8_vec_dot (corner cube_top 0) (unit_normal cube_top))
    ∧ t8_vec_dot
        (t8_vec_diff
          (t8_vec_axy (unit_normal cube_top)
            (t8_vec_dot (corner cube_top 0) (unit_normal cube_top)))
          (corner cube_top 0))
        (unit_normal cube_top) = 0 :=
  have h := (C21_radial_origin cube_top cube_top_normal_ne).2.2.2.1 (le_of_lt cube_top_dot_pos)
  ⟨⟨cube_top_normal_ne, le_of_lt cube_top_dot_pos⟩, h.1, h.2.2.1⟩

/-- Counterexample to C21 as stated: the first three corners of `flipped_top` are not
collinear and its frame exists, but `V0 . n` is negative: `R` is not the signed distance
`V0 . n`, and the radial origin `R * n` does not lie in the plane through `V0` with normal
`n`. -/
theorem C21_counterexample :
    t8_vec_norm (face_normal flipped_top) ≠ 0
      ∧ t8_vec_dot (corner flipped_top 0) (unit_normal flipped_top) < 0
      ∧ ∃ f, face_frame flipped_top = some f
        ∧ f.normal = unit_normal flipped_top
        ∧ f.R ≠ t8_vec_dot (corner flipped_top 0) f.normal
        ∧ t8_vec_dot (t8_vec_diff f.origin (corner flipped_top 0)) f.normal ≠ 0 := by
  have hdeg : ¬ ((face_normal flipped_top).y = -(face_normal flipped_top).x
      ∧ (face_normal flipped_top).z = (face_normal flipped_top).x) := by
    rw [face_normal_flipped_top]
    norm_num
  obtain ⟨f, hf, hfn, hfR, hgood⟩ := face_frame_some flipped_top flipped_top_normal_ne hdeg
  have hneg := flipped_top_dot_neg
  have hfR2 : f.R = |t8_vec_dot (corner flipped_top 0) (unit_normal flipped_top)| := hfR
  refine ⟨flipped_top_normal_ne, hneg, f, hf, hfn, ?_, ?_⟩
  · rw [hfR2, hfn, abs_of_neg hneg]
    intro h
    linarith
  · rw [hgood.2.2.2, radial_origin_offset _ _ _ hgood.1, hfR2, hfn, abs_of_neg hneg]
    intro h
    linarith

end RadialOriginFacts

/-! ## The outer boundary of the disk -/

section DiskBoundaryFacts

theorem t8_vec_dot_comm (a b : Vec3) : t8_vec_dot a b = t8_vec_dot b a := by
  simp only [t8_vec_dot]
  ring

/-- On the outer edge of a side quad the flat point has the same component along a vector
`n` as corner 3, when both outer corners have. -/
theorem disk_outer_edge_dot (atv : Nat → ℝ) (gtreeid : Nat) (ref : Nat → ℝ) (n : Vec3)
    (hr : ref (t8_geometry_quadrangulated_disk.r_coord gtreeid) = 1)
    (ho : t8_vec_dot (corner atv (disk_outer_corner gtreeid)) n
      = t8_vec_dot (corner atv 3) n) :
    t8_vec_dot (bilinear (corner atv) (ref 0) (ref 1)) n = t8_vec_dot (corner atv 3) n := by
  obtain ⟨p, q⟩ := disk_coords gtreeid
  unfold disk_outer_corner at ho
  by_cases h : gtreeid % 3 = 2
  · rw [(p h).1] at hr ho
    rw [if_pos rfl] at ho
    rw [hr]
    simp only [t8_vec_dot, bilinear] at ho ⊢
    linear_combination (1 - ref 1) * ho
  · rw [(q h).1] at hr ho
    rw [if_neg (by decide)] at ho
    rw [hr]
    simp only [t8_vec_dot, bilinear] at ho ⊢
    linear_combination (1 - ref 0) * ho

/-- The radius of the plane intersection is `|V3|` when the flat point has the same component
along `n = V0 / |V0|` as corner 3. -/
theorem plane_radius_outer (p V0 V3 : Vec3)
    (hd : t8_vec_dot V3 (unit_of V0) ≠ 0)
    (hp : t8_vec_dot p (unit_of V0) = t8_vec_dot V3 (unit_of V0)) :
    plane_radius p V0 V3 = t8_vec_norm V3 := by
  unfold plane_radius
  rw [hp]
  have e : t8_vec_dot (unit_of V3) (unit_of V0)
      = (1 / t8_vec_norm V3) * t8_vec_dot V3 (unit_of V0) := by
    rw [unit_of, t8_vec_dot_ax_left]
  rw [e]
  field_simp

/-- Claim C24.  Circular outer boundary of the disk.  For a side quad of the quadrangulated
disk (`gtreeid mod 3` not 0) with `V0` not zero, `V0 . V3` not zero, and whose outer edge
(corners 1 and 3 when the radial index is 0, corners 2 and 3 when it is 1) is perpendicular
to `V0`: for every point of a batch with radial coordinate `r_ref = 1` at which the
interpolated corrected vector is not zero, the output has a value and its norm is `|V3|`. -/
theorem C24_disk_outer_boundary (atv : Nat → ℝ) (gtreeid : Nat) (ref_coords : Nat → ℝ)
    (num_coords : Nat) (out_coords : Nat → Option ℝ) (i : Nat) (hi : i < num_coords)
    (hg : gtreeid % 3 ≠ 0)
    (h0 : t8_vec_norm (corner atv 0) ≠ 0)
    (hd : t8_vec_dot (corner atv 0) (corner atv 3) ≠ 0)
    (houter : t8_vec_dot
        (t8_vec_diff (corner atv (disk_outer_corner gtreeid)) (corner atv 3))
        (corner atv 0) = 0)
    (hr : ref_coords (2 * i + t8_geometry_quadrangulated_disk.r_coord gtreeid) = 1)
    (hs : t8_vec_norm (bilinear (corner atv)
        (disk_corrected gtreeid (shiftBuf ref_coords (2 * i)) 0)
        (disk_corrected gtreeid (shiftBuf ref_coords (2 * i)) 1)) ≠ 0) :
    (t8_vec_dot (corner atv (disk_outer_corner gtreeid)) (unit_of (corner atv 0))
        = t8_vec_dot (corner atv 3) (unit_of (corner atv 0)))
      ∧ ∃ v, readVec (t8_geometry_quadrangulated_disk.t8_geom_evaluate atv gtreeid ref_coords
            num_coords out_coords) (3 * i) = some v
        ∧ t8_vec_norm v = t8_vec_norm (corner atv 3) := by
  have hd2 : t8_vec_dot (corner atv 3) (corner atv 0) ≠ 0 := by
    rw [t8_vec_dot_comm]
    exact hd
  have h3 : t8_vec_norm (corner atv 3) ≠ 0 := t8_vec_norm_ne_zero_of_dot _ _ hd2
  have hcomp : ∀ v : Vec3, t8_vec_dot v (unit_of (corner atv 0))
      = (1 / t8_vec_norm (corner atv 0)) * t8_vec_dot v (corner atv 0) := by
    intro v
    simp only [unit_of, t8_vec_dot, t8_vec_ax]
    ring
  have ho : t8_vec_dot (corner atv (disk_outer_corner gtreeid)) (unit_of (corner atv 0))
      = t8_vec_dot (corner atv 3) (unit_of (corner atv 0)) := by
    rw [hcomp, hcomp]
    congr 1
    simp only [t8_vec_dot, t8_vec_diff] at houter ⊢
    linarith
  have hdn : t8_vec_dot (corner atv 3) (unit_of (corner atv 0)) ≠ 0 := by
    rw [hcomp]
    exact mul_ne_zero (one_div_ne_zero h0) hd2
  have hp := disk_outer_edge_dot atv gtreeid (shiftBuf ref_coords (2 * i))
    (unit_of (corner atv 0)) hr ho
  have hrho := plane_radius_outer _ (corner atv 0) (corner atv 3) hdn hp
  have hr2 : shiftBuf ref_coords (2 * i) (t8_geometry_quadrangulated_disk.r_coord gtreeid) = 1 :=
    hr
  refine ⟨ho, t8_vec_ax (unit_of (bilinear (corner atv)
      (disk_corrected gtreeid (shiftBuf ref_coords (2 * i)) 0)
      (disk_corrected gtreeid (shiftBuf ref_coords (2 * i)) 1)))
    (t8_vec_norm (corner atv 3)), ?_, ?_⟩
  · rw [disk_read atv gtreeid ref_coords num_coords out_coords i hi, if_neg hg,
      disk_side_blend_eq, side_blend_some _ _ _ _ _ h0 h3 hd2 hs, hr2, blend_one, hrho]
  · rw [t8_vec_norm_ax, t8_vec_norm_unit_of _ hs, mul_one]
    exact abs_of_nonneg (t8_vec_norm_nonneg _)

/-- Witness of C24: the side quad `disk_side` as tree 2, whose outer edge from `(2,0,0)` to
`(2,2,0)` is perpendicular to `V0 = (1,0,0)`, at the reference point `(1, 1/2)`. -/
theorem C24_disk_outer_boundary_witness :
    (0 < 1 ∧ 2 % 3 ≠ 0
      ∧ t8_vec_norm (corner disk_side 0) ≠ 0
      ∧ t8_vec_dot (corner disk_side 0) (corner disk_side 3) ≠ 0
      ∧ t8_vec_dot (t8_vec_diff (corner disk_side (disk_outer_corner 2)) (corner disk_side 3))
          (corner disk_side 0) = 0
      ∧ arrayOf [1, 1 / 2] (2 * 0 + t8_geometry_quadrangulated_disk.r_coord 2) = 1
      ∧ t8_vec_norm (bilinear (corner disk_side)
          (disk_corrected 2 (shiftBuf (arrayOf [1, 1 / 2]) (2 * 0)) 0)
          (disk_corrected 2 (shiftBuf (arrayOf [1, 1 / 2]) (2 * 0)) 1)) ≠ 0)
    ∧ ∃ v, readVec (t8_geometry_quadrangulated_disk.t8_geom_evaluate disk_side 2
          (arrayOf [1, 1 / 2]) 1 (fun _ => none)) (3 * 0) = some v
      ∧ t8_vec_norm v = t8_vec_norm (corner disk_side 3) := by
  obtain ⟨c0, c1, c2, c3⟩ := disk_side_corners
  have hrc : t8_geometry_quadrangulated_disk.r_coord 2 = 0 := ((disk_coords 2).1 (by decide)).1
  have hac : t8_geometry_quadrangulated_disk.a_coord 2 = 1 := ((disk_coords 2).1 (by decide)).2
  have h0 : t8_vec_norm (corner disk_side 0) ≠ 0 := disk_side_ok.1
  have hd : t8_vec_dot (corner disk_side 0) (corner disk_side 3) ≠ 0 := by
    rw [c0, c3]
    norm_num [t8_vec_dot]
  have ho : t8_vec_dot (t8_vec_diff (corner disk_side (disk_outer_corner 2)) (corner disk_side 3))
      (corner disk_side 0) = 0 := by
    have e : disk_outer_corner 2 = 1 := by
      unfold disk_outer_corner
      rw [hrc]
      rfl
    rw [e, c0, c1, c3]
    norm_num [t8_vec_dot, t8_vec_diff]
  have hr : arrayOf [1, 1 / 2] (2 * 0 + t8_geometry_quadrangulated_disk.r_coord 2) = 1 := by
    rw [hrc]
    simp [arrayOf]
  have x0 : disk_corrected 2 (shiftBuf (arrayOf [1, 1 / 2]) (2 * 0)) 0 = 1 := by
    simp [disk_corrected, hac, shiftBuf, arrayOf]
  have hs : t8_vec_norm (bilinear (corner disk_side)
      (disk_corrected 2 (shiftBuf (arrayOf [1, 1 / 2]) (2 * 0)) 0)
      (disk_corrected 2 (shiftBuf (arrayOf [1, 1 / 2]) (2 * 0)) 1)) ≠ 0 := by
    rw [x0]
    apply t8_vec_norm_ne_zero_of_dot _ ⟨1, 0, 0⟩
    simp only [bilinear, c0, c1, c2, c3, t8_vec_dot]
    intro h
    ring_nf at h
    norm_num at h
  exact ⟨⟨Nat.zero_lt_one, by decide, h0, hd, ho, hr, hs⟩,
    (C24_disk_outer_boundary disk_side 2 (arrayOf [1, 1 / 2]) 1 (fun _ => none) 0
      Nat.zero_lt_one (by decide) h0 hd ho hr hs).2⟩

end DiskBoundaryFacts

/-! ## Fixed points of the tangent correction of a cube face -/

section FixedPointFacts

theorem tan_quarter_pi : tan (0.25 * M_PI) = 1 := by
  have e : (0.25 : ℝ) * M_PI = Real.pi / 4 := by
    have e1 : (0.25 : ℝ) = 1 / 4 := by norm_num
    rw [e1, M_PI]
    ring
  rw [e, tan, Real.tan_pi_div_four]

/-- The tangent correction is odd and fixes `-R`, `0` and `R`. -/
theorem tangent_correction_fixed (R : ℝ) (hR : R ≠ 0) :
    (∀ d, tangent_correction R (-d) = -tangent_correction R d)
      ∧ tangent_correction R 0 = 0 ∧ tangent_correction R R = R
      ∧ tangent_correction R (-R) = -R := by
  have hodd : ∀ d, tangent_correction R (-d) = -tangent_correction R d := by
    intro d
    unfold tangent_correction tan
    have e : 0.25 * M_PI * -d / R = -(0.25 * M_PI * d / R) := by ring
    rw [e, Real.tan_neg]
    ring
  have hone : tangent_correction R R = R := by
    unfold tangent_correction
    have e : 0.25 * M_PI * R / R = 0.25 * M_PI := by field_simp
    rw [e, tan_quarter_pi, mul_one]
  refine ⟨hodd, ?_, hone, ?_⟩
  · unfold tangent_correction
    rw [mul_zero, zero_div, tan_at_zero, mul_zero]
  · rw [hodd, hone]

/-- The vector `out_pos` in terms of the tangent correction of the two tangential
offsets. -/
theorem face_out_pos_eq (atv : Nat → ℝ) (f : FaceFrame) (ref : Nat → ℝ) (hR : f.R ≠ 0) :
    face_out_pos atv f ref
      = some (t8_vec_axpy f.tangent2
          (t8_vec_axpy f.tangent1 (t8_vec_copy f.origin)
            (tangent_correction f.R
              (t8_vec_dot f.tangent1 (t8_vec_diff (bilinear (corner atv) (ref 0) (ref 1))
                f.origin))))
          (tangent_correction f.R
            (t8_vec_dot f.tangent2 (t8_vec_diff (bilinear (corner atv) (ref 0) (ref 1))
              f.origin)))) := by
  simp only [face_out_pos, fdiv, hR, if_false, Option.bind_eq_bind, Option.some_bind,
    Option.pure_def, interpolation_bilinear]
  rfl

theorem t8_vec_cross_ax (n t : Vec3) (a : ℝ) :
    t8_vec_cross n (t8_vec_ax t a) = t8_vec_ax (t8_vec_cross n t) a := by
  rw [Vec3.ext_iff3]
  simp only [t8_vec_cross, t8_vec_ax]
  refine ⟨?_, ?_, ?_⟩ <;> ring

/-- What a frame that exists consists of: a unit normal, a unit tangent orthogonal to it, and
their cross product. -/
theorem face_frame_full (atv : Nat → ℝ) (f : FaceFrame) (hf : face_frame atv = some f) :
    t8_vec_norm (face_normal atv) ≠ 0
      ∧ f.normal = unit_normal atv
      ∧ f.R = |t8_vec_dot (corner atv 0) (unit_normal atv)|
      ∧ f.origin = t8_vec_axy f.normal f.R
      ∧ t8_vec_dot f.normal f.normal = 1
      ∧ t8_vec_dot f.tangent1 f.tangent1 = 1
      ∧ t8_vec_dot f.tangent1 f.normal = 0
      ∧ f.tangent2 = t8_vec_cross f.normal f.tangent1 := by
  have hN : t8_vec_norm (face_normal atv) ≠ 0 := by
    intro h0
    have hnone : t8_vec_normalize
        (t8_vec_tri_normal (vecAt atv 0) (vecAt atv 3) (vecAt atv 6)) = none :=
      t8_vec_normalize_of_eq _ h0
    simp only [face_frame, hnone, Option.bind_eq_bind, Option.none_bind] at hf
    exact absurd hf (by simp)
  have hdeg : ¬ ((face_normal atv).y = -(face_normal atv).x
      ∧ (face_normal atv).z = (face_normal atv).x) := by
    intro hdeg
    rw [face_frame_none atv hN hdeg] at hf
    exact absurd hf (by simp)
  have hunit : t8_vec_dot (unit_normal atv) (unit_normal atv) = 1 := t8_vec_dot_unit _ hN
  have hdeg2 : ¬ ((unit_normal atv).y = -(unit_normal atv).x
      ∧ (unit_normal atv).z = (unit_normal atv).x) := by
    rintro ⟨h1, h2⟩
    apply hdeg
    have ha : (1 / t8_vec_norm (face_normal atv)) ≠ 0 := one_div_ne_zero hN
    simp only [unit_normal, t8_vec_ax] at h1 h2
    constructor
    · apply mul_left_cancel₀ ha
      linarith
    · apply mul_left_cancel₀ ha
      linarith
  have ht1 := tangent1_raw_ne_zero _ hunit hdeg2
  have ho1 := tangent1_raw_orthogonal _ hunit
  have hdot2 := t8_vec_cross_unit_orthogonal _ _ hunit ho1
  have hnorm2 : t8_vec_norm (t8_vec_cross (unit_normal atv)
      (t8_vec_axpy (unit_normal atv) ⟨(unit_normal atv).y, (unit_normal atv).z,
        -(unit_normal atv).x⟩
        (-(t8_vec_dot (unit_normal atv) ⟨(unit_normal atv).y, (unit_normal atv).z,
          -(unit_normal atv).x⟩))))
      = t8_vec_norm (t8_vec_axpy (unit_normal atv) ⟨(unit_normal atv).y, (unit_normal atv).z,
        -(unit_normal atv).x⟩
        (-(t8_vec_dot (unit_normal atv) ⟨(unit_normal atv).y, (unit_normal atv).z,
          -(unit_normal atv).x⟩))) := by
    unfold t8_vec_norm
    rw [hdot2]
  have ht2 : t8_vec_norm (t8_vec_cross (unit_normal atv)
      (t8_vec_axpy (unit_normal atv) ⟨(unit_normal atv).y, (unit_normal atv).z,
        -(unit_normal atv).x⟩
        (-(t8_vec_dot (unit_normal atv) ⟨(unit_normal atv).y, (unit_normal atv).z,
          -(unit_normal atv).x⟩)))) ≠ 0 := by
    rw [hnorm2]
    exact ht1
  have hnorm : t8_vec_normalize (t8_vec_tri_normal (vecAt atv 0) (vecAt atv 3) (vecAt atv 6))
      = some (unit_normal atv) := t8_vec_normalize_of_ne _ hN
  simp only [face_frame, hnorm, t8_vec_normalize_of_ne _ ht1, t8_vec_normalize_of_ne _ ht2,
    Option.bind_eq_bind, Option.some_bind, Option.pure_def] at hf
  have hf2 := Option.some.inj hf
  rw [← hf2]
  refine ⟨hN, rfl, rfl, rfl, hunit, t8_vec_dot_unit _ ht1, ?_, ?_⟩
  · rw [t8_vec_dot_ax_left, ho1, mul_zero]
  · show t8_vec_ax _ _ = t8_vec_cross _ (t8_vec_ax _ _)
    rw [t8_vec_cross_ax, hnorm2]

/-- A vector orthogonal to the unit vector `n` is the sum of its components along a unit
vector `t` orthogonal to `n` and along `n x t`. -/
theorem tangent_plane_decomposition (n t w o : Vec3) (hn : t8_vec_dot n n = 1)
    (ht : t8_vec_dot t t = 1) (htn : t8_vec_dot t n = 0) (hw : t8_vec_dot w n = 0) :
    t8_vec_axpy (t8_vec_cross n t) (t8_vec_axpy t (t8_vec_copy o) (t8_vec_dot t w))
        (t8_vec_dot (t8_vec_cross n t) w)
      = ⟨o.x + w.x, o.y + w.y, o.z + w.z⟩ := by
  rw [Vec3.ext_iff3]
  simp only [t8_vec_dot, t8_vec_cross, t8_vec_axpy, t8_vec_copy] at hn ht htn hw ⊢
  refine ⟨?_, ?_, ?_⟩
  · linear_combination (w.x * (t.x * t.x + t.y * t.y + t.z * t.z) - (t.x * w.x + t.y * w.y + t.z * w.z) * t.x) * hn
      + w.x * ht
      + (-w.x * (t.x * n.x + t.y * n.y + t.z * n.z) + (t.x * w.x + t.y * w.y + t.z * w.z) * n.x + (w.x * n.x + w.y * n.y + w.z * n.z) * t.x) * htn
      + (-(t.x * t.x + t.y * t.y + t.z * t.z) * n.x) * hw
  · linear_combination (w.y * (t.x * t.x + t.y * t.y + t.z * t.z) - (t.x * w.x + t.y * w.y + t.z * w.z) * t.y) * hn
      + w.y * ht
      + (-w.y * (t.x * n.x + t.y * n.y + t.z * n.z) + (t.x * w.x + t.y * w.y + t.z * w.z) * n.y + (w.x * n.x + w.y * n.y + w.z * n.z) * t.y) * htn
      + (-(t.x * t.x + t.y * t.y + t.z * t.z) * n.y) * hw
  · linear_combination (w.z * (t.x * t.x + t.y * t.y + t.z * t.z) - (t.x * w.x + t.y * w.y + t.z * w.z) * t.z) * hn
      + w.z * ht
      + (-w.z * (t.x * n.x + t.y * n.y + t.z * n.z) + (t.x * w.x + t.y * w.y + t.z * w.z) * n.z + (w.x * n.x + w.y * n.y + w.z * n.z) * t.z) * htn
      + (-(t.x * t.x + t.y * t.y + t.z * t.z) * n.z) * hw

/-- On a planar face the flat point has the same component along the face normal as the
first corner. -/
theorem bilinear_dot_planar (atv : Nat → ℝ) (x y : ℝ)
    (hp : t8_vec_dot (t8_vec_diff (corner atv 3) (corner atv 0)) (face_normal atv) = 0) :
    t8_vec_dot (bilinear (corner atv) x y) (face_normal atv)
      = t8_vec_dot (corner atv 0) (face_normal atv) := by
  simp only [t8_vec_dot, bilinear, corner, vecAt, face_normal, t8_vec_tri_normal, t8_vec_cross,
    t8_vec_diff, Nat.reduceMul, Nat.reduceAdd] at hp ⊢
  linear_combination (x * y) * hp

/-- The tangent correction leaves an offset `-R`, `0` or `R` unchanged. -/
theorem tangent_correction_of_mem (R d : ℝ) (hR : R ≠ 0) (hd : d = -R ∨ d = 0 ∨ d = R) :
    tangent_correction R d = d := by
  obtain ⟨_, h0, h1, h2⟩ := tangent_correction_fixed R hR
  rcases hd with h | h | h
  · rw [h, h2]
  · rw [h, h0]
  · rw [h, h1]

/-- Claim C25.  Fixed points of the tangent correction of the quadrangulated spherical
surface.  The correction `d -> R * tan (pi/4 * d / R)` (`R > 0`) is odd and maps `-R`, `0`,
`R` to themselves.  Consequently, for a planar quad face whose frame exists (the tangents are
then orthonormal) with `V0 . n > 0`, at every point of a batch whose flat position has
tangential offsets `d1`, `d2` in `-R, 0, R` from the radial origin: `R` is `V0 . n`, the
corrected position is the flat-interpolated point, and the output is that point rescaled to
the radius `R * _SQRT3`; it has a value, of norm `R * _SQRT3`. -/
theorem C25_quad_sphere_fixed_points (atv : Nat → ℝ) (gtreeid : Nat) (ref_coords : Nat → ℝ)
    (num_coords : Nat) (out_coords : Nat → Option ℝ) (i : Nat) (f : FaceFrame)
    (hi : i < num_coords) (hf : face_frame atv = some f)
    (hpos : 0 < t8_vec_dot (corner atv 0) f.normal)
    (hplanar : t8_vec_dot (t8_vec_diff (corner atv 3) (corner atv 0)) f.normal = 0)
    (hd1 : t8_vec_dot f.tangent1 (t8_vec_diff (bilinear (corner atv) (ref_coords (2 * i)) (ref_coords (2 * i + 1))) f.origin) = -f.R
      ∨ t8_vec_dot f.tangent1 (t8_vec_diff (bilinear (corner atv) (ref_coords (2 * i)) (ref_coords (2 * i + 1))) f.origin) = 0
      ∨ t8_vec_dot f.tangent1 (t8_vec_diff (bilinear (corner atv) (ref_coords (2 * i)) (ref_coords (2 * i + 1))) f.origin) = f.R)
    (hd2 : t8_vec_dot f.tangent2 (t8_vec_diff (bilinear (corner atv) (ref_coords (2 * i)) (ref_coords (2 * i + 1))) f.origin) = -f.R
      ∨ t8_vec_dot f.tangent2 (t8_vec_diff (bilinear (corner atv) (ref_coords (2 * i)) (ref_coords (2 * i + 1))) f.origin) = 0
      ∨ t8_vec_dot f.tangent2 (t8_vec_diff (bilinear (corner atv) (ref_coords (2 * i)) (ref_coords (2 * i + 1))) f.origin) = f.R) :
    (∀ R : ℝ, 0 < R →
        (∀ d, tangent_correction R (-d) = -tangent_correction R d)
          ∧ tangent_correction R 0 = 0 ∧ tangent_correction R R = R
          ∧ tangent_correction R (-R) = -R)
      ∧ f.R = t8_vec_dot (corner atv 0) f.normal
      ∧ face_out_pos atv f (shiftBuf ref_coords (2 * i)) = some (bilinear (corner atv) (ref_coords (2 * i)) (ref_coords (2 * i + 1)))
      ∧ readVec (t8_geometry_quadrangulated_spherical_surface.t8_geom_evaluate atv gtreeid
            ref_coords num_coords out_coords) (3 * i)
          = t8_vec_rescale (bilinear (corner atv) (ref_coords (2 * i)) (ref_coords (2 * i + 1))) (f.R * _SQRT3)
      ∧ ∃ v, readVec (t8_geometry_quadrangulated_spherical_surface.t8_geom_evaluate atv gtreeid
            ref_coords num_coords out_coords) (3 * i) = some v
          ∧ t8_vec_norm v = f.R * _SQRT3 := by
  obtain ⟨hN, hfn, hfR, hfo, hnn, htt, htn, ht2⟩ := face_frame_full atv f hf
  have hR : f.R = t8_vec_dot (corner atv 0) f.normal := by
    rw [hfR, ← hfn]
    exact abs_of_pos hpos
  have hRpos : 0 < f.R := by
    rw [hR]
    exact hpos
  have hR0 : f.R ≠ 0 := ne_of_gt hRpos
  have hinv : (1 / t8_vec_norm (face_normal atv)) ≠ 0 := one_div_ne_zero hN
  have hplanar2 : t8_vec_dot (t8_vec_diff (corner atv 3) (corner atv 0)) (face_normal atv)
      = 0 := by
    rw [hfn, t8_vec_dot_unit_normal] at hplanar
    exact (mul_eq_zero.mp hplanar).resolve_left hinv
  have hpn : t8_vec_dot (bilinear (corner atv) (ref_coords (2 * i)) (ref_coords (2 * i + 1))) f.normal = f.R := by
    rw [hR, hfn, t8_vec_dot_unit_normal, t8_vec_dot_unit_normal,
      bilinear_dot_planar atv _ _ hplanar2]
  have hw : t8_vec_dot (t8_vec_diff (bilinear (corner atv) (ref_coords (2 * i)) (ref_coords (2 * i + 1))) f.origin) f.normal = 0 := by
    have e : t8_vec_dot (t8_vec_diff (bilinear (corner atv) (ref_coords (2 * i)) (ref_coords (2 * i + 1))) (t8_vec_axy f.normal f.R)) f.normal
        = t8_vec_dot (bilinear (corner atv) (ref_coords (2 * i)) (ref_coords (2 * i + 1))) f.normal - f.R * t8_vec_dot f.normal f.normal := by
      simp only [t8_vec_dot, t8_vec_diff, t8_vec_axy]
      ring
    rw [hfo, e, hpn, hnn]
    ring
  have hpos_out : face_out_pos atv f (shiftBuf ref_coords (2 * i)) = some (bilinear (corner atv) (ref_coords (2 * i)) (ref_coords (2 * i + 1))) := by
    have e := face_out_pos_eq atv f (shiftBuf ref_coords (2 * i)) hR0
    have e0 : shiftBuf ref_coords (2 * i) 0 = ref_coords (2 * i) := rfl
    have e1 : shiftBuf ref_coords (2 * i) 1 = ref_coords (2 * i + 1) := rfl
    rw [e0, e1, tangent_correction_of_mem _ _ hR0 hd1, tangent_correction_of_mem _ _ hR0 hd2,
      ht2, tangent_plane_decomposition _ _ _ _ hnn htt htn hw] at e
    rw [e]
    congr 1
    rw [Vec3.ext_iff3]
    simp only [t8_vec_diff]
    refine ⟨?_, ?_, ?_⟩ <;> ring
  have hread : readVec (t8_geometry_quadrangulated_spherical_surface.t8_geom_evaluate atv gtreeid
            ref_coords num_coords out_coords) (3 * i)
      = t8_vec_rescale (bilinear (corner atv) (ref_coords (2 * i)) (ref_coords (2 * i + 1))) (f.R * _SQRT3) := by
    rw [t8_geometry_quadrangulated_spherical_surface.quad_sphere_read atv gtreeid ref_coords
      num_coords out_coords i hi, hf]
    simp only [Option.some_bind, t8_geometry_quadrangulated_spherical_surface.point, hpos_out,
      Option.bind_eq_bind]
  have hpne : t8_vec_norm (bilinear (corner atv) (ref_coords (2 * i)) (ref_coords (2 * i + 1))) ≠ 0 := by
    apply t8_vec_norm_ne_zero_of_dot _ f.normal
    rw [hpn]
    exact hR0
  obtain ⟨v, hv, hvn⟩ := t8_vec_rescale_norm (bilinear (corner atv) (ref_coords (2 * i)) (ref_coords (2 * i + 1))) (f.R * _SQRT3) hpne
  refine ⟨fun R hRp => tangent_correction_fixed R (ne_of_gt hRp), hR, hpos_out, hread,
    v, hread.trans hv, ?_⟩
  rw [hvn]
  exact abs_of_pos (mul_pos hRpos _SQRT3_pos)

end FixedPointFacts

section CubeTopFrame

theorem t8_vec_normalize_unit (v : Vec3) (h : t8_vec_norm v = 1) :
    t8_vec_normalize v = some v := by
  have hne : t8_vec_norm v ≠ 0 := by
    rw [h]
    exact one_ne_zero
  rw [t8_vec_normalize_of_ne v hne, h]
  congr 1
  rw [Vec3.ext_iff3]
  simp [t8_vec_ax]

theorem unit_normal_cube_top : unit_normal cube_top = ⟨0, 0, 1⟩ := by
  have hn4 : t8_vec_norm (⟨0, 0, 4⟩ : Vec3) = 4 := by
    unfold t8_vec_norm t8_vec_dot
    have e : (0 : ℝ) * 0 + 0 * 0 + 4 * 4 = 4 * 4 := by norm_num
    rw [e, Real.sqrt_mul_self (by norm_num)]
  unfold unit_normal
  rw [face_normal_cube_top, hn4, Vec3.ext_iff3]
  norm_num [t8_vec_ax]

theorem face_frame_cube_top :
    face_frame cube_top = some cube_top_frame := by
  have hnorm : t8_vec_normalize
      (t8_vec_tri_normal (vecAt cube_top 0) (vecAt cube_top 3) (vecAt cube_top 6))
      = some ⟨0, 0, 1⟩ := by
    have h : t8_vec_normalize
        (t8_vec_tri_normal (vecAt cube_top 0) (vecAt cube_top 3) (vecAt cube_top 6))
        = some (unit_normal cube_top) := t8_vec_normalize_of_ne _ cube_top_normal_ne
    rw [h, unit_normal_cube_top]
  have hv0 : vecAt cube_top 0 = ⟨-1, -1, 1⟩ := corner_zero_cube_top
  have ht1 : t8_vec_axpy (⟨0, 0, 1⟩ : Vec3) ⟨0, 1, -0⟩
      (-t8_vec_dot (⟨0, 0, 1⟩ : Vec3) ⟨0, 1, -0⟩) = ⟨0, 1, 0⟩ := by
    rw [Vec3.ext_iff3]
    norm_num [t8_vec_axpy, t8_vec_dot]
  have ht2 : t8_vec_cross (⟨0, 0, 1⟩ : Vec3) ⟨0, 1, 0⟩ = ⟨-1, 0, 0⟩ := by
    rw [Vec3.ext_iff3]
    norm_num [t8_vec_cross]
  have hn2 : t8_vec_norm (⟨-1, 0, 0⟩ : Vec3) = 1 := by
    simp [t8_vec_norm, t8_vec_dot]
  have hR : |t8_vec_dot (⟨-1, -1, 1⟩ : Vec3) ⟨0, 0, 1⟩| = 1 := by
    norm_num [t8_vec_dot]
  have ho : t8_vec_axy (⟨0, 0, 1⟩ : Vec3) 1 = ⟨0, 0, 1⟩ := by
    rw [Vec3.ext_iff3]
    norm_num [t8_vec_axy]
  simp only [face_frame, hnorm, Option.bind_eq_bind, Option.some_bind]
  rw [ht1, ht2, t8_vec_normalize_unit _ norm_e2, t8_vec_normalize_unit _ hn2, hv0]
  simp only [Option.some_bind, Option.pure_def, hR, ho]
  rfl

theorem cube_top_frame_ok :
    0 < t8_vec_dot (corner cube_top 0) cube_top_frame.normal
      ∧ t8_vec_dot (t8_vec_diff (corner cube_top 3) (corner cube_top 0)) cube_top_frame.normal
          = 0
      ∧ t8_vec_dot cube_top_frame.tangent1
          (t8_vec_diff
            (bilinear (corner cube_top) (arrayOf [0, 0] (2 * 0)) (arrayOf [0, 0] (2 * 0 + 1)))
            cube_top_frame.origin) = -cube_top_frame.R
      ∧ t8_vec_dot cube_top_frame.tangent2
          (t8_vec_diff
            (bilinear (corner cube_top) (arrayOf [0, 0] (2 * 0)) (arrayOf [0, 0] (2 * 0 + 1)))
            cube_top_frame.origin) = cube_top_frame.R := by
  obtain ⟨c0, c1, c2, c3, _⟩ := cube_top_corners
  have hx : arrayOf [0, 0] (2 * 0) = (0 : ℝ) := by simp [arrayOf]
  have hy : arrayOf [0, 0] (2 * 0 + 1) = (0 : ℝ) := by simp [arrayOf]
  rw [hx, hy]
  simp only [cube_top_frame, bilinear, c0, c1, c2, c3, t8_vec_dot, t8_vec_diff]
  norm_num

/-- Witness of C25: the top face of the cube `[-1,1]^3` at the reference corner `(0, 0)`,
whose flat position `(-1,-1,1)` has the tangential offsets `-R` and `R`. -/
theorem C25_quad_sphere_fixed_points_witness :
    (0 < 1 ∧ face_frame cube_top = some cube_top_frame
      ∧ 0 < t8_vec_dot (corner cube_top 0) cube_top_frame.normal
      ∧ t8_vec_dot (t8_vec_diff (corner cube_top 3) (corner cube_top 0)) cube_top_frame.normal
          = 0
      ∧ t8_vec_dot cube_top_frame.tangent1
          (t8_vec_diff
            (bilinear (corner cube_top) (arrayOf [0, 0] (2 * 0)) (arrayOf [0, 0] (2 * 0 + 1)))
            cube_top_frame.origin) = -cube_top_frame.R
      ∧ t8_vec_dot cube_top_frame.tangent2
          (t8_vec_diff
            (bilinear (corner cube_top) (arrayOf [0, 0] (2 * 0)) (arrayOf [0, 0] (2 * 0 + 1)))
            cube_top_frame.origin) = cube_top_frame.R)
    ∧ readVec (t8_geometry_quadrangulated_spherical_surface.t8_geom_evaluate cube_top 0
          (arrayOf [0, 0]) 1 (fun _ => none)) (3 * 0)
        = t8_vec_rescale
            (bilinear (corner cube_top) (arrayOf [0, 0] (2 * 0)) (arrayOf [0, 0] (2 * 0 + 1)))
            (cube_top_frame.R * _SQRT3) :=
  ⟨⟨Nat.zero_lt_one, face_frame_cube_top, cube_top_frame_ok.1, cube_top_frame_ok.2.1,
      cube_top_frame_ok.2.2.1, cube_top_frame_ok.2.2.2⟩,
    (C25_quad_sphere_fixed_points cube_top 0 (arrayOf [0, 0]) 1 (fun _ => none) 0
      cube_top_frame Nat.zero_lt_one face_frame_cube_top cube_top_frame_ok.1
      cube_top_frame_ok.2.1 (Or.inl cube_top_frame_ok.2.2.1)
      (Or.inr (Or.inr cube_top_frame_ok.2.2.2))).2.2.2.1⟩

end CubeTopFrame

end T8
